import Mathlib

/-!
# Scenario repository of OpenRCT2 (`src/openrct2/scenario/ScenarioRepository.cpp`)

A shallow embedding of the scenario repository: the in-memory scenario
collection with its filename-keyed insertion, the highscore table with the
acceptance rule of `TryRecordHighscore`, the highscore checksum and the loader
of the persisted score store, the merge of the legacy score files, the cache
format of the scenario index, the two sort orders, the lookups and `Scan`;
and of the key table of `src/openrct2-ui/input/KeyboardShortcuts.cpp`.

Conventions of the embedding.

* A C string (`utf8*`, `char[N]`, `std::string`) is a `List Char`; a pointer
  that may be null is an `Option`.
* Machine integers are `Nat` (unsigned) or `Int` (signed); where the code
  relies on 32-bit wrap-around the reduction modulo `2 ^ 32` is explicit.
* A pointer into the highscore table (`scenario_highscore_entry*`) is the
  position of the record in `_highscores`.
* Console output and error logging are recorded as a list of `Diagnostic`s.
-/

namespace OpenRCT2

/-! ## Strings and paths -/

/-- A C string: the characters before the terminating NUL. -/
abbrev utf8string := List Char

/-- ASCII lower-casing of a whole string, as `_stricmp` applies it character
by character. -/
def toLowerAscii (s : utf8string) : utf8string :=
  s.map Char.toLower

/-- Modelled from the spec: `String::Equals(a, b, ignoreCase)` of
`core/String.cpp`, which is not among the sources. Two equal pointers (here:
both null) are equal, a null pointer differs from every string, and otherwise
the strings are compared with `_stricmp` (ignoring case) or `strcmp`. -/
def String.Equals (a b : Option utf8string) (ignoreCase : Bool) : Bool :=
  match a, b with
  | none, none => true
  | none, some _ => false
  | some _, none => false
  | some x, some y =>
    if ignoreCase then decide (toLowerAscii x = toLowerAscii y) else decide (x = y)

/-- Modelled from the spec: `String::IsNullOrEmpty` of `core/String.cpp`,
which is not among the sources. -/
def String.IsNullOrEmpty (s : Option utf8string) : Bool :=
  match s with
  | none => true
  | some x => x.isEmpty

/-- The characters that separate path components: `/` and the backslash. -/
def isPathSeparator (c : Char) : Bool :=
  c.toNat == 47 || c.toNat == 92

/-- Modelled from the spec: `Path::GetFileName` of `core/Path.cpp`, which is
not among the sources: the last path component, that is the characters after
the last path separator (the whole string when there is none). -/
def Path.GetFileName : utf8string → utf8string
  | [] => []
  | c :: rest =>
    if rest.any isPathSeparator then Path.GetFileName rest
    else if isPathSeparator c then rest
    else c :: rest

/-! ## Data model -/

/-- One leaderboard record (`scenario_highscore_entry`). `InsertHighscore`
zero-fills a new record, so both strings start as null pointers. -/
structure scenario_highscore_entry where
  scen_file : Option utf8string
  scen_winner : Option utf8string
  company_value : Int
  timestamp : Int
  record_days : Int
  deriving DecidableEq, Repr

/-- One scenario summary (`scenario_index_entry`). The `highscore` pointer is
the position of the referenced record in the highscore table. -/
structure scenario_index_entry where
  path : utf8string
  timestamp : Nat
  category : Nat
  source_game : Nat
  source_index : Int
  sc_id : Nat
  objective_type : Nat
  objective_arg_1 : Nat
  objective_arg_2 : Int
  objective_arg_3 : Int
  highscore : Option Nat
  internal_name : utf8string
  name : utf8string
  details : utf8string
  deriving DecidableEq, Repr

/-- The lines the repository writes to the console or the error log. -/
inductive Diagnostic where
  /-- Text: `Scenario conflict: '<path>' ignored because it is newer.` -/
  | scenarioConflict (conflictPath : utf8string)
  /-- Text: `Tried to add scenario with an empty filename!` -/
  | emptyFilename
  /-- Text: `Highscore checksum mismatch` -/
  | checksumMismatch
  /-- Text: `Error reading highscores.` -/
  | errorReadingHighscores
  /-- Text: `Unable to save highscores to '<path>'` -/
  | unableToSaveHighscores
  /-- Text: `Error reading legacy scenario scores file: '<path>'` -/
  | errorReadingLegacyScores
  /-- Text: `Unable to read scenario: '<path>'` -/
  | unableToReadScenario (path : utf8string)
  deriving DecidableEq, Repr

/-! ## The scenario collection -/

/-- The test of the loop of `GetByFilename`: does the file name of
`scenario.path` equal `filename`, ignoring case? -/
def filenameMatches (filename : Option utf8string) (scenario : scenario_index_entry) : Bool :=
  String.Equals filename (some (Path.GetFileName scenario.path)) true

/-- The lookup `ScenarioRepository::GetByFilename`: a linear scan returning
the first match, `none` for `nullptr`. -/
def GetByFilename (scenarios : List scenario_index_entry)
    (filename : Option utf8string) : Option scenario_index_entry :=
  scenarios.find? (filenameMatches filename)

/-- The position in the collection of the entry `GetByFilename` points to
(the length of the collection when it returns `nullptr`). -/
def GetByFilenameIndex (scenarios : List scenario_index_entry)
    (filename : Option utf8string) : Nat :=
  scenarios.findIdx (filenameMatches filename)

/-- The effect of `ScenarioRepository::AddScenario` on the collection and on
the console: the new collection and the diagnostics written by the call. -/
def AddScenario (scenarios : List scenario_index_entry) (entry : scenario_index_entry) :
    List scenario_index_entry × List Diagnostic :=
  let filename := Path.GetFileName entry.path
  if !String.Equals (some filename) (some []) false then
    match GetByFilename scenarios (some filename) with
    | some existingEntry =>
      if existingEntry.timestamp > entry.timestamp then
        -- "Existing entry is more recent": overwrite existing entry with this one
        (scenarios.set (GetByFilenameIndex scenarios (some filename)) entry,
          [Diagnostic.scenarioConflict existingEntry.path])
      else
        -- "This entry is more recent"
        (scenarios, [Diagnostic.scenarioConflict entry.path])
    | none => (scenarios ++ [entry], [])
  else
    (scenarios, [Diagnostic.emptyFilename])

/-- The loop of `Scan` over the index: `AddScenario` for each entry in turn,
starting from `scenarios`. -/
def AddScenarios (scenarios : List scenario_index_entry) :
    List scenario_index_entry → List scenario_index_entry
  | [] => scenarios
  | entry :: rest => AddScenarios (AddScenario scenarios entry).1 rest

/-- Two entries have the same file name up to letter case. -/
def SameFilename (a b : scenario_index_entry) : Prop :=
  toLowerAscii (Path.GetFileName a.path) = toLowerAscii (Path.GetFileName b.path)

instance (a b : scenario_index_entry) : Decidable (SameFilename a b) := by
  unfold SameFilename; infer_instance

/-- The uniqueness invariant of the collection: no two entries have file
names that are equal ignoring case. -/
def UniqueFilenames (scenarios : List scenario_index_entry) : Prop :=
  scenarios.Pairwise (fun a b => ¬ SameFilename a b)

/-! ## The highscore table and the persisted score store -/

/-- The two's complement bits of a signed value in a 32-bit word. -/
def toU32 (i : Int) : Nat :=
  (i % 4294967296).toNat

/-- The signed value (`int32_t`) of the low 32 bits of `n`. -/
def toS32 (n : Nat) : Int :=
  if n % 4294967296 < 2147483648 then (n % 4294967296 : Nat) else ((n % 4294967296 : Nat) : Int) - 4294967296

/-- `ScenarioRepository::checksum`. In C++ `+` binds tighter than `^`, so the
expression reads `timestamp ^ ((timestamp << 8) + company_value +
(company_value << 16) + (record_days << 8))`, the whole then XORed with
`0x9E3779B9` and converted to `int32_t`. The arithmetic is carried out on
32-bit words, every shift and sum wrapping; an evaluation in a wider integer
type has the same low 32 bits, which is all the `int32_t` result keeps. -/
def checksum (highscore : scenario_highscore_entry) : Int :=
  let timestamp := toU32 highscore.timestamp
  let company_value := toU32 highscore.company_value
  let record_days := toU32 highscore.record_days
  let sum0 := (timestamp <<< 8) % 4294967296
  let sum1 := (sum0 + company_value) % 4294967296
  let sum2 := (sum1 + (company_value <<< 16) % 4294967296) % 4294967296
  let sum3 := (sum2 + (record_days <<< 8) % 4294967296) % 4294967296
  toS32 ((timestamp ^^^ sum3) ^^^ 0x9E3779B9)

/-- The checksum formula as the specification words it, with the XOR of the
time stamp applied before the sum: `((timestamp XOR (timestamp << 8)) +
companyValue + (companyValue << 16) + (recordDays << 8)) XOR 0x9E3779B9`,
modulo `2 ^ 32`, as a 32-bit integer. -/
def checksumAsSpecified (highscore : scenario_highscore_entry) : Int :=
  let timestamp := toU32 highscore.timestamp
  let company_value := toU32 highscore.company_value
  let record_days := toU32 highscore.record_days
  toS32 ((((timestamp ^^^ (timestamp <<< 8)) + company_value + (company_value <<< 16)
    + (record_days <<< 8)) % 4294967296) ^^^ 0x9E3779B9)

/-- A decimal number as written in the score store: `mantissa / 10 ^ scale`. -/
structure Decimal where
  mantissa : Int
  scale : Nat
  deriving DecidableEq, Repr

/-- The conversion `(money32)(x * 10.0 + 0.5)` of `LoadScores`, in exact
arithmetic: `x * 10 + 1/2` truncated toward zero. (The source computes in
floating point; rounding of the floating-point operations and the conversion
of a value outside the `money32` range are not modelled.) -/
def moneyOfDecimal (x : Decimal) : Int :=
  Int.tdiv (20 * x.mantissa + 10 ^ x.scale) (2 * 10 ^ x.scale)

/-- Modelled from the spec: one numbered section of the score store as the
`IIniReader` (not among the sources) presents it: each key is present with a
value or absent, in which case the getter returns the default given by the
caller. -/
structure ScoreSection where
  timestamp : Option Int
  company_value : Option Decimal
  record_days : Option Int
  file : Option utf8string
  winner : Option utf8string
  checksum : Option Int
  deriving DecidableEq, Repr

/-- Modelled from the spec: the header section `[OpenRCT2]` of the score
store, with the keys `version`, `last_winner`, `prefix` and `count`. -/
structure ScoreHeader where
  version : Option Int
  last_winner : Option utf8string
  sectionPfx : Option utf8string
  count : Option Int
  deriving DecidableEq, Repr

/-- Modelled from the spec: the content of the score store: the header
section, if there is one, and the other sections by name. A file that cannot
be parsed has no header section. -/
structure ScoreStore where
  head : Option ScoreHeader
  sections : List (utf8string × ScoreSection)
  deriving DecidableEq, Repr

/-- Modelled from the spec: `IIniReader::ReadSection(name)`: the first
section with that name, if any. -/
def ScoreStore.ReadSection (store : ScoreStore) (name : utf8string) : Option ScoreSection :=
  store.sections.lookup name

/-- The section name `String::Format(section, 32, "%s%d", pfx, i + 1)`: the
text is cut to the 31 characters the buffer holds. -/
def sectionName (pfx : utf8string) (i : Nat) : utf8string :=
  (pfx ++ Nat.toDigits 10 (i + 1)).take 31

/-- The state of a `ScenarioRepository`, with the part of its environment it
reads and writes: the score store at `PATHID::SCORES` (`none` when the file
does not exist), whether that file can be opened for writing, and the
diagnostics written so far. -/
structure ScenarioRepository where
  _last_winner : utf8string
  _scenarios : List scenario_index_entry
  _highscores : List scenario_highscore_entry
  scoresFile : Option ScoreStore
  scoresWritable : Bool
  console : List Diagnostic
  deriving DecidableEq, Repr

/-- The record `InsertHighscore` appends: all fields zero (`memset`). -/
def scenario_highscore_entry.zero : scenario_highscore_entry :=
  { scen_file := none, scen_winner := none, company_value := 0, timestamp := 0, record_days := 0 }

/-- The record as lines 614 to 618 of `LoadScores` fill it from one section,
before the checksum is compared. -/
def LoadScoresFields (sec : ScoreSection) : scenario_highscore_entry :=
  { timestamp := sec.timestamp.getD 0
    scen_file := some (sec.file.getD "error".toList)
    scen_winner := some (sec.winner.getD "error".toList)
    company_value := moneyOfDecimal (sec.company_value.getD ⟨0, 0⟩)
    record_days := sec.record_days.getD 0 }

/-- The body of the loop of `LoadScores` for one section: the record it
inserts, and the diagnostic it writes when the checksum does not match. -/
def LoadScoresEntry (sec : ScoreSection) : scenario_highscore_entry × List Diagnostic :=
  let highscore := LoadScoresFields sec
  if checksum highscore ≠ sec.checksum.getD 0 then
    ({ highscore with scen_winner := none, company_value := 0, record_days := 0 },
      [Diagnostic.checksumMismatch])
  else
    (highscore, [])

/-- The loop of `LoadScores`: sections `pfx(i+1)`, `pfx(i+2)`, ... are read
while there are iterations left and the section exists (`break` otherwise). -/
def LoadScoresLoop (store : ScoreStore) (pfx : utf8string) :
    Nat → Nat → List (scenario_highscore_entry × List Diagnostic)
  | 0, _ => []
  | remaining + 1, i =>
    match store.ReadSection (sectionName pfx i) with
    | none => []
    | some sec => LoadScoresEntry sec :: LoadScoresLoop store pfx remaining (i + 1)

/-- `ScenarioRepository::LoadScores`; `username` is the result of
`platform_get_username()`. -/
def LoadScores (username : utf8string) (repo : ScenarioRepository) : ScenarioRepository :=
  match repo.scoresFile with
  | none => { repo with _last_winner := username }
  | some store =>
    match store.head with
    | none => { repo with console := repo.console ++ [Diagnostic.errorReadingHighscores] }
    | some head =>
      let cnt := head.count.getD 0
      let pfx := (head.sectionPfx.getD "scen".toList).take 31
      let loaded := LoadScoresLoop store pfx cnt.toNat 0
      { repo with
        _last_winner := head.last_winner.getD repo._last_winner
        _highscores := loaded.map Prod.fst
        console := repo.console ++ (loaded.map Prod.snd).flatten }

/-- The sections the loop of `LoadScores` visits, in order: the sections
numbered `i + 1`, `i + 2`, ... up to the first absent one, `remaining` at most. -/
def sectionsRead (store : ScoreStore) (pfx : utf8string) : Nat → Nat → List ScoreSection
  | 0, _ => []
  | remaining + 1, i =>
    match store.ReadSection (sectionName pfx i) with
    | none => []
    | some sec => sec :: sectionsRead store pfx remaining (i + 1)

/-- The section `SaveHighscores` writes for one record. `WriteInt32` keeps the
low 32 bits of the time stamp; the company value `round(v * 10.0) / 100.0` is
the decimal `v / 10`; a null string (undefined in the source) leaves its key
absent. -/
def SaveHighscoresEntry (highscore : scenario_highscore_entry) : ScoreSection :=
  { timestamp := some (toS32 (toU32 highscore.timestamp))
    company_value := some ⟨highscore.company_value, 1⟩
    record_days := some highscore.record_days
    file := highscore.scen_file
    winner := highscore.scen_winner
    checksum := some (checksum highscore) }

/-- The numbered sections `SaveHighscores` writes for the records from
position `i` on. -/
def SaveHighscoresSections : List scenario_highscore_entry → Nat → List (utf8string × ScoreSection)
  | [], _ => []
  | highscore :: rest, i =>
    (sectionName "scen".toList i, SaveHighscoresEntry highscore) :: SaveHighscoresSections rest (i + 1)

/-- `ScenarioRepository::SaveHighscores`: the store is rewritten from the
table, or, when the file cannot be opened for writing, left as it is with a
diagnostic. -/
def SaveHighscores (repo : ScenarioRepository) : ScenarioRepository :=
  if repo.scoresWritable then
    { repo with
      scoresFile := some
        { head := some
            { version := some 11
              last_winner := some repo._last_winner
              sectionPfx := some "scen".toList
              count := some (repo._highscores.length : Int) }
          sections := SaveHighscoresSections repo._highscores 0 } }
  else
    { repo with console := repo.console ++ [Diagnostic.unableToSaveHighscores] }

/-- The test of `TryRecordHighscore` under which the submitted result is
turned down (the condition of the `return false` of lines 441 to 445). -/
def rejectsHighscore (highscore : scenario_highscore_entry) (companyValue dayRecord : Int)
    (scen_winner : Option utf8string) : Bool :=
  (decide (companyValue ≤ highscore.company_value)
    && decide (highscore.record_days > 0) && decide (dayRecord ≥ highscore.record_days))
  && ((!String.IsNullOrEmpty highscore.scen_winner && String.IsNullOrEmpty scen_winner)
      || (decide (companyValue < highscore.company_value)
          && decide (dayRecord > highscore.record_days)))

/-- The value `platform_get_datetime_now_utc() / 10000000 - 63017720400ULL`,
computed on unsigned 64-bit integers, from the clock reading `now`. -/
def highscoreTimestamp (now : Nat) : Int :=
  (((now % 18446744073709551616) / 10000000 + 18446744073709551616 - 63017720400)
    % 18446744073709551616 : Nat)

/-- The value of `_last_winner` after lines 460 and 461 of `TryRecordHighscore`. -/
def nextLastWinner (last_winner : utf8string) (scen_winner : Option utf8string) : utf8string :=
  if !String.IsNullOrEmpty scen_winner then scen_winner.getD [] else last_winner

/-- The record after lines 457 to 467 of `TryRecordHighscore` have updated
`highscore` for the scenario at `path`. -/
def recordedHighscore (highscore : scenario_highscore_entry) (path : utf8string)
    (last_winner : utf8string) (companyValue dayRecord : Int) (now : Nat)
    (scen_winner : Option utf8string) : scenario_highscore_entry :=
  { timestamp := highscoreTimestamp now
    scen_file := some (Path.GetFileName path)
    scen_winner := some (nextLastWinner last_winner scen_winner)
    company_value :=
      if companyValue > highscore.company_value then companyValue else highscore.company_value
    record_days :=
      if highscore.record_days = 0 ∨ dayRecord < highscore.record_days then dayRecord
      else highscore.record_days }

/-- `ScenarioRepository::TryRecordHighscore`. The call of `Scan` is the state
transformer `scan`; `gScenarioCompletedCompanyValue` and
`gScenarioCompletedDays` are the two globals read after it, and `now` is the
clock reading. The result is the returned flag and the state after the call;
it is `none` when the scenario holds a pointer to no record of the table (a
dangling pointer, undefined behaviour in the source). -/
def TryRecordHighscore (scan : ScenarioRepository → ScenarioRepository)
    (gScenarioCompletedCompanyValue gScenarioCompletedDays : Int) (now : Nat)
    (repo : ScenarioRepository) (scenarioFileName scen_winner : Option utf8string) :
    Option (Bool × ScenarioRepository) :=
  let repo := scan repo
  let companyValue := gScenarioCompletedCompanyValue
  let dayRecord := gScenarioCompletedDays
  match GetByFilename repo._scenarios scenarioFileName with
  | none => some (false, repo)
  | some scenario =>
    match scenario.highscore with
    | none =>
      -- highscore == nullptr: InsertHighscore and attach the new record
      let highscore := recordedHighscore scenario_highscore_entry.zero scenario.path
        repo._last_winner companyValue dayRecord now scen_winner
      some (true, SaveHighscores
        { repo with
          _scenarios := repo._scenarios.set (GetByFilenameIndex repo._scenarios scenarioFileName)
            { scenario with highscore := some repo._highscores.length }
          _highscores := repo._highscores ++ [highscore]
          _last_winner := nextLastWinner repo._last_winner scen_winner })
    | some k =>
      match repo._highscores[k]? with
      | none => none
      | some highscore =>
        if rejectsHighscore highscore companyValue dayRecord scen_winner then
          some (false, repo)
        else
          some (true, SaveHighscores
            { repo with
              _highscores := repo._highscores.set k
                (recordedHighscore highscore scenario.path repo._last_winner companyValue
                  dayRecord now scen_winner)
              _last_winner := nextLastWinner repo._last_winner scen_winner })

/-- The record `TryRecordHighscore` works on for `scenario`: the record the
scenario points to, or the zero-filled record `InsertHighscore` creates when
the pointer is null; `none` for a pointer to no record of the table. -/
def workingRecord (repo : ScenarioRepository) (scenario : scenario_index_entry) :
    Option scenario_highscore_entry :=
  match scenario.highscore with
  | none => some scenario_highscore_entry.zero
  | some k => repo._highscores[k]?

/-- The record attached to the scenario `GetByFilename` finds for `filename`,
if there is such a scenario and it points to a record of the table. -/
def attachedHighscore (repo : ScenarioRepository) (filename : Option utf8string) :
    Option scenario_highscore_entry :=
  match GetByFilename repo._scenarios filename with
  | none => none
  | some scenario =>
    match scenario.highscore with
    | none => none
    | some k => repo._highscores[k]?

/-- The acceptance condition as the specification words it: the submitted
company value is strictly greater than the stored one, or the submitted day
count is strictly smaller than the stored one, or the result is a tie and the
stored record has no named winner while the submission supplies a non-empty
winner name. -/
def improvesAsSpecified (highscore : scenario_highscore_entry) (companyValue dayRecord : Int)
    (scen_winner : Option utf8string) : Bool :=
  decide (companyValue > highscore.company_value)
  || decide (dayRecord < highscore.record_days)
  || (decide (companyValue = highscore.company_value) && decide (dayRecord = highscore.record_days)
      && String.IsNullOrEmpty highscore.scen_winner && !String.IsNullOrEmpty scen_winner)

/-- Sample data: the copy of a scenario file with the older time stamp. -/
def sampleOlder : scenario_index_entry :=
  { path := "C:/rct2/Scenarios/Park.SC6".toList, timestamp := 5, category := 1, source_game := 3,
    source_index := 4, sc_id := 20, objective_type := 1, objective_arg_1 := 2,
    objective_arg_2 := 3, objective_arg_3 := 4, highscore := none,
    internal_name := "Park".toList, name := "Park".toList, details := "old".toList }

/-- Sample data: a copy of the same scenario file, in another directory, with
a newer time stamp. -/
def sampleNewer : scenario_index_entry :=
  { path := "D:/user/scenario/park.sc6".toList, timestamp := 9, category := 4, source_game := 7,
    source_index := -1, sc_id := 255, objective_type := 1, objective_arg_1 := 2,
    objective_arg_2 := 3, objective_arg_3 := 4, highscore := none,
    internal_name := "Park".toList, name := "Park".toList, details := "new".toList }

/-- Sample data: an entry whose path ends in a separator (empty file name). -/
def sampleNoFilename : scenario_index_entry :=
  { sampleNewer with path := "D:/user/scenario/".toList }

/-- Sample data: a repository after a scan, with one scenario and its
record: company value 100 reached in 10 days by Bob. -/
def sampleRepo : ScenarioRepository :=
  { _last_winner := "Bob".toList
    _scenarios := [{ sampleOlder with highscore := some 0 }]
    _highscores := [{ scen_file := some "Park.SC6".toList, scen_winner := some "Bob".toList,
                      company_value := 100, timestamp := 1000, record_days := 10 }]
    scoresFile := none
    scoresWritable := true
    console := [] }

/-- Sample data: a repository after a scan, with one scenario and no record. -/
def sampleFreshRepo : ScenarioRepository :=
  { sampleRepo with _last_winner := "Player".toList, _scenarios := [sampleOlder], _highscores := [] }

/-- Sample data: the file name under which the sample scenario is looked up. -/
def sampleFileName : Option utf8string := some "PARK.sc6".toList

/-- Sample data: a clock reading for which the time stamp computed by
`TryRecordHighscore` is 100. -/
def sampleNow : Nat := 630177205000000000

/-- Sample data: a persisted section whose checksum matches its fields. -/
def sampleSection : ScoreSection :=
  { timestamp := some 1000, company_value := some ⟨12345, 1⟩, record_days := some 10,
    file := some "park.sc6".toList, winner := some "Bob".toList, checksum := some (-1375053720) }

/-- Sample data: the same section with the company value altered after the
checksum was computed. -/
def sampleTamperedSection : ScoreSection :=
  { sampleSection with company_value := some ⟨99999, 1⟩, file := some "other.sc6".toList }

/-- Sample data: a score store with the two sample sections. -/
def sampleStore : ScoreStore :=
  { head := some { version := some 11, last_winner := some "Bob".toList,
                   sectionPfx := some "scen".toList, count := some 2 }
    sections := [("scen1".toList, sampleSection), ("scen2".toList, sampleTamperedSection)] }

/-- Sample data: the sample repository after an accepted call with company
value 150, 10 days and no winner name, at the sample clock reading. -/
def sampleAccepted : ScenarioRepository :=
  SaveHighscores
    { sampleRepo with
      _highscores := [{ scen_file := some "Park.SC6".toList, scen_winner := some "Bob".toList,
                        company_value := 150, timestamp := 100, record_days := 10 }] }

/-! ## Constants and types declared in headers that are not among the sources -/

/-- The constants the repository takes from headers that are not among the
sources (`Scenario.h`, `ScenarioRepository.h`, `rct2/S6Exporter.h`): flag and
enumeration values, and the sizes in bytes of the four string buffers of
`scenario_index_entry`. Every function below that uses one of them takes the
whole record as a parameter. -/
structure HeaderConstants where
  SCENARIO_FLAGS_COMPLETED : Nat
  SCENARIO_CATEGORY_REAL : Nat
  SCENARIO_CATEGORY_OTHER : Nat
  SCENARIO_CATEGORY_DLC : Nat
  SCENARIO_CATEGORY_BUILD_YOUR_OWN : Nat
  SCENARIO_SOURCE_REAL : Nat
  SCENARIO_SOURCE_OTHER : Nat
  SC_UNIDENTIFIED : Nat
  S6_TYPE_SCENARIO : Nat
  sizeofPath : Nat
  sizeofInternalName : Nat
  sizeofName : Nat
  sizeofDetails : Nat
  deriving DecidableEq, Repr

/-- The values of the constants in the headers of OpenRCT2: the categories
are numbered beginner 0, challenging 1, expert 2, real 3, other 4, DLC 5,
build-your-own 6; the source games end with real 6 and other 7; `MAX_PATH` is
260 and the name, internal name and details buffers hold 64, 64 and 256
bytes. -/
def openrct2Constants : HeaderConstants :=
  { SCENARIO_FLAGS_COMPLETED := 2
    SCENARIO_CATEGORY_REAL := 3
    SCENARIO_CATEGORY_OTHER := 4
    SCENARIO_CATEGORY_DLC := 5
    SCENARIO_CATEGORY_BUILD_YOUR_OWN := 6
    SCENARIO_SOURCE_REAL := 6
    SCENARIO_SOURCE_OTHER := 7
    SC_UNIDENTIFIED := 255
    S6_TYPE_SCENARIO := 1
    sizeofPath := 260
    sizeofInternalName := 64
    sizeofName := 64
    sizeofDetails := 256 }

/-! ## Legacy score files -/

/-- The fields `LoadLegacyScores` reads of one record of the original score
file (`rct_scores_entry`, declared in a header that is not among the
sources). -/
structure rct_scores_entry where
  Path : utf8string
  Flags : Nat
  CompanyValue : Int
  CompletedBy : utf8string
  deriving DecidableEq, Repr

/-- What `LoadLegacyScores` finds in an existing score file: a file of at
most 4 bytes (the initial file of RCT2), a file whose header cannot be read,
or a header with its `ScenarioCount` followed by the complete records the
file holds. -/
inductive LegacyScoresFile where
  | initial
  | unreadable
  | scores (ScenarioCount : Nat) (entries : List rct_scores_entry)
  deriving DecidableEq, Repr

/-- The inner loop of `LoadLegacyScores` over the highscore table for one
completed legacy record, with `name` the converted `CompletedBy`: the table
after the loop and the final value of `notFound`. A record with a matching
`scen_file` clears `notFound`; the first matching record with a smaller
company value is upgraded and ends the loop (`break`). -/
def LoadLegacyScoresMatch (name : utf8string) (scBasic : rct_scores_entry) :
    List scenario_highscore_entry → List scenario_highscore_entry × Bool
  | [] => ([], true)
  | highscore :: rest =>
    if String.Equals (some scBasic.Path) highscore.scen_file true then
      if scBasic.CompanyValue > highscore.company_value then
        ({ highscore with
            scen_winner := some name
            company_value := scBasic.CompanyValue
            timestamp := 0 } :: rest, false)
      else
        (highscore :: (LoadLegacyScoresMatch name scBasic rest).1, false)
    else
      (highscore :: (LoadLegacyScoresMatch name scBasic rest).1,
        (LoadLegacyScoresMatch name scBasic rest).2)

/-- The record `LoadLegacyScores` inserts for a legacy record that matches no
record of the table. -/
def legacyHighscore (rct2_to_utf8 : utf8string → utf8string) (scBasic : rct_scores_entry) :
    scenario_highscore_entry :=
  { scenario_highscore_entry.zero with
    scen_file := some scBasic.Path
    scen_winner := some (rct2_to_utf8 scBasic.CompletedBy)
    company_value := scBasic.CompanyValue
    timestamp := 0 }

/-- The body of the outer loop of `LoadLegacyScores` for one legacy record:
the highscore table after it. `rct2_to_utf8` is the conversion of the
`CompletedBy` buffer (`rct2_to_utf8(..., RCT2_LANGUAGE_ID_ENGLISH_UK)`, not
among the sources). -/
def LoadLegacyScoresEntry (K : HeaderConstants) (rct2_to_utf8 : utf8string → utf8string)
    (highscores : List scenario_highscore_entry) (scBasic : rct_scores_entry) :
    List scenario_highscore_entry :=
  -- Ignore non-completed scenarios
  if scBasic.Flags &&& K.SCENARIO_FLAGS_COMPLETED ≠ 0 then
    let scanned := LoadLegacyScoresMatch (rct2_to_utf8 scBasic.CompletedBy) scBasic highscores
    if scanned.2 then scanned.1 ++ [legacyHighscore rct2_to_utf8 scBasic] else scanned.1
  else
    highscores

/-- `ScenarioRepository::LoadLegacyScores(path)`, with `file` what is found
at `path` (`none` when no file exists). The loop reads `ScenarioCount`
records; when the file holds fewer, the read past its end throws and the
error is reported after the records read so far have been merged.
`highscoresDirty` stays false, so nothing is saved. -/
def LoadLegacyScores (K : HeaderConstants) (rct2_to_utf8 : utf8string → utf8string)
    (file : Option LegacyScoresFile) (repo : ScenarioRepository) : ScenarioRepository :=
  match file with
  | none => repo
  | some LegacyScoresFile.initial => repo
  | some LegacyScoresFile.unreadable =>
    { repo with console := repo.console ++ [Diagnostic.errorReadingLegacyScores] }
  | some (LegacyScoresFile.scores ScenarioCount entries) =>
    { repo with
      _highscores :=
        (entries.take ScenarioCount).foldl (LoadLegacyScoresEntry K rct2_to_utf8) repo._highscores
      console :=
        if entries.length < ScenarioCount then
          repo.console ++ [Diagnostic.errorReadingLegacyScores]
        else repo.console }

/-- `ScenarioRepository::LoadLegacyScores()`: the file at
`PATHID::SCORES_LEGACY` is merged first, then the one at
`PATHID::SCORES_RCT2`. -/
def LoadAllLegacyScores (K : HeaderConstants) (rct2_to_utf8 : utf8string → utf8string)
    (legacyFile rct2File : Option LegacyScoresFile) (repo : ScenarioRepository) :
    ScenarioRepository :=
  LoadLegacyScores K rct2_to_utf8 rct2File (LoadLegacyScores K rct2_to_utf8 legacyFile repo)

/-- A legacy record carries the completed flag. -/
def legacyCompleted (K : HeaderConstants) (scBasic : rct_scores_entry) : Prop :=
  scBasic.Flags &&& K.SCENARIO_FLAGS_COMPLETED ≠ 0

instance (K : HeaderConstants) (scBasic : rct_scores_entry) : Decidable (legacyCompleted K scBasic) := by
  unfold legacyCompleted; infer_instance

/-- The legacy records the loop of `LoadLegacyScores` reads from a file. -/
def legacyEntriesRead : Option LegacyScoresFile → List rct_scores_entry
  | some (LegacyScoresFile.scores ScenarioCount entries) => entries.take ScenarioCount
  | _ => []

/-- How `LoadLegacyScores` may change a record `before` into `after` while it
merges the legacy records `entries`: the file key and the day record are
kept, the company value does not decrease, and the record is changed only if
a completed legacy record with the same path, ignoring case, has a strictly
greater company value. -/
def LegacyUpgrade (K : HeaderConstants) (entries : List rct_scores_entry)
    (before after : scenario_highscore_entry) : Prop :=
  after.scen_file = before.scen_file ∧ after.record_days = before.record_days ∧
  before.company_value ≤ after.company_value ∧
  (after = before ∨
    ∃ scBasic ∈ entries, legacyCompleted K scBasic ∧
      String.Equals (some scBasic.Path) before.scen_file true = true ∧
      scBasic.CompanyValue > before.company_value)

/-- The uniqueness invariant of the highscore table: no two records have
`scen_file` equal ignoring case. -/
def UniqueScenFiles (highscores : List scenario_highscore_entry) : Prop :=
  highscores.Pairwise (fun a b => String.Equals a.scen_file b.scen_file true = false)

/-- Sample data: a highscore table with one record, company value 300. -/
def sampleTable : List scenario_highscore_entry :=
  [{ scen_file := some "Park.SC6".toList, scen_winner := some "Bob".toList,
     company_value := 300, timestamp := 1000, record_days := 10 }]

/-- Sample data: a completed legacy record for the same scenario with company
value 200. -/
def sampleLegacyLower : rct_scores_entry :=
  { Path := "PARK.SC6".toList, Flags := 3, CompanyValue := 200, CompletedBy := "Carol".toList }

/-- Sample data: a completed legacy record for a scenario without record. -/
def sampleLegacyAbsent : rct_scores_entry :=
  { Path := "forest.sc6".toList, Flags := 2, CompanyValue := 250, CompletedBy := "Dave".toList }

/-- Sample data: a legacy record that is not flagged completed. -/
def sampleLegacyOpen : rct_scores_entry :=
  { Path := "lake.sc6".toList, Flags := 1, CompanyValue := 900, CompletedBy := [] }

/-! ## Attaching the records to the scenarios -/

/-- The loop of `ScenarioRepository::AttachHighscores` over the records from
position `k` on: the scenario `GetByFilename` finds for the `scen_file` of a
record is made to point to that record. -/
def AttachHighscoresLoop :
    List scenario_highscore_entry → Nat → List scenario_index_entry → List scenario_index_entry
  | [], _, scenarios => scenarios
  | highscore :: rest, k, scenarios =>
    match GetByFilename scenarios highscore.scen_file with
    | some scenerio =>
      AttachHighscoresLoop rest (k + 1)
        (scenarios.set (GetByFilenameIndex scenarios highscore.scen_file)
          { scenerio with highscore := some k })
    | none => AttachHighscoresLoop rest (k + 1) scenarios

/-- `ScenarioRepository::AttachHighscores`. -/
def AttachHighscores (repo : ScenarioRepository) : ScenarioRepository :=
  { repo with _scenarios := AttachHighscoresLoop repo._highscores 0 repo._scenarios }

/-- The state `AttachHighscores` leaves at the end of `Scan`: a scenario that
points to a record points to a record of the table whose `scen_file` is the
file name of the scenario, ignoring case, and the scenario `GetByFilename`
finds for the `scen_file` of a record of the table points to a record. -/
def Attached (repo : ScenarioRepository) : Prop :=
  (∀ scenario ∈ repo._scenarios, ∀ k, scenario.highscore = some k →
    ∃ h, repo._highscores[k]? = some h ∧
      String.Equals h.scen_file (some (Path.GetFileName scenario.path)) true = true) ∧
  (∀ h ∈ repo._highscores, ∀ scenario,
    GetByFilename repo._scenarios h.scen_file = some scenario → scenario.highscore ≠ none)

/-- Sample data: a legacy score file with the three sample records. -/
def sampleLegacyFile : Option LegacyScoresFile :=
  some (LegacyScoresFile.scores 3 [sampleLegacyLower, sampleLegacyAbsent, sampleLegacyOpen])

/-- Sample data: the sample repository with the sample table. -/
def sampleLegacyRepo : ScenarioRepository :=
  { sampleRepo with _highscores := sampleTable }

/-! ## The cache format of the scenario index -/

/-- The little-endian bytes `IStream::WriteValue` writes for an unsigned
value of `width` bytes. -/
def writeLE : Nat → Nat → List Nat
  | 0, _ => []
  | width + 1, value => value % 256 :: writeLE width (value / 256)

/-- The unsigned value `IStream::ReadValue` reads from little-endian bytes. -/
def readLE : List Nat → Nat
  | [] => 0
  | byte :: rest => byte + 256 * readLE rest

/-- The two's complement bits of a signed value in a word of `bits` bits. -/
def toUnsigned (bits : Nat) (i : Int) : Nat :=
  (i % 2 ^ bits).toNat

/-- The signed value of a word of `bits` bits. -/
def toSigned (bits : Nat) (n : Nat) : Int :=
  if n % 2 ^ bits < 2 ^ (bits - 1) then (n % 2 ^ bits : Nat) else ((n % 2 ^ bits : Nat) : Int) - 2 ^ bits

/-- The bytes `stream->Write(buffer, size)` writes for a character buffer of
`size` bytes that holds the string `s`: the characters, then NUL bytes up to
the size of the buffer. -/
def writeBuffer (size : Nat) (s : utf8string) : List Nat :=
  (s.map Char.toNat ++ List.replicate size 0).take size

/-- The string a character buffer holds: the characters before the first NUL. -/
def readBuffer (bytes : List Nat) : utf8string :=
  (bytes.takeWhile (fun byte => byte != 0)).map Char.ofNat

/-- Modelled from the spec: `IStream::Read` of `core/IStream.hpp`, which is
not among the sources: the next `count` bytes and the rest of the stream, or
`none` (an `IOException`) when the stream holds fewer bytes. -/
def IStream.Read (count : Nat) (stream : List Nat) : Option (List Nat × List Nat) :=
  if count ≤ stream.length then some (stream.take count, stream.drop count) else none

/-- `ScenarioFileIndex::Serialise`: the bytes written to the stream for one
entry, one group per `Write` or `WriteValue` call, in the order of the calls. -/
def Serialise (K : HeaderConstants) (item : scenario_index_entry) : List Nat :=
  writeBuffer K.sizeofPath item.path
  ++ writeLE 8 item.timestamp
  ++ writeLE 1 item.category
  ++ writeLE 1 item.source_game
  ++ writeLE 2 (toUnsigned 16 item.source_index)
  ++ writeLE 2 item.sc_id
  ++ writeLE 1 item.objective_type
  ++ writeLE 1 item.objective_arg_1
  ++ writeLE 4 (toUnsigned 32 item.objective_arg_2)
  ++ writeLE 2 (toUnsigned 16 item.objective_arg_3)
  ++ writeBuffer K.sizeofInternalName item.internal_name
  ++ writeBuffer K.sizeofName item.name
  ++ writeBuffer K.sizeofDetails item.details

/-- `ScenarioFileIndex::Deserialise`: the entry read from the stream and the
rest of the stream, or `none` when the stream ends before the entry does. -/
def Deserialise (K : HeaderConstants) (stream : List Nat) :
    Option (scenario_index_entry × List Nat) :=
  match IStream.Read K.sizeofPath stream with
  | none => none
  | some (path, stream) =>
  match IStream.Read 8 stream with
  | none => none
  | some (timestamp, stream) =>
  match IStream.Read 1 stream with
  | none => none
  | some (category, stream) =>
  match IStream.Read 1 stream with
  | none => none
  | some (source_game, stream) =>
  match IStream.Read 2 stream with
  | none => none
  | some (source_index, stream) =>
  match IStream.Read 2 stream with
  | none => none
  | some (sc_id, stream) =>
  match IStream.Read 1 stream with
  | none => none
  | some (objective_type, stream) =>
  match IStream.Read 1 stream with
  | none => none
  | some (objective_arg_1, stream) =>
  match IStream.Read 4 stream with
  | none => none
  | some (objective_arg_2, stream) =>
  match IStream.Read 2 stream with
  | none => none
  | some (objective_arg_3, stream) =>
  match IStream.Read K.sizeofInternalName stream with
  | none => none
  | some (internal_name, stream) =>
  match IStream.Read K.sizeofName stream with
  | none => none
  | some (name, stream) =>
  match IStream.Read K.sizeofDetails stream with
  | none => none
  | some (details, stream) =>
  some
    ({ path := readBuffer path
       timestamp := readLE timestamp
       category := readLE category
       source_game := readLE source_game
       source_index := toSigned 16 (readLE source_index)
       sc_id := readLE sc_id
       objective_type := readLE objective_type
       objective_arg_1 := readLE objective_arg_1
       objective_arg_2 := toSigned 32 (readLE objective_arg_2)
       objective_arg_3 := toSigned 16 (readLE objective_arg_3)
       highscore := none
       internal_name := readBuffer internal_name
       name := readBuffer name
       details := readBuffer details }, stream)

/-- A string is the content of a character buffer of `size` bytes: it has no
NUL character and leaves room for the terminating NUL. -/
def fitsBuffer (size : Nat) (s : utf8string) : Prop :=
  s.length < size ∧ ∀ c ∈ s, c.toNat ≠ 0

instance (size : Nat) (s : utf8string) : Decidable (fitsBuffer size s) := by
  unfold fitsBuffer; infer_instance

/-- An entry of the model is a value of the C++ type `scenario_index_entry`:
every integer field is in the range of its type (`uint64_t`, `uint8_t`,
`int16_t`, `uint16_t`, `int32_t`) and every string is the content of its
buffer. -/
def scenario_index_entry.WellTyped (K : HeaderConstants) (item : scenario_index_entry) : Prop :=
  fitsBuffer K.sizeofPath item.path ∧
  item.timestamp < 2 ^ 64 ∧
  item.category < 2 ^ 8 ∧
  item.source_game < 2 ^ 8 ∧
  (-2 ^ 15 ≤ item.source_index ∧ item.source_index < 2 ^ 15) ∧
  item.sc_id < 2 ^ 16 ∧
  item.objective_type < 2 ^ 8 ∧
  item.objective_arg_1 < 2 ^ 8 ∧
  (-2 ^ 31 ≤ item.objective_arg_2 ∧ item.objective_arg_2 < 2 ^ 31) ∧
  (-2 ^ 15 ≤ item.objective_arg_3 ∧ item.objective_arg_3 < 2 ^ 15) ∧
  fitsBuffer K.sizeofInternalName item.internal_name ∧
  fitsBuffer K.sizeofName item.name ∧
  fitsBuffer K.sizeofDetails item.details

instance (K : HeaderConstants) (item : scenario_index_entry) :
    Decidable (scenario_index_entry.WellTyped K item) := by
  unfold scenario_index_entry.WellTyped; infer_instance

/-- The `count` bytes at `offset` of a byte sequence. -/
def slice (offset count : Nat) (bytes : List Nat) : List Nat :=
  (bytes.drop offset).take count

/-! ## The two orders of `Sort` -/

/-- Modelled from the spec: `Math::Sign` of `core/Math.hpp`, which is not
among the sources: -1, 0 or 1. -/
def Math.Sign (x : Int) : Int :=
  if x < 0 then -1 else if x > 0 then 1 else 0

/-- The comparison `strcmp` makes on the bytes of two C strings: the
difference of the first two bytes that differ, the end of a string counting
as a NUL byte; nothing after a NUL is read. (C fixes only the sign of the
result.) -/
def strcmpBytes : List Nat → List Nat → Int
  | [], [] => 0
  | [], b :: _ => -(b : Int)
  | a :: _, [] => (a : Int)
  | a :: restA, b :: restB =>
    if a = b then (if a = 0 then 0 else strcmpBytes restA restB) else (a : Int) - (b : Int)

/-- The C library function `strcmp` on two strings. -/
def strcmp (a b : utf8string) : Int :=
  strcmpBytes (a.map Char.toNat) (b.map Char.toNat)

/-- `ScenarioCategoryCompare`. -/
def ScenarioCategoryCompare (K : HeaderConstants) (categoryA categoryB : Int) : Int :=
  if categoryA = categoryB then 0
  else if categoryA = K.SCENARIO_CATEGORY_DLC then -1
  else if categoryB = K.SCENARIO_CATEGORY_DLC then 1
  else if categoryA = K.SCENARIO_CATEGORY_BUILD_YOUR_OWN then -1
  else if categoryB = K.SCENARIO_CATEGORY_BUILD_YOUR_OWN then 1
  else Math.Sign (categoryA - categoryB)

/-- `scenario_index_entry_CompareByCategory`. -/
def scenario_index_entry_CompareByCategory (K : HeaderConstants)
    (entryA entryB : scenario_index_entry) : Int :=
  -- Order by category
  if entryA.category ≠ entryB.category then
    ScenarioCategoryCompare K entryA.category entryB.category
  -- Then by source game / name
  else if entryA.category = K.SCENARIO_CATEGORY_REAL
      ∨ entryA.category = K.SCENARIO_CATEGORY_OTHER then
    strcmp entryA.name entryB.name
  else if entryA.source_game ≠ entryB.source_game then
    (entryA.source_game : Int) - (entryB.source_game : Int)
  else
    strcmp entryA.name entryB.name

/-- `scenario_index_entry_CompareByIndex`. -/
def scenario_index_entry_CompareByIndex (K : HeaderConstants)
    (entryA entryB : scenario_index_entry) : Int :=
  -- Order by source game
  if entryA.source_game ≠ entryB.source_game then
    (entryA.source_game : Int) - (entryB.source_game : Int)
  -- Then by index / category / name
  else if entryA.source_game = K.SCENARIO_SOURCE_REAL then
    scenario_index_entry_CompareByCategory K entryA entryB
  else if entryA.source_index = -1 ∧ entryB.source_index = -1 then
    if entryA.category = entryB.category then
      scenario_index_entry_CompareByCategory K entryA entryB
    else
      ScenarioCategoryCompare K entryA.category entryB.category
  else if entryA.source_index = -1 then 1
  else if entryB.source_index = -1 then -1
  else entryA.source_index - entryB.source_index

/-- The rank `ScenarioCategoryCompare` gives a category: DLC first, then
build-your-own, then the other categories by their number. -/
def categoryRank (K : HeaderConstants) (category : Nat) : Int :=
  if category = K.SCENARIO_CATEGORY_DLC then -2
  else if category = K.SCENARIO_CATEGORY_BUILD_YOUR_OWN then -1
  else category

/-- A comparison by an integer key, with `next` deciding between equal keys. -/
def lexCompare (keyA keyB next : Int) : Int :=
  if keyA ≠ keyB then keyA - keyB else next

/-- The second key of the by-category order: the source game, except in the
categories "real" and "other", where the source game is not looked at. -/
def categoryGameKey (K : HeaderConstants) (entry : scenario_index_entry) : Int :=
  if entry.category = K.SCENARIO_CATEGORY_REAL ∨ entry.category = K.SCENARIO_CATEGORY_OTHER then 0
  else entry.source_game

/-- The second key of the by-origin order inside one source game: 1 for an
entry without source index, 0 for an entry with one. -/
def unidentifiedKey (entry : scenario_index_entry) : Int :=
  if entry.source_index = -1 then 1 else 0

/-! ## Extracting the metadata of one scenario file -/

/-- Modelled from the spec: `String::Set(buffer, bufferSize, src)` of
`core/String.cpp`, which is not among the sources: the content of `buffer`
afterwards, `src` cut to the `bufferSize - 1` bytes that fit before the
terminating NUL. -/
def String.Set (bufferSize : Nat) (src : utf8string) : utf8string :=
  src.take (bufferSize - 1)

/-- The part of a file name before its last dot (the whole name when it has
no dot). -/
def stripExtension : utf8string → utf8string
  | [] => []
  | c :: rest =>
    if rest.any (fun d => d.toNat == 46) then c :: stripExtension rest
    else if c.toNat == 46 then []
    else c :: rest

/-- The part of a file name from its last dot on (empty when it has no dot). -/
def extensionOf : utf8string → utf8string
  | [] => []
  | c :: rest =>
    if rest.any (fun d => d.toNat == 46) then extensionOf rest
    else if c.toNat == 46 then c :: rest
    else []

/-- Modelled from the spec: `Path::GetFileNameWithoutExtension` of
`core/Path.cpp`, which is not among the sources: the file name of the path
without its extension. -/
def Path.GetFileNameWithoutExtension (path : utf8string) : utf8string :=
  stripExtension (Path.GetFileName path)

/-- Modelled from the spec: `Path::GetExtension` of `core/Path.cpp`, which is
not among the sources: the extension of the file name of the path, with its
dot. -/
def Path.GetExtension (path : utf8string) : utf8string :=
  extensionOf (Path.GetFileName path)

/-- The object entry of the scenario text object (`rct_object_entry`), which
the extractor only hands on to the translation. -/
structure rct_object_entry where
  flags : Nat
  name : utf8string
  checksum : Nat
  deriving DecidableEq, Repr

/-- The fields `CreateNewScenarioEntry` reads of the info chunk of a
scenario file (`rct_s6_info`, declared in a header that is not among the
sources). -/
structure rct_s6_info where
  category : Nat
  objective_type : Nat
  objective_arg_1 : Nat
  objective_arg_2 : Int
  objective_arg_3 : Int
  name : utf8string
  details : utf8string
  entry : rct_object_entry
  deriving DecidableEq, Repr

/-- A descriptor of the source catalog (`source_desc`, declared in
`ScenarioSources.h`, which is not among the sources). -/
structure source_desc where
  title : utf8string
  id : Nat
  source : Nat
  index : Int
  category : Nat
  deriving DecidableEq, Repr

/-- What reading a chunked scenario container yields: the type of its header
and, when the info chunk can be read, that chunk. -/
structure S6Content where
  headerType : Nat
  info : Option rct_s6_info
  deriving DecidableEq, Repr

/-- The collaborators of the metadata extractor, none of which is among the
sources: the file system (`File::GetLastModified`), the importer of the
legacy format (`LoadScenario` followed by `GetDetails`, `none` when either
fails), the reader of the chunked container (`none` when the file cannot be
opened or its header cannot be read), the conversion `rct2_to_utf8_self`, the
source catalog (`ScenarioSources::NormaliseName` with the size of its buffer,
`ScenarioSources::TryGetByName`) and the localisation consulted by
`scenario_translate` (the name and the details it supplies, if any). -/
structure Collaborators where
  GetLastModified : utf8string → Nat
  LoadS4 : utf8string → Option scenario_index_entry
  ReadS6 : utf8string → Option S6Content
  rct2_to_utf8_self : utf8string → utf8string
  NormaliseName : Nat → utf8string → utf8string
  TryGetByName : utf8string → Option source_desc
  localise : utf8string → rct_object_entry → Option utf8string × Option utf8string

/-- Modelled from the spec: `scenario_translate` of `scenario/Scenario.cpp`,
which is not among the sources: the display name and the details are replaced
by the localised texts, when there are any; no other field is touched (the
internal name "must survive any later translation of name"). -/
def scenario_translate (K : HeaderConstants) (env : Collaborators)
    (entry : scenario_index_entry) (stexObjectEntry : rct_object_entry) : scenario_index_entry :=
  { entry with
    name := match (env.localise entry.name stexObjectEntry).1 with
      | some text => String.Set K.sizeofName text
      | none => entry.name
    details := match (env.localise entry.name stexObjectEntry).2 with
      | some text => String.Set K.sizeofDetails text
      | none => entry.details }

/-- Modelled from the spec: the value of `scenario_index_entry()` and of
`scenario_index_entry entry = {}`: every field zero, every string empty. -/
def scenario_index_entry.zero : scenario_index_entry :=
  { path := [], timestamp := 0, category := 0, source_game := 0, source_index := 0, sc_id := 0,
    objective_type := 0, objective_arg_1 := 0, objective_arg_2 := 0, objective_arg_3 := 0,
    highscore := none, internal_name := [], name := [], details := [] }

/-- The name `CreateNewScenarioEntry` gives the entry before the translation
(lines 277 to 287): the file name without extension when the scenario has no
name, the normalised name otherwise. -/
def untranslatedName (K : HeaderConstants) (env : Collaborators) (entryPath : utf8string)
    (s6Info : rct_s6_info) : utf8string :=
  if String.IsNullOrEmpty (some s6Info.name) then
    -- If the scenario doesn't have a name, set it to the filename
    String.Set K.sizeofName (Path.GetFileNameWithoutExtension entryPath)
  else
    -- Normalise the name to make the scenario as recognisable as possible.
    env.NormaliseName K.sizeofName (String.Set K.sizeofName s6Info.name)

/-- The entry `CreateNewScenarioEntry` has built when it calls
`scenario_translate` (lines 266 to 315). -/
def CreateNewScenarioEntryUntranslated (K : HeaderConstants) (env : Collaborators)
    (path : utf8string) (timestamp : Nat) (s6Info : rct_s6_info) : scenario_index_entry :=
  let entryPath := String.Set K.sizeofPath path
  let name := untranslatedName K env entryPath s6Info
  let entry : scenario_index_entry :=
    { scenario_index_entry.zero with
      path := entryPath
      timestamp := timestamp
      category := s6Info.category
      objective_type := s6Info.objective_type
      objective_arg_1 := s6Info.objective_arg_1
      objective_arg_2 := s6Info.objective_arg_2
      objective_arg_3 := s6Info.objective_arg_3
      highscore := none
      name := name
      -- entry.name will be translated later so keep the untranslated name here
      internal_name := String.Set K.sizeofInternalName name
      details := String.Set K.sizeofDetails s6Info.details }
  -- Look up and store information regarding the origins of this scenario.
  match env.TryGetByName entry.name with
  | some desc =>
    { entry with
      sc_id := desc.id
      source_index := desc.index
      source_game := desc.source
      category := desc.category }
  | none =>
    { entry with
      sc_id := K.SC_UNIDENTIFIED
      source_index := -1
      source_game :=
        if entry.category = K.SCENARIO_CATEGORY_REAL then K.SCENARIO_SOURCE_REAL
        else K.SCENARIO_SOURCE_OTHER }

/-- `ScenarioFileIndex::CreateNewScenarioEntry`. -/
def CreateNewScenarioEntry (K : HeaderConstants) (env : Collaborators)
    (path : utf8string) (timestamp : Nat) (s6Info : rct_s6_info) : scenario_index_entry :=
  scenario_translate K env (CreateNewScenarioEntryUntranslated K env path timestamp s6Info)
    s6Info.entry

/-- `ScenarioFileIndex::GetScenarioInfo`: the entry, when the function
returns true, and the diagnostics it writes. -/
def GetScenarioInfo (K : HeaderConstants) (env : Collaborators) (path : utf8string)
    (timestamp : Nat) : Option scenario_index_entry × List Diagnostic :=
  if String.Equals (some (Path.GetExtension path)) (some ".sc4".toList) true then
    -- RCT1 scenario
    match env.LoadS4 path with
    | some details =>
      (some { details with path := String.Set K.sizeofPath path, timestamp := timestamp }, [])
    | none => (none, [])
  else
    -- RCT2 scenario
    match env.ReadS6 path with
    | none => (none, [Diagnostic.unableToReadScenario path])
    | some content =>
      if content.headerType = K.S6_TYPE_SCENARIO then
        match content.info with
        | none => (none, [Diagnostic.unableToReadScenario path])
        | some info =>
          (some (CreateNewScenarioEntry K env path timestamp
            { info with
              name := env.rct2_to_utf8_self info.name
              details := env.rct2_to_utf8_self info.details }), [])
      else
        (none, [])

/-- `ScenarioFileIndex::Create`: the tuple it returns. -/
def Create (K : HeaderConstants) (env : Collaborators) (path : utf8string) :
    Bool × scenario_index_entry :=
  let timestamp := env.GetLastModified path
  match (GetScenarioInfo K env path timestamp).1 with
  | some entry => (true, entry)
  | none => (true, scenario_index_entry.zero)

/-- Sample data: collaborators with an empty source catalog, no localised
texts, a name normalisation that changes nothing, and no readable file. -/
def sampleCollaborators : Collaborators :=
  { GetLastModified := fun _ => 9
    LoadS4 := fun _ => none
    ReadS6 := fun _ => none
    rct2_to_utf8_self := fun s => s
    NormaliseName := fun _ s => s
    TryGetByName := fun _ => none
    localise := fun _ _ => (none, none) }

/-- Sample data: the info chunk of a scenario of the category "beginner" that
is called "My Park". -/
def sampleInfo : rct_s6_info :=
  { category := 0, objective_type := 1, objective_arg_1 := 2, objective_arg_2 := 3,
    objective_arg_3 := 4, name := "My Park".toList, details := "A park".toList,
    entry := { flags := 255, name := [], checksum := 0 } }

/-- Sample data: the info chunk of a scenario without name. -/
def sampleNamelessInfo : rct_s6_info :=
  { sampleInfo with name := [] }

/-- Sample data: a path whose file name without extension has 70 characters. -/
def sampleLongPath : utf8string :=
  "C:/s/".toList ++ List.replicate 70 (Char.ofNat 97) ++ ".sc6".toList

/-! ## Lookups, the legacy park file and `Scan` -/

/-- The entries the loop of `GetByInternalName` passes over: those classified
source game "other" with scenario id `SC_UNIDENTIFIED`. -/
def skippedByInternalName (K : HeaderConstants) (scenario : scenario_index_entry) : Prop :=
  scenario.source_game = K.SCENARIO_SOURCE_OTHER ∧ scenario.sc_id = K.SC_UNIDENTIFIED

instance (K : HeaderConstants) (scenario : scenario_index_entry) :
    Decidable (skippedByInternalName K scenario) := by
  unfold skippedByInternalName; infer_instance

/-- `ScenarioRepository::GetByInternalName`: the loop over the collection,
with its `continue` for the entries passed over. -/
def GetByInternalName (K : HeaderConstants) :
    List scenario_index_entry → Option utf8string → Option scenario_index_entry
  | [], _ => none
  | scenario :: rest, name =>
    if scenario.source_game = K.SCENARIO_SOURCE_OTHER ∧ scenario.sc_id = K.SC_UNIDENTIFIED then
      GetByInternalName K rest name
    else if String.Equals name (some scenario.internal_name) true then
      some scenario
    else
      GetByInternalName K rest name

/-- An entry `GetByInternalName` may return for `name`: it is not passed over
and its internal name equals `name` ignoring case. -/
def eligibleByInternalName (K : HeaderConstants) (name : Option utf8string)
    (scenario : scenario_index_entry) : Prop :=
  ¬ skippedByInternalName K scenario ∧
  String.Equals name (some scenario.internal_name) true = true

instance (K : HeaderConstants) (name : Option utf8string) (scenario : scenario_index_entry) :
    Decidable (eligibleByInternalName K name scenario) := by
  unfold eligibleByInternalName; infer_instance

/-- The files `ImportMegaPark` reads and writes: the content of `mp.dat`
(`PATHID::MP_DAT`) and of `sc21.sc4` in the scenario directory of the user,
`none` for a file that does not exist, and whether that directory exists. -/
structure MegaParkFiles where
  mpdat : Option (List Nat)
  sc21 : Option (List Nat)
  scenarioDirectoryExists : Bool
  deriving DecidableEq, Repr

/-- Modelled from the spec: `rol8` of `util/Util.h`, which is not among the
sources: a byte rotated left by `shift` bits. -/
def rol8 (x shift : Nat) : Nat :=
  ((x <<< shift) ||| (x >>> (8 - shift))) % 256

/-- `ScenarioRepository::ConvertMegaPark`: the directory of the destination
is created, the source is read, every byte is rotated left by 4 bits and the
result is written to the destination. Reading a source that does not exist
throws after the directory has been created. -/
def ConvertMegaPark (files : MegaParkFiles) : MegaParkFiles :=
  match files.mpdat with
  | some mpdat =>
    { files with
      scenarioDirectoryExists := true
      sc21 := some (mpdat.map (fun byte => rol8 byte 4)) }
  | none => { files with scenarioDirectoryExists := true }

/-- `ScenarioRepository::ImportMegaPark`. -/
def ImportMegaPark (files : MegaParkFiles) : MegaParkFiles :=
  if files.mpdat.isSome && !files.sc21.isSome then ConvertMegaPark files else files

/-- What `Scan` takes from outside the repository: the header constants, the
result of `_fileIndex.LoadOrBuild(language)` (the file index is not among the
sources), whether `gConfigGeneral.scenario_select_mode` is
`SCENARIO_SELECT_MODE_ORIGIN`, the function `std::sort` computes for a
comparison predicate (the order it gives entries that compare equal is not
fixed by C++), the user name of the platform, the conversion of legacy
names, and the two legacy score files. -/
structure ScanEnvironment where
  K : HeaderConstants
  index : List scenario_index_entry
  selectByOrigin : Bool
  std_sort : (scenario_index_entry → scenario_index_entry → Bool) →
    List scenario_index_entry → List scenario_index_entry
  username : utf8string
  rct2_to_utf8 : utf8string → utf8string
  legacyFile : Option LegacyScoresFile
  rct2File : Option LegacyScoresFile

/-- `ScenarioRepository::Sort` (`Sort` is a reserved word of Lean). -/
def SortScenarios (env : ScanEnvironment) (scenarios : List scenario_index_entry) :
    List scenario_index_entry :=
  if env.selectByOrigin then
    env.std_sort (fun a b => decide (scenario_index_entry_CompareByIndex env.K a b < 0)) scenarios
  else
    env.std_sort (fun a b => decide (scenario_index_entry_CompareByCategory env.K a b < 0))
      scenarios

/-- The diagnostics the loop of `Scan` over the index writes, see
`AddScenarios`. -/
def AddScenariosConsole (scenarios : List scenario_index_entry) :
    List scenario_index_entry → List Diagnostic
  | [] => []
  | entry :: rest =>
    (AddScenario scenarios entry).2 ++ AddScenariosConsole (AddScenario scenarios entry).1 rest

/-- The part of `ScenarioRepository::Scan` that acts on the repository: the
collection is rebuilt from the index and sorted, then the scores are loaded,
the legacy scores merged and the records attached. -/
def ScanRepository (env : ScanEnvironment) (repo : ScenarioRepository) : ScenarioRepository :=
  AttachHighscores
    (LoadAllLegacyScores env.K env.rct2_to_utf8 env.legacyFile env.rct2File
      (LoadScores env.username
        { repo with
          _scenarios := SortScenarios env (AddScenarios [] env.index)
          console := repo.console ++ AddScenariosConsole [] env.index }))

/-- `ScenarioRepository::Scan`, on the files of `ImportMegaPark` and the
repository. The index, which the file index derives from the files, is part
of the environment. -/
def Scan (env : ScanEnvironment) (state : MegaParkFiles × ScenarioRepository) :
    MegaParkFiles × ScenarioRepository :=
  (ImportMegaPark state.1, ScanRepository env state.2)

/-- Sample data: a highscore table with two records for one scenario. -/
def sampleDoubleTable : List scenario_highscore_entry :=
  [{ scen_file := some "Park.SC6".toList, scen_winner := some "Bob".toList,
     company_value := 50, timestamp := 1000, record_days := 10 },
   { scen_file := some "park.sc6".toList, scen_winner := some "Eve".toList,
     company_value := 60, timestamp := 2000, record_days := 20 }]

/-- Sample data: an environment with the two sample scenario files in the
index, sorted by insertion, the sample legacy file and no RCT2 score file. -/
def sampleEnvironment : ScanEnvironment :=
  { K := openrct2Constants
    index := [sampleNewer, sampleOlder]
    selectByOrigin := false
    std_sort := fun lt scenarios => scenarios.insertionSort (fun a b => lt a b = true)
    username := "Player".toList
    rct2_to_utf8 := fun s => s
    legacyFile := sampleLegacyFile
    rct2File := none }

/-- Sample data: no legacy park file, and a repository without score store
whose table holds two records for one scenario. -/
def sampleDoubleState : MegaParkFiles × ScenarioRepository :=
  ({ mpdat := none, sc21 := none, scenarioDirectoryExists := true },
   { sampleRepo with _highscores := sampleDoubleTable })

/-- Sample data: the legacy park file is there and has not been converted. -/
def sampleMegaPark : MegaParkFiles :=
  { mpdat := some [0x12, 0xAB, 0xF0], sc21 := none, scenarioDirectoryExists := false }

/-- Sample data: a collection whose first entry is passed over by
`GetByInternalName` (source game "other", unidentified) and whose second
entry has the same internal name. -/
def sampleCollection : List scenario_index_entry :=
  [sampleNewer, sampleOlder]

/-- A completed legacy record is covered by a highscore table: the table has
a record with the same file name, ignoring case, whose company value is not
lower. `LoadLegacyScores` leaves a table without duplicates unchanged for
such a record. -/
def coveredByTable (scBasic : rct_scores_entry) (highscores : List scenario_highscore_entry) :
    Prop :=
  ∃ h ∈ highscores, String.Equals (some scBasic.Path) h.scen_file true = true ∧
    scBasic.CompanyValue ≤ h.company_value

/-- The score file of the repository can be read by `LoadScores`: it exists
and has its head section. -/
def scoresReadable (repo : ScenarioRepository) : Prop :=
  ∃ store head, repo.scoresFile = some store ∧ store.head = some head

/-- Sample data: collaborators whose source catalog knows the name "My Park"
as scenario 7 of source game 2 with source index 12 and category 3. -/
def sampleCatalogCollaborators : Collaborators :=
  { sampleCollaborators with
    TryGetByName := fun name =>
      if name = "My Park".toList then
        some { title := "My Park".toList, id := 7, source := 2, index := 12, category := 3 }
      else none }

/-! ## The epoch of the highscore time stamp -/

/-- The number of days from 0001-01-01 to the first of January of `year` in
the proleptic Gregorian calendar: 365 for each year before `year`, and one more
for each leap year among them (every fourth year, except the centuries that
are not multiples of 400). -/
def daysBeforeYear (year : Nat) : Nat :=
  365 * (year - 1) + (year - 1) / 4 - (year - 1) / 100 + (year - 1) / 400

/-- The number of seconds from 0001-01-01T00:00:00 to the first of January of
`year`, 00:00:00, in the proleptic Gregorian calendar. -/
def secondsBeforeYear (year : Nat) : Nat :=
  86400 * daysBeforeYear year

/-- The time stamp as the specification words it: the whole seconds elapsed
since 2000-01-01T00:00:00 UTC, for a clock reading `now` in ticks of 100
nanoseconds counted from 0001-01-01T00:00:00 UTC. -/
def secondsSince2000AsSpecified (now : Nat) : Int :=
  (now / 10000000 : Nat) - (secondsBeforeYear 2000 : Nat)

/-! ## Keyboard shortcuts (`src/openrct2-ui/input/KeyboardShortcuts.cpp`) -/

/-- The constant of `KeyboardShortcuts.h`, which is not among the sources,
that marks a shortcut without key and a key without shortcut. -/
structure ShortcutConstants where
  SHORTCUT_UNDEFINED : Nat

/-- The value of upstream OpenRCT2. -/
def openrct2Shortcuts : ShortcutConstants :=
  { SHORTCUT_UNDEFINED := 0xFFFF }

/-- The loop of `KeyboardShortcuts::GetFromKey` over the slots of `_keys`
from slot `i` on. The table `uint16_t _keys[SHORTCUT_COUNT]` is the list of its
`SHORTCUT_COUNT` slots. -/
def KeyboardShortcuts.GetFromKeyLoop (C : ShortcutConstants) (key : Int) : List Nat → Nat → Int
  | [], _ => C.SHORTCUT_UNDEFINED
  | slot :: rest, i =>
    if key = (slot : Int) then (i : Int) else KeyboardShortcuts.GetFromKeyLoop C key rest (i + 1)

/-- `KeyboardShortcuts::GetFromKey`. -/
def KeyboardShortcuts.GetFromKey (C : ShortcutConstants) (_keys : List Nat) (key : Int) : Int :=
  KeyboardShortcuts.GetFromKeyLoop C key _keys 0

/-- `KeyboardShortcuts::Set`, on the table `_keys`: the table after the call,
which `Save()` then writes to the file of the shortcuts. A stored value is
converted to `uint16_t`. The result is `none` when
`gKeyboardShortcutChangeId` is no slot of the table (a write outside the
array, undefined in the source). -/
def KeyboardShortcuts.Set (C : ShortcutConstants) (gKeyboardShortcutChangeId : Nat)
    (_keys : List Nat) (key : Int) : Option (List Nat) :=
  -- Unmap shortcut that already uses this key
  let shortcut := KeyboardShortcuts.GetFromKey C _keys key
  let unmapped :=
    if shortcut ≠ (C.SHORTCUT_UNDEFINED : Int) then
      _keys.set shortcut.toNat (C.SHORTCUT_UNDEFINED % 65536)
    else _keys
  -- Map shortcut to this key
  if gKeyboardShortcutChangeId < unmapped.length then
    some (unmapped.set gKeyboardShortcutChangeId (key % 65536).toNat)
  else none

/-- No defined key occurs in more than one slot of the key table. -/
def UniqueKeys (C : ShortcutConstants) (keys : List Nat) : Prop :=
  ∀ (i j : Nat) (k : Nat), i ≠ j → keys[i]? = some k → keys[j]? = some k →
    k = C.SHORTCUT_UNDEFINED

/-- Sample data: a key table of four slots; key 40 is bound to shortcut 1 and
shortcut 3 has no key. -/
def sampleKeys : List Nat :=
  [42, 40, 41, 0xFFFF]

/-- Sample data: an entry for another scenario file, which holds a reference
to a record at position 7. -/
def sampleLake : scenario_index_entry :=
  { sampleOlder with path := "C:/rct2/Scenarios/Lake.SC6".toList, highscore := some 7 }

/-- Sample data: a repository before `AttachHighscores`, with the two-record
table for `Park.SC6` and two scenarios. -/
def sampleUnattachedRepo : ScenarioRepository :=
  { sampleFreshRepo with _scenarios := [sampleOlder, sampleLake], _highscores := sampleDoubleTable }

theorem sameFilename_of_matches {entry s : scenario_index_entry}
    (h : filenameMatches (some (Path.GetFileName entry.path)) s = true) : SameFilename entry s := by
  simpa [filenameMatches, String.Equals, SameFilename] using h

theorem matches_of_sameFilename {entry s : scenario_index_entry}
    (h : SameFilename entry s) : filenameMatches (some (Path.GetFileName entry.path)) s = true := by
  simpa [filenameMatches, String.Equals, SameFilename] using h

theorem matches_eq_false {entry s : scenario_index_entry} (h : ¬ SameFilename entry s) :
    filenameMatches (some (Path.GetFileName entry.path)) s = false := by
  rw [Bool.eq_false_iff]
  exact fun hm => h (sameFilename_of_matches hm)

theorem SameFilename.symm {a b : scenario_index_entry} (h : SameFilename a b) : SameFilename b a :=
  Eq.symm h

theorem SameFilename.trans {a b c : scenario_index_entry} (h : SameFilename a b)
    (h' : SameFilename b c) : SameFilename a c :=
  Eq.trans h h'

/-- In a collection with unique file names the lookup finds the one entry
that has the file name asked for. -/
theorem GetByFilename_eq_of_unique {scenarios : List scenario_index_entry}
    (hU : UniqueFilenames scenarios) {existing entry : scenario_index_entry}
    (hmem : existing ∈ scenarios) (hsame : SameFilename entry existing) :
    GetByFilename scenarios (some (Path.GetFileName entry.path)) = some existing := by
  induction scenarios with
  | nil => cases hmem
  | cons a t ih =>
    rw [UniqueFilenames, List.pairwise_cons] at hU
    rcases List.mem_cons.1 hmem with rfl | hmem'
    · simp [GetByFilename, List.find?_cons, matches_of_sameFilename hsame]
    · have hna : ¬ SameFilename entry a := fun h =>
        hU.1 existing hmem' (h.symm.trans hsame)
      have := matches_eq_false hna
      simpa [GetByFilename, List.find?_cons, this] using ih hU.2 hmem'

theorem filter_same_eq_nil {t : List scenario_index_entry} {entry : scenario_index_entry}
    (h : ∀ s ∈ t, ¬ SameFilename s entry) :
    t.filter (fun s => decide (SameFilename s entry)) = [] := by
  simpa [List.filter_eq_nil_iff] using h

/-- Overwriting the first match leaves exactly one entry with that file
name: the entry written. -/
theorem filter_set_findIdx {scenarios : List scenario_index_entry}
    (hU : UniqueFilenames scenarios) {existing entry : scenario_index_entry}
    (hmem : existing ∈ scenarios) (hsame : SameFilename entry existing) :
    (scenarios.set (GetByFilenameIndex scenarios (some (Path.GetFileName entry.path))) entry).filter
      (fun s => decide (SameFilename s entry)) = [entry] := by
  induction scenarios with
  | nil => cases hmem
  | cons a t ih =>
    rw [UniqueFilenames, List.pairwise_cons] at hU
    by_cases ha : SameFilename entry a
    · have hm := matches_of_sameFilename ha
      have ht : ∀ s ∈ t, ¬ SameFilename s entry := fun s hs h =>
        hU.1 s hs (ha.symm.trans h.symm)
      have hself : SameFilename entry entry := rfl
      simp [GetByFilenameIndex, List.findIdx_cons, hm, List.filter_cons, hself,
        filter_same_eq_nil ht]
    · have hm := matches_eq_false ha
      have hmem' : existing ∈ t := by
        rcases List.mem_cons.1 hmem with rfl | h
        · exact absurd hsame ha
        · exact h
      have ha' : ¬ SameFilename a entry := fun h => ha h.symm
      have := ih hU.2 hmem'
      simpa [GetByFilenameIndex, List.findIdx_cons, hm, List.filter_cons, ha'] using this

/-- In a collection with unique file names exactly one entry has a given
file name. -/
theorem filter_same_of_unique {scenarios : List scenario_index_entry}
    (hU : UniqueFilenames scenarios) {existing entry : scenario_index_entry}
    (hmem : existing ∈ scenarios) (hsame : SameFilename entry existing) :
    scenarios.filter (fun s => decide (SameFilename s entry)) = [existing] := by
  induction scenarios with
  | nil => cases hmem
  | cons a t ih =>
    rw [UniqueFilenames, List.pairwise_cons] at hU
    rcases List.mem_cons.1 hmem with rfl | hmem'
    · have ht : ∀ s ∈ t, ¬ SameFilename s entry := fun s hs h =>
        hU.1 s hs (hsame.symm.trans h.symm)
      simp [List.filter_cons, hsame.symm, filter_same_eq_nil ht]
    · have ha' : ¬ SameFilename a entry := fun h =>
        hU.1 existing hmem' (h.trans hsame)
      simpa [List.filter_cons, ha'] using ih hU.2 hmem'

/-- Overwriting the first entry that has the file name of `entry` keeps the
file names unique. -/
theorem unique_set_findIdx {scenarios : List scenario_index_entry}
    (hU : UniqueFilenames scenarios) (entry : scenario_index_entry) :
    UniqueFilenames
      (scenarios.set (GetByFilenameIndex scenarios (some (Path.GetFileName entry.path))) entry) := by
  induction scenarios with
  | nil => simpa [GetByFilenameIndex] using hU
  | cons a t ih =>
    rw [UniqueFilenames, List.pairwise_cons] at hU
    by_cases ha : SameFilename entry a
    · have hm := matches_of_sameFilename ha
      have ht : ∀ s ∈ t, ¬ SameFilename entry s := fun s hs h =>
        hU.1 s hs (ha.symm.trans h)
      simp only [GetByFilenameIndex, List.findIdx_cons, hm, cond_true, List.set_cons_zero]
      exact List.pairwise_cons.2 ⟨ht, hU.2⟩
    · have hm := matches_eq_false ha
      simp only [GetByFilenameIndex, List.findIdx_cons, hm, cond_false, List.set_cons_succ]
      refine List.pairwise_cons.2 ⟨?_, ih hU.2⟩
      intro s hs
      rcases List.mem_or_eq_of_mem_set hs with h | h
      · exact hU.1 s h
      · subst h
        exact fun h => ha h.symm

/-- One call of `AddScenario` keeps the file names of the collection unique. -/
theorem AddScenario_preserves_unique {scenarios : List scenario_index_entry}
    (hU : UniqueFilenames scenarios) (entry : scenario_index_entry) :
    UniqueFilenames (AddScenario scenarios entry).1 := by
  unfold AddScenario
  by_cases hE : String.Equals (some (Path.GetFileName entry.path)) (some []) false = true
  · simpa [hE] using hU
  · simp only [hE, Bool.not_false, Bool.not_eq_true, if_true]
    cases hfind : GetByFilename scenarios (some (Path.GetFileName entry.path)) with
    | none =>
      simp only []
      have hall : ∀ s ∈ scenarios, ¬ SameFilename s entry := by
        intro s hs h
        have := List.find?_eq_none.1 hfind s hs
        exact this (matches_of_sameFilename h.symm)
      refine List.pairwise_append.2 ⟨hU, List.pairwise_singleton _ _, ?_⟩
      intro a ha b hb
      rw [List.mem_singleton.1 hb]
      exact hall a ha
    | some existingEntry =>
      simp only []
      split
      · exact unique_set_findIdx hU entry
      · exact hU

/-- The loop over `AddScenario` keeps the file names unique. -/
theorem AddScenarios_preserves_unique (entries : List scenario_index_entry) :
    ∀ scenarios, UniqueFilenames scenarios → UniqueFilenames (AddScenarios scenarios entries) := by
  induction entries with
  | nil => intro scenarios hU; exact hU
  | cons e rest ih =>
    intro scenarios hU
    exact ih _ (AddScenario_preserves_unique hU e)

/-- Claim C1 as stated fails: with two copies of `park.sc6` whose time stamps
are 5 and 9, `AddScenario` keeps the copy stamped 5 and not the copy stamped
9, and the conflict diagnostic names the path of the copy stamped 9, whichever
of the two was in the collection first. -/
theorem AddScenario_newer_wins_refuted :
    SameFilename sampleNewer sampleOlder ∧ sampleOlder.timestamp < sampleNewer.timestamp ∧
    (AddScenario [sampleOlder] sampleNewer).1 = [sampleOlder] ∧
    (AddScenario [sampleNewer] sampleOlder).1 = [sampleOlder] ∧
    [sampleOlder] ≠ [sampleNewer] ∧
    (AddScenario [sampleOlder] sampleNewer).2 = [Diagnostic.scenarioConflict sampleNewer.path] ∧
    (AddScenario [sampleNewer] sampleOlder).2 = [Diagnostic.scenarioConflict sampleNewer.path] ∧
    Diagnostic.scenarioConflict sampleNewer.path ≠ Diagnostic.scenarioConflict sampleOlder.path := by
  decide

/-- Claim C1 (amended): in a collection with unique file names, when `entry`
has a non-empty file name equal, ignoring case, to that of an `existing`
entry and the two time stamps are `older.timestamp < newer.timestamp`
(whichever of the two is the existing one), then after `AddScenario` exactly
one entry with that file name remains, it is the `older` entry with all its
fields, and the single diagnostic of the call is the conflict diagnostic
naming the `newer` path. -/
theorem AddScenario_conflict_keeps_older (scenarios : List scenario_index_entry)
    (older newer existing entry : scenario_index_entry)
    (hU : UniqueFilenames scenarios)
    (hname : Path.GetFileName entry.path ≠ [])
    (hmem : existing ∈ scenarios)
    (hsame : SameFilename entry existing)
    (hlt : older.timestamp < newer.timestamp)
    (hroles : (existing = older ∧ entry = newer) ∨ (existing = newer ∧ entry = older)) :
    (AddScenario scenarios entry).1.filter (fun s => decide (SameFilename s entry)) = [older] ∧
    (AddScenario scenarios entry).2 = [Diagnostic.scenarioConflict newer.path] := by
  have hfind := GetByFilename_eq_of_unique hU hmem hsame
  have hE : String.Equals (some (Path.GetFileName entry.path)) (some []) false = false := by
    simpa [String.Equals] using hname
  unfold AddScenario
  simp only [hE, hfind, Bool.not_false, if_true]
  rcases hroles with ⟨h1, h2⟩ | ⟨h1, h2⟩
  · subst h1; subst h2
    have hnot : ¬ existing.timestamp > entry.timestamp := by omega
    rw [if_neg hnot]
    exact ⟨filter_same_of_unique hU hmem hsame, rfl⟩
  · subst h1; subst h2
    have hgt : existing.timestamp > entry.timestamp := hlt
    rw [if_pos hgt]
    exact ⟨filter_set_findIdx hU hmem hsame, rfl⟩

/-- Witness for claim C1 (amended): the copy stamped 9 is in the collection
and the copy stamped 5 is added. -/
theorem AddScenario_conflict_keeps_older_witness :
    (AddScenario [sampleNewer] sampleOlder).1.filter
        (fun s => decide (SameFilename s sampleOlder)) = [sampleOlder] ∧
    (AddScenario [sampleNewer] sampleOlder).2 = [Diagnostic.scenarioConflict sampleNewer.path] :=
  AddScenario_conflict_keeps_older [sampleNewer] sampleOlder sampleNewer sampleNewer sampleOlder
    (List.pairwise_singleton _ _) (by decide) (by decide) (by decide) (by decide)
    (Or.inr ⟨rfl, rfl⟩)

/-- Claim C2: starting from the empty collection, after any finite sequence
of `AddScenario` calls no two entries of the collection have file names (last
path component) that are equal ignoring case. -/
theorem AddScenarios_unique_filenames (entries : List scenario_index_entry) :
    UniqueFilenames (AddScenarios [] entries) :=
  AddScenarios_preserves_unique entries [] List.Pairwise.nil

/-- Claim C3: `AddScenario` rejects an entry whose path has an empty file
name: the collection after the call is the collection before it, and the one
diagnostic written is the empty-filename error. -/
theorem AddScenario_rejects_empty_filename (scenarios : List scenario_index_entry)
    (entry : scenario_index_entry) (hempty : Path.GetFileName entry.path = []) :
    AddScenario scenarios entry = (scenarios, [Diagnostic.emptyFilename]) := by
  simp [AddScenario, hempty, String.Equals]

/-- Witness for claim C3: a path that ends in a separator is rejected. -/
theorem AddScenario_rejects_empty_filename_witness :
    AddScenario [sampleOlder] sampleNoFilename = ([sampleOlder], [Diagnostic.emptyFilename]) :=
  AddScenario_rejects_empty_filename [sampleOlder] sampleNoFilename (by decide)

/-! ## Theorems: recording a highscore -/

@[simp] theorem SaveHighscores_highscores (repo : ScenarioRepository) :
    (SaveHighscores repo)._highscores = repo._highscores := by
  unfold SaveHighscores; split <;> rfl

@[simp] theorem SaveHighscores_scenarios (repo : ScenarioRepository) :
    (SaveHighscores repo)._scenarios = repo._scenarios := by
  unfold SaveHighscores; split <;> rfl

@[simp] theorem SaveHighscores_last_winner (repo : ScenarioRepository) :
    (SaveHighscores repo)._last_winner = repo._last_winner := by
  unfold SaveHighscores; split <;> rfl

/-- Writing at the position of the first match an entry that matches too makes
the lookup return the entry written. -/
theorem find?_set_findIdx {p : scenario_index_entry → Bool} {l : List scenario_index_entry}
    {x y : scenario_index_entry} (hfind : l.find? p = some x) (hy : p y = true) :
    (l.set (l.findIdx p) y).find? p = some y := by
  induction l with
  | nil => simp at hfind
  | cons a t ih =>
    by_cases ha : p a = true
    · simp [List.findIdx_cons, ha, List.find?_cons, hy]
    · have ha' : p a = false := by simpa using ha
      rw [List.find?_cons, ha'] at hfind
      simp only [List.findIdx_cons, ha', cond_false, List.set_cons_succ, List.find?_cons]
      exact ih hfind

theorem filenameMatches_of_find {scenarios : List scenario_index_entry}
    {filename : Option utf8string} {scenario : scenario_index_entry}
    (h : GetByFilename scenarios filename = some scenario) :
    filenameMatches filename scenario = true := by
  have := List.find?_some h
  exact this

/-- The three ways a call of `TryRecordHighscore` on a known scenario ends. -/
theorem TryRecordHighscore_known (scan : ScenarioRepository → ScenarioRepository)
    (companyValue dayRecord : Int) (now : Nat) (repo : ScenarioRepository)
    (filename scen_winner : Option utf8string) (scenario : scenario_index_entry)
    (h : scenario_highscore_entry)
    (hknown : GetByFilename (scan repo)._scenarios filename = some scenario)
    (hrec : workingRecord (scan repo) scenario = some h) :
    ∃ accepted repo', TryRecordHighscore scan companyValue dayRecord now repo filename scen_winner
        = some (accepted, repo') ∧
      (accepted = false → repo' = scan repo ∧ scenario.highscore ≠ none ∧
        rejectsHighscore h companyValue dayRecord scen_winner = true) ∧
      (accepted = true →
        (scenario.highscore = none ∨ rejectsHighscore h companyValue dayRecord scen_winner = false) ∧
        repo'._last_winner = nextLastWinner (scan repo)._last_winner scen_winner ∧
        attachedHighscore repo' filename = some (recordedHighscore h scenario.path
          (scan repo)._last_winner companyValue dayRecord now scen_winner)) := by
  unfold TryRecordHighscore
  simp only [hknown]
  cases hk : scenario.highscore with
  | none =>
    simp only [workingRecord, hk, Option.some.injEq] at hrec
    subst hrec
    refine ⟨true, _, rfl, by simp, fun _ => ⟨Or.inl rfl, by simp, ?_⟩⟩
    have hm := filenameMatches_of_find hknown
    have hfind := find?_set_findIdx (y := { scenario with highscore := some (scan repo)._highscores.length })
      hknown (by simpa [filenameMatches] using hm)
    simp only [attachedHighscore, SaveHighscores_scenarios, SaveHighscores_highscores,
      GetByFilename, GetByFilenameIndex, hfind, List.getElem?_concat_length]
  | some k =>
    simp only [workingRecord, hk] at hrec
    simp only [hrec]
    by_cases hrej : rejectsHighscore h companyValue dayRecord scen_winner = true
    · rw [if_pos hrej]
      exact ⟨false, _, rfl, fun _ => ⟨rfl, by simp, hrej⟩, by simp⟩
    · have hrej' : rejectsHighscore h companyValue dayRecord scen_winner = false := by
        simpa using hrej
      rw [if_neg hrej]
      refine ⟨true, _, rfl, by simp, fun _ => ⟨Or.inr hrej', by simp, ?_⟩⟩
      have hlt : k < (scan repo)._highscores.length := by
        rcases List.getElem?_eq_some.1 hrec with ⟨hlt, _⟩
        exact hlt
      simp only [attachedHighscore, SaveHighscores_scenarios, SaveHighscores_highscores,
        hknown, hk, List.getElem?_set_self hlt]

theorem attachedHighscore_of_known {repo : ScenarioRepository} {filename : Option utf8string}
    {scenario : scenario_index_entry}
    (hknown : GetByFilename repo._scenarios filename = some scenario)
    (hptr : scenario.highscore ≠ none) :
    attachedHighscore repo filename = workingRecord repo scenario := by
  unfold attachedHighscore workingRecord
  rw [hknown]
  cases hk : scenario.highscore with
  | none => exact absurd hk hptr
  | some k => simp only [hk]

theorem rejectsHighscore_no_improvement {h : scenario_highscore_entry} {companyValue dayRecord : Int}
    {scen_winner : Option utf8string}
    (hrej : rejectsHighscore h companyValue dayRecord scen_winner = true) :
    companyValue ≤ h.company_value ∧ 0 < h.record_days ∧ h.record_days ≤ dayRecord := by
  simp only [rejectsHighscore, Bool.and_eq_true, decide_eq_true_eq] at hrej
  exact ⟨hrej.1.1.1, hrej.1.1.2, hrej.1.2⟩

/-- Claim C4: on a known scenario whose record holds company value `V` (the
zero-filled record when this call creates it), a call with submitted value `C`
leaves the scenario's record with company value `max V C` when it is accepted
and `V` when it is rejected, so never lower than `V`. -/
theorem TryRecordHighscore_company_value_ratchet
    (scan : ScenarioRepository → ScenarioRepository)
    (companyValue dayRecord : Int) (now : Nat) (repo : ScenarioRepository)
    (filename scen_winner : Option utf8string) (scenario : scenario_index_entry)
    (h : scenario_highscore_entry)
    (hknown : GetByFilename (scan repo)._scenarios filename = some scenario)
    (hrec : workingRecord (scan repo) scenario = some h) :
    ∃ accepted repo' h',
      TryRecordHighscore scan companyValue dayRecord now repo filename scen_winner
        = some (accepted, repo') ∧
      attachedHighscore repo' filename = some h' ∧
      h'.company_value = (if accepted = true then max h.company_value companyValue
        else h.company_value) ∧
      h.company_value ≤ h'.company_value := by
  obtain ⟨accepted, repo', hres, hfalse, htrue⟩ :=
    TryRecordHighscore_known scan companyValue dayRecord now repo filename scen_winner
      scenario h hknown hrec
  cases accepted with
  | false =>
    obtain ⟨hrepo, hptr, _⟩ := hfalse rfl
    refine ⟨false, repo', h, hres, ?_, by simp, le_refl _⟩
    rw [hrepo, attachedHighscore_of_known hknown hptr, hrec]
  | true =>
    obtain ⟨_, _, hatt⟩ := htrue rfl
    refine ⟨true, repo', _, hres, hatt, ?_, ?_⟩
    · simp only [recordedHighscore, if_true]
      split
      · rw [max_eq_right]; omega
      · rw [max_eq_left]; omega
    · simp only [recordedHighscore]
      split <;> omega

/-- Witness for claim C4, with the sequence of the specification: on the
record (100, 10) a call with (50, 10) leaves 100; from no record, a first
call with (100, 10) gives 100, after which (50, 10) leaves 100 and (150, 10)
gives 150. -/
theorem TryRecordHighscore_company_value_ratchet_witness :
    (∃ accepted repo' h',
      TryRecordHighscore id 50 10 sampleNow sampleRepo sampleFileName (some "Alice".toList)
        = some (accepted, repo') ∧
      attachedHighscore repo' sampleFileName = some h' ∧
      h'.company_value = (if accepted = true then max (100 : Int) 50 else 100) ∧
      (100 : Int) ≤ h'.company_value) ∧
    ((TryRecordHighscore id 100 10 sampleNow sampleFreshRepo sampleFileName
        (some "Bob".toList)).bind
      (fun r => (attachedHighscore r.2 sampleFileName).map (fun h => h.company_value)) = some 100) ∧
    (((TryRecordHighscore id 100 10 sampleNow sampleFreshRepo sampleFileName
        (some "Bob".toList)).bind
      (fun r => TryRecordHighscore id 50 10 sampleNow r.2 sampleFileName none)).bind
      (fun r => (attachedHighscore r.2 sampleFileName).map (fun h => h.company_value)) = some 100) ∧
    (((TryRecordHighscore id 100 10 sampleNow sampleFreshRepo sampleFileName
        (some "Bob".toList)).bind
      (fun r => TryRecordHighscore id 150 10 sampleNow r.2 sampleFileName none)).bind
      (fun r => (attachedHighscore r.2 sampleFileName).map (fun h => h.company_value)) = some 150) :=
  ⟨TryRecordHighscore_company_value_ratchet id 50 10 sampleNow sampleRepo sampleFileName
      (some "Alice".toList) { sampleOlder with highscore := some 0 }
      { scen_file := some "Park.SC6".toList, scen_winner := some "Bob".toList,
        company_value := 100, timestamp := 1000, record_days := 10 }
      (by decide) (by decide),
    by decide, by decide, by decide⟩

/-- Claim C5 fails on the code: with the stored record (100, 10 days, winner
Bob), the submission (50, 10 days, winner Alice) is accepted and Alice
replaces Bob as the winner, although the company value is not greater, the
day count is not smaller, and the result is not a tie on a nameless record. -/
theorem TryRecordHighscore_accepts_without_improvement :
    attachedHighscore sampleRepo sampleFileName =
      some { scen_file := some "Park.SC6".toList, scen_winner := some "Bob".toList,
             company_value := 100, timestamp := 1000, record_days := 10 } ∧
    (TryRecordHighscore id 50 10 sampleNow sampleRepo sampleFileName
      (some "Alice".toList)).map Prod.fst = some true ∧
    (TryRecordHighscore id 50 10 sampleNow sampleRepo sampleFileName
      (some "Alice".toList)).bind (fun r => attachedHighscore r.2 sampleFileName) =
      some { scen_file := some "Park.SC6".toList, scen_winner := some "Alice".toList,
             company_value := 100, timestamp := 100, record_days := 10 } ∧
    improvesAsSpecified
      { scen_file := some "Park.SC6".toList, scen_winner := some "Bob".toList,
        company_value := 100, timestamp := 1000, record_days := 10 }
      50 10 (some "Alice".toList) = false := by
  decide

/-- Claim C6: on a known scenario with an existing record, a submitted company
value strictly greater than the stored one, or a submitted day count strictly
smaller than the stored `record_days`, makes the call return true, whatever
the stored and the submitted winner names are. -/
theorem TryRecordHighscore_accepts_improvement
    (scan : ScenarioRepository → ScenarioRepository)
    (companyValue dayRecord : Int) (now : Nat) (repo : ScenarioRepository)
    (filename scen_winner : Option utf8string) (scenario : scenario_index_entry)
    (k : Nat) (h : scenario_highscore_entry)
    (hknown : GetByFilename (scan repo)._scenarios filename = some scenario)
    (hptr : scenario.highscore = some k)
    (hrec : (scan repo)._highscores[k]? = some h)
    (himproves : companyValue > h.company_value ∨ dayRecord < h.record_days) :
    ∃ repo', TryRecordHighscore scan companyValue dayRecord now repo filename scen_winner
      = some (true, repo') := by
  have hrec' : workingRecord (scan repo) scenario = some h := by
    simp only [workingRecord, hptr, hrec]
  obtain ⟨accepted, repo', hres, hfalse, _⟩ :=
    TryRecordHighscore_known scan companyValue dayRecord now repo filename scen_winner
      scenario h hknown hrec'
  cases accepted with
  | false =>
    obtain ⟨_, _, hrej⟩ := hfalse rfl
    have := rejectsHighscore_no_improvement hrej
    omega
  | true => exact ⟨repo', hres⟩

/-- Witness for claim C6: 9 days against the stored 10, with a lower company
value and no winner name, is accepted. -/
theorem TryRecordHighscore_accepts_improvement_witness :
    ∃ repo', TryRecordHighscore id 50 9 sampleNow sampleRepo sampleFileName none
      = some (true, repo') :=
  TryRecordHighscore_accepts_improvement id 50 9 sampleNow sampleRepo sampleFileName none
    { sampleOlder with highscore := some 0 } 0
    { scen_file := some "Park.SC6".toList, scen_winner := some "Bob".toList,
      company_value := 100, timestamp := 1000, record_days := 10 }
    (by decide) (by decide) (by decide) (by decide)

/-- Claim C7: if after the rescan no scenario has the given file name
(ignoring case), `TryRecordHighscore` returns false and the whole state, with
the highscore table, the last-winner field and the persisted score store, is
as the rescan left it. -/
theorem TryRecordHighscore_unknown_scenario
    (scan : ScenarioRepository → ScenarioRepository)
    (companyValue dayRecord : Int) (now : Nat) (repo : ScenarioRepository)
    (filename scen_winner : Option utf8string)
    (hunknown : GetByFilename (scan repo)._scenarios filename = none) :
    TryRecordHighscore scan companyValue dayRecord now repo filename scen_winner
      = some (false, scan repo) := by
  unfold TryRecordHighscore
  simp only [hunknown]

/-- Witness for claim C7: no scenario of the sample repository is named
`other.sc6`. -/
theorem TryRecordHighscore_unknown_scenario_witness :
    TryRecordHighscore id 500 3 sampleNow sampleRepo (some "other.sc6".toList)
      (some "Alice".toList) = some (false, sampleRepo) :=
  TryRecordHighscore_unknown_scenario id 500 3 sampleNow sampleRepo (some "other.sc6".toList)
    (some "Alice".toList) (by decide)

/-- Claim C8: on every accepted call, if the submitted winner name is
non-empty the winner of the scenario's record and the last-winner field both
become that name; if it is null or empty the record's winner becomes the value
the last-winner field had (after the rescan) and the field is unchanged. -/
theorem TryRecordHighscore_winner_fallback
    (scan : ScenarioRepository → ScenarioRepository)
    (companyValue dayRecord : Int) (now : Nat) (repo repo' : ScenarioRepository)
    (filename scen_winner : Option utf8string)
    (haccepted : TryRecordHighscore scan companyValue dayRecord now repo filename scen_winner
      = some (true, repo')) :
    ∃ h', attachedHighscore repo' filename = some h' ∧
      (String.IsNullOrEmpty scen_winner = false →
        h'.scen_winner = scen_winner ∧ some repo'._last_winner = scen_winner) ∧
      (String.IsNullOrEmpty scen_winner = true →
        h'.scen_winner = some (scan repo)._last_winner ∧
        repo'._last_winner = (scan repo)._last_winner) := by
  cases hknown : GetByFilename (scan repo)._scenarios filename with
  | none =>
    unfold TryRecordHighscore at haccepted
    simp [hknown] at haccepted
  | some scenario =>
    cases hrec : workingRecord (scan repo) scenario with
    | none =>
      exfalso
      unfold TryRecordHighscore at haccepted
      simp only [hknown] at haccepted
      cases hk : scenario.highscore with
      | none => simp [workingRecord, hk] at hrec
      | some k =>
        simp only [workingRecord, hk] at hrec
        simp [hk, hrec] at haccepted
    | some h =>
      obtain ⟨accepted, repo'', hres, _, htrue⟩ :=
        TryRecordHighscore_known scan companyValue dayRecord now repo filename scen_winner
          scenario h hknown hrec
      rw [haccepted] at hres
      simp only [Option.some.injEq, Prod.mk.injEq] at hres
      obtain ⟨hacc, hrepo⟩ := hres
      subst hacc; subst hrepo
      obtain ⟨_, hlast, hatt⟩ := htrue rfl
      refine ⟨_, hatt, ?_, ?_⟩
      · intro hne
        cases scen_winner with
        | none => simp [String.IsNullOrEmpty] at hne
        | some w => simp [recordedHighscore, hlast, nextLastWinner, hne]
      · intro he
        simp [recordedHighscore, hlast, nextLastWinner, he]

/-- Witness for claim C8: an accepted call without a winner name records the
last winner, Bob, and leaves the last-winner field as it was. -/
theorem TryRecordHighscore_winner_fallback_witness :
    TryRecordHighscore id 150 10 sampleNow sampleRepo sampleFileName none
      = some (true, sampleAccepted) ∧
    ∃ h', attachedHighscore sampleAccepted sampleFileName = some h' ∧
      h'.scen_winner = some "Bob".toList ∧ sampleAccepted._last_winner = "Bob".toList := by
  obtain ⟨h', hatt, _, hfallback⟩ :=
    TryRecordHighscore_winner_fallback id 150 10 sampleNow sampleRepo sampleAccepted
      sampleFileName none (by decide)
  exact ⟨by decide, h', hatt, hfallback rfl⟩

/-! ## Theorems: checksum and the loader of the score store -/

theorem toU32_cast (i : Int) : ((toU32 i : Nat) : Int) = i % 4294967296 := by
  unfold toU32
  exact Int.toNat_of_nonneg (Int.emod_nonneg _ (by norm_num))

/-- The wrapping sum of the checksum is the residue of the exact sum. -/
theorem checksum_sum_eq (t c d : Int) :
    ((((toU32 t <<< 8) % 4294967296 + toU32 c) % 4294967296
        + (toU32 c <<< 16) % 4294967296) % 4294967296
      + (toU32 d <<< 8) % 4294967296) % 4294967296
    = toU32 (t * 2 ^ 8 + c + c * 2 ^ 16 + d * 2 ^ 8) := by
  have ht := toU32_cast t
  have hc := toU32_cast c
  have hd := toU32_cast d
  have hs := toU32_cast (t * 2 ^ 8 + c + c * 2 ^ 16 + d * 2 ^ 8)
  simp only [Nat.shiftLeft_eq]
  generalize toU32 t = tn at *
  generalize toU32 c = cn at *
  generalize toU32 d = dn at *
  generalize toU32 (t * 2 ^ 8 + c + c * 2 ^ 16 + d * 2 ^ 8) = sn at *
  norm_num at *
  omega

/-- Claim C9 as stated fails: for the record with time stamp 1, company value
1 and 0 days the code returns -1640597319, the formula of the claim gives
-1640597317. -/
theorem checksum_differs_from_specified :
    checksum { scen_file := none, scen_winner := none, company_value := 1, timestamp := 1,
               record_days := 0 } = -1640597319 ∧
    checksumAsSpecified { scen_file := none, scen_winner := none, company_value := 1,
                          timestamp := 1, record_days := 0 } = -1640597317 ∧
    checksum { scen_file := none, scen_winner := none, company_value := 1, timestamp := 1,
               record_days := 0 } ≠
    checksumAsSpecified { scen_file := none, scen_winner := none, company_value := 1,
                          timestamp := 1, record_days := 0 } := by
  decide

/-- Claim C9 (amended): for every highscore record, the checksum is
`(timestamp XOR ((timestamp << 8) + companyValue + (companyValue << 16) +
(recordDays << 8))) XOR 0x9E3779B9`, the sum being formed first and reduced
modulo `2 ^ 32`, the result taken as a 32-bit integer. -/
theorem checksum_formula (highscore : scenario_highscore_entry) :
    checksum highscore =
      toS32 ((toU32 highscore.timestamp
          ^^^ toU32 (highscore.timestamp * 2 ^ 8 + highscore.company_value
                + highscore.company_value * 2 ^ 16 + highscore.record_days * 2 ^ 8))
        ^^^ 0x9E3779B9) := by
  unfold checksum
  simp only [checksum_sum_eq]

theorem LoadScoresLoop_eq_map (store : ScoreStore) (pfx : utf8string) (remaining : Nat) :
    ∀ i, LoadScoresLoop store pfx remaining i
      = (sectionsRead store pfx remaining i).map LoadScoresEntry := by
  induction remaining with
  | zero => intro i; rfl
  | succ n ih =>
    intro i
    unfold LoadScoresLoop sectionsRead
    cases store.ReadSection (sectionName pfx i) with
    | none => rfl
    | some sec => simp only [List.map_cons, ih]

/-- Claim C10: `LoadScores` appends one record for every section it reads,
whatever the checksums (the table has as many records as sections were read);
each record keeps the `file` key as persisted; a record whose stored checksum
differs from the checksum of its loaded time stamp, company value and days has
its winner cleared and company value and days set to 0, and a record whose
checksum matches keeps its persisted winner, company value and days. -/
theorem LoadScores_checksum_quarantine (username : utf8string) (repo : ScenarioRepository)
    (store : ScoreStore) (head : ScoreHeader)
    (hfile : repo.scoresFile = some store) (hhead : store.head = some head) :
    (LoadScores username repo)._highscores
      = (sectionsRead store ((head.sectionPfx.getD "scen".toList).take 31)
          (head.count.getD 0).toNat 0).map (fun sec => (LoadScoresEntry sec).1) ∧
    (LoadScores username repo)._highscores.length
      = (sectionsRead store ((head.sectionPfx.getD "scen".toList).take 31)
          (head.count.getD 0).toNat 0).length ∧
    ∀ sec : ScoreSection,
      (LoadScoresEntry sec).1.scen_file = some (sec.file.getD "error".toList) ∧
      (checksum (LoadScoresFields sec) ≠ sec.checksum.getD 0 →
        (LoadScoresEntry sec).1.scen_winner = none ∧
        (LoadScoresEntry sec).1.company_value = 0 ∧
        (LoadScoresEntry sec).1.record_days = 0) ∧
      (checksum (LoadScoresFields sec) = sec.checksum.getD 0 →
        (LoadScoresEntry sec).1.scen_winner = some (sec.winner.getD "error".toList) ∧
        (LoadScoresEntry sec).1.company_value
          = moneyOfDecimal (sec.company_value.getD ⟨0, 0⟩) ∧
        (LoadScoresEntry sec).1.record_days = sec.record_days.getD 0) := by
  have htable : (LoadScores username repo)._highscores
      = (sectionsRead store ((head.sectionPfx.getD "scen".toList).take 31)
          (head.count.getD 0).toNat 0).map (fun sec => (LoadScoresEntry sec).1) := by
    unfold LoadScores
    simp only [hfile, hhead, LoadScoresLoop_eq_map, List.map_map]
    rfl
  refine ⟨htable, by rw [htable, List.length_map], ?_⟩
  intro sec
  refine ⟨?_, ?_, ?_⟩
  · unfold LoadScoresEntry
    simp only []
    split <;> rfl
  · intro hne
    unfold LoadScoresEntry
    simp only [hne, ne_eq, not_false_eq_true, if_true, and_self]
  · intro heq
    unfold LoadScoresEntry
    simp only [heq, ne_eq, not_true_eq_false, if_false]
    exact ⟨rfl, rfl, rfl⟩

/-- Witness for claim C10: of the two sections of the sample store the first
is loaded as persisted, the second, whose company value was altered, is
loaded with its file key and without winner, company value and days. -/
theorem LoadScores_checksum_quarantine_witness :
    (LoadScores "Player".toList { sampleRepo with scoresFile := some sampleStore })._highscores
      = [{ scen_file := some "park.sc6".toList, scen_winner := some "Bob".toList,
           company_value := 12345, timestamp := 1000, record_days := 10 },
         { scen_file := some "other.sc6".toList, scen_winner := none,
           company_value := 0, timestamp := 1000, record_days := 0 }] := by
  have h := (LoadScores_checksum_quarantine "Player".toList
    { sampleRepo with scoresFile := some sampleStore } sampleStore
    { version := some 11, last_winner := some "Bob".toList,
      sectionPfx := some "scen".toList, count := some 2 } rfl rfl).1
  rw [h]
  decide

/-! ## Theorems: merging the legacy score files -/

theorem String.Equals_comm (a b : Option utf8string) (ignoreCase : Bool) :
    String.Equals a b ignoreCase = String.Equals b a ignoreCase := by
  cases a <;> cases b <;> simp [String.Equals, eq_comm]

theorem String.Equals_trans {a b c : Option utf8string}
    (hab : String.Equals a b true = true) (hbc : String.Equals b c true = true) :
    String.Equals a c true = true := by
  cases a <;> cases b <;> cases c <;> simp_all [String.Equals]

theorem LegacyUpgrade_refl (K : HeaderConstants) (entries : List rct_scores_entry)
    (h : scenario_highscore_entry) : LegacyUpgrade K entries h h :=
  ⟨rfl, rfl, le_refl _, Or.inl rfl⟩

theorem LegacyUpgrade_trans {K : HeaderConstants} {entries : List rct_scores_entry}
    {a b c : scenario_highscore_entry} (hab : LegacyUpgrade K entries a b)
    (hbc : LegacyUpgrade K entries b c) : LegacyUpgrade K entries a c := by
  obtain ⟨hf1, hd1, hv1, hc1⟩ := hab
  obtain ⟨hf2, hd2, hv2, hc2⟩ := hbc
  refine ⟨hf2.trans hf1, hd2.trans hd1, le_trans hv1 hv2, ?_⟩
  rcases hc1 with hba | hex
  · subst hba
    exact hc2
  · exact Or.inr hex

theorem LoadLegacyScoresMatch_length (name : utf8string) (scBasic : rct_scores_entry)
    (l : List scenario_highscore_entry) :
    (LoadLegacyScoresMatch name scBasic l).1.length = l.length := by
  induction l with
  | nil => rfl
  | cons a t ih =>
    unfold LoadLegacyScoresMatch
    split
    · split
      · rfl
      · simp [ih]
    · simp [ih]

theorem LoadLegacyScoresMatch_scen_files (name : utf8string) (scBasic : rct_scores_entry)
    (l : List scenario_highscore_entry) :
    (LoadLegacyScoresMatch name scBasic l).1.map (fun h => h.scen_file)
      = l.map (fun h => h.scen_file) := by
  induction l with
  | nil => rfl
  | cons a t ih =>
    unfold LoadLegacyScoresMatch
    split
    · split
      · rfl
      · simp [ih]
    · simp [ih]

/-- The inner loop leaves `notFound` set exactly when no record of the table
has the path of the legacy record, and then it changes nothing. -/
theorem LoadLegacyScoresMatch_of_no_match (name : utf8string) (scBasic : rct_scores_entry)
    (l : List scenario_highscore_entry)
    (hno : ∀ h ∈ l, String.Equals (some scBasic.Path) h.scen_file true = false) :
    LoadLegacyScoresMatch name scBasic l = (l, true) := by
  induction l with
  | nil => rfl
  | cons a t ih =>
    have ha := hno a (List.mem_cons_self _ _)
    have ht := ih (fun h hh => hno h (List.mem_cons_of_mem _ hh))
    unfold LoadLegacyScoresMatch
    simp [ha, ht]

theorem LoadLegacyScoresMatch_notFound (name : utf8string) (scBasic : rct_scores_entry)
    (l : List scenario_highscore_entry)
    (hnf : (LoadLegacyScoresMatch name scBasic l).2 = true) :
    ∀ h ∈ l, String.Equals (some scBasic.Path) h.scen_file true = false := by
  induction l with
  | nil => intro h hh; cases hh
  | cons a t ih =>
    unfold LoadLegacyScoresMatch at hnf
    by_cases ha : String.Equals (some scBasic.Path) a.scen_file true = true
    · rw [if_pos ha] at hnf
      split at hnf <;> simp at hnf
    · rw [if_neg ha] at hnf
      intro h hh
      rcases List.mem_cons.1 hh with rfl | hh'
      · simpa using ha
      · exact ih hnf h hh'

/-- The inner loop changes each record of the table by a legacy upgrade. -/
theorem LoadLegacyScoresMatch_getElem (K : HeaderConstants) (entries : List rct_scores_entry)
    (name : utf8string) (scBasic : rct_scores_entry) (hmem : scBasic ∈ entries)
    (hdone : legacyCompleted K scBasic) (l : List scenario_highscore_entry) :
    ∀ (i : Nat) (h : scenario_highscore_entry), l[i]? = some h →
      ∃ h', (LoadLegacyScoresMatch name scBasic l).1[i]? = some h' ∧
        LegacyUpgrade K entries h h' := by
  induction l with
  | nil => intro i h hi; simp at hi
  | cons a t ih =>
    intro i h hi
    unfold LoadLegacyScoresMatch
    by_cases ha : String.Equals (some scBasic.Path) a.scen_file true = true
    · rw [if_pos ha]
      by_cases hv : scBasic.CompanyValue > a.company_value
      · rw [if_pos hv]
        cases i with
        | zero =>
          simp only [List.getElem?_cons_zero, Option.some.injEq] at hi
          subst hi
          refine ⟨_, List.getElem?_cons_zero, rfl, rfl, le_of_lt hv, Or.inr ⟨scBasic, hmem, hdone, ha, hv⟩⟩
        | succ j =>
          simp only [List.getElem?_cons_succ] at hi
          exact ⟨h, by simpa using hi, LegacyUpgrade_refl K entries h⟩
      · rw [if_neg hv]
        cases i with
        | zero =>
          simp only [List.getElem?_cons_zero, Option.some.injEq] at hi
          subst hi
          exact ⟨_, List.getElem?_cons_zero, LegacyUpgrade_refl K entries _⟩
        | succ j =>
          simp only [List.getElem?_cons_succ] at hi
          simpa using ih j h hi
    · rw [if_neg ha]
      cases i with
      | zero =>
        simp only [List.getElem?_cons_zero, Option.some.injEq] at hi
        subst hi
        exact ⟨_, List.getElem?_cons_zero, LegacyUpgrade_refl K entries _⟩
      | succ j =>
        simp only [List.getElem?_cons_succ] at hi
        simpa using ih j h hi

/-- One legacy record upgrades the records of the table and may append one. -/
theorem LoadLegacyScoresEntry_getElem (K : HeaderConstants) (entries : List rct_scores_entry)
    (rct2_to_utf8 : utf8string → utf8string) (scBasic : rct_scores_entry)
    (hmem : scBasic ∈ entries) (l : List scenario_highscore_entry) :
    l.length ≤ (LoadLegacyScoresEntry K rct2_to_utf8 l scBasic).length ∧
    ∀ (i : Nat) (h : scenario_highscore_entry), l[i]? = some h →
      ∃ h', (LoadLegacyScoresEntry K rct2_to_utf8 l scBasic)[i]? = some h' ∧
        LegacyUpgrade K entries h h' := by
  unfold LoadLegacyScoresEntry
  by_cases hdone : scBasic.Flags &&& K.SCENARIO_FLAGS_COMPLETED ≠ 0
  · rw [if_pos hdone]
    have hlen := LoadLegacyScoresMatch_length (rct2_to_utf8 scBasic.CompletedBy) scBasic l
    have hget := LoadLegacyScoresMatch_getElem K entries (rct2_to_utf8 scBasic.CompletedBy)
      scBasic hmem hdone l
    simp only []
    split
    · refine ⟨by simp [hlen], ?_⟩
      intro i h hi
      obtain ⟨h', hi', hup⟩ := hget i h hi
      have hlt : i < (LoadLegacyScoresMatch (rct2_to_utf8 scBasic.CompletedBy) scBasic l).1.length := by
        rcases List.getElem?_eq_some.1 hi' with ⟨hlt, _⟩
        exact hlt
      exact ⟨h', by rw [List.getElem?_append_left hlt]; exact hi', hup⟩
    · exact ⟨by simp [hlen], hget⟩
  · rw [if_neg hdone]
    exact ⟨le_refl _, fun i h hi => ⟨h, hi, LegacyUpgrade_refl K entries h⟩⟩

/-- Merging a list of legacy records upgrades the records of the table and
may append records. -/
theorem LoadLegacyScores_foldl_getElem (K : HeaderConstants) (entries : List rct_scores_entry)
    (rct2_to_utf8 : utf8string → utf8string) (es : List rct_scores_entry) :
    (∀ e ∈ es, e ∈ entries) → ∀ l : List scenario_highscore_entry,
    l.length ≤ (es.foldl (LoadLegacyScoresEntry K rct2_to_utf8) l).length ∧
    ∀ (i : Nat) (h : scenario_highscore_entry), l[i]? = some h →
      ∃ h', (es.foldl (LoadLegacyScoresEntry K rct2_to_utf8) l)[i]? = some h' ∧
        LegacyUpgrade K entries h h' := by
  induction es with
  | nil =>
    intro _ l
    exact ⟨le_refl _, fun i h hi => ⟨h, hi, LegacyUpgrade_refl K entries h⟩⟩
  | cons e rest ih =>
    intro hsub l
    have hstep := LoadLegacyScoresEntry_getElem K entries rct2_to_utf8 e
      (hsub e (List.mem_cons_self _ _)) l
    have hrest := ih (fun x hx => hsub x (List.mem_cons_of_mem _ hx))
      (LoadLegacyScoresEntry K rct2_to_utf8 l e)
    simp only [List.foldl_cons]
    refine ⟨le_trans hstep.1 hrest.1, ?_⟩
    intro i h hi
    obtain ⟨h1, hi1, hup1⟩ := hstep.2 i h hi
    obtain ⟨h2, hi2, hup2⟩ := hrest.2 i h1 hi1
    exact ⟨h2, hi2, LegacyUpgrade_trans hup1 hup2⟩

theorem LoadLegacyScores_highscores (K : HeaderConstants)
    (rct2_to_utf8 : utf8string → utf8string) (file : Option LegacyScoresFile)
    (repo : ScenarioRepository) :
    (LoadLegacyScores K rct2_to_utf8 file repo)._highscores
      = (legacyEntriesRead file).foldl (LoadLegacyScoresEntry K rct2_to_utf8) repo._highscores := by
  unfold LoadLegacyScores legacyEntriesRead
  cases file with
  | none => rfl
  | some f => cases f <;> rfl



/-- Replacing the key at one position by a key that is equal to it, ignoring
case, keeps the keys pairwise different. -/
theorem pairwise_set_of_equals {l : List (Option utf8string)}
    (hP : l.Pairwise (fun a b => String.Equals a b true = false)) :
    ∀ (k : Nat) (x y : Option utf8string), l[k]? = some y → String.Equals y x true = true →
      (l.set k x).Pairwise (fun a b => String.Equals a b true = false) := by
  induction l with
  | nil => intro k x y hk; simp at hk
  | cons a t ih =>
    intro k x y hk hxy
    rw [List.pairwise_cons] at hP
    cases k with
    | zero =>
      simp only [List.getElem?_cons_zero, Option.some.injEq] at hk
      subst hk
      simp only [List.set_cons_zero]
      refine List.pairwise_cons.2 ⟨?_, hP.2⟩
      intro b hb
      have hab := hP.1 b hb
      rw [Bool.eq_false_iff] at hab ⊢
      exact fun hxb => hab (String.Equals_trans hxy hxb)
    | succ j =>
      simp only [List.getElem?_cons_succ] at hk
      simp only [List.set_cons_succ]
      refine List.pairwise_cons.2 ⟨?_, ih hP.2 j x y hk hxy⟩
      intro b hb
      rcases List.mem_or_eq_of_mem_set hb with hbt | hbx
      · exact hP.1 b hbt
      · subst hbx
        have hy : y ∈ t := List.getElem?_mem hk
        have hay := hP.1 y hy
        rw [Bool.eq_false_iff] at hay ⊢
        intro hab
        have hby : String.Equals b y true = true := by
          rw [String.Equals_comm]; exact hxy
        exact hay (String.Equals_trans hab hby)

theorem UniqueScenFiles_iff_map (l : List scenario_highscore_entry) :
    UniqueScenFiles l ↔
      (l.map (fun h => h.scen_file)).Pairwise (fun a b => String.Equals a b true = false) := by
  unfold UniqueScenFiles
  rw [List.pairwise_map]

theorem LoadLegacyScoresEntry_unique (K : HeaderConstants)
    (rct2_to_utf8 : utf8string → utf8string) (scBasic : rct_scores_entry)
    (l : List scenario_highscore_entry) (hU : UniqueScenFiles l) :
    UniqueScenFiles (LoadLegacyScoresEntry K rct2_to_utf8 l scBasic) := by
  unfold LoadLegacyScoresEntry
  split
  · have hfiles := LoadLegacyScoresMatch_scen_files (rct2_to_utf8 scBasic.CompletedBy) scBasic l
    have hU' : UniqueScenFiles
        (LoadLegacyScoresMatch (rct2_to_utf8 scBasic.CompletedBy) scBasic l).1 := by
      rw [UniqueScenFiles_iff_map, hfiles, ← UniqueScenFiles_iff_map]
      exact hU
    simp only []
    split
    · rename_i hnf
      have hno := LoadLegacyScoresMatch_notFound _ _ _ hnf
      rw [LoadLegacyScoresMatch_of_no_match _ _ _ hno]
      refine List.pairwise_append.2 ⟨hU, List.pairwise_singleton _ _, ?_⟩
      intro a ha b hb
      rw [List.mem_singleton.1 hb, String.Equals_comm]
      exact hno a ha
    · exact hU'
  · exact hU

theorem LoadLegacyScores_foldl_unique (K : HeaderConstants)
    (rct2_to_utf8 : utf8string → utf8string) (es : List rct_scores_entry) :
    ∀ l : List scenario_highscore_entry, UniqueScenFiles l →
      UniqueScenFiles (es.foldl (LoadLegacyScoresEntry K rct2_to_utf8) l) := by
  induction es with
  | nil => intro l hU; exact hU
  | cons e rest ih =>
    intro l hU
    exact ih _ (LoadLegacyScoresEntry_unique K rct2_to_utf8 e l hU)

/-- Two file names that both equal, ignoring case, the file name of one
scenario select the same scenarios. -/
theorem filenameMatches_congr {f g : Option utf8string} {scenario : scenario_index_entry}
    (hf : filenameMatches f scenario = true) (hg : filenameMatches g scenario = true) :
    filenameMatches f = filenameMatches g := by
  funext s
  unfold filenameMatches at *
  have hfg : String.Equals f g true = true := by
    refine String.Equals_trans hf ?_
    rw [String.Equals_comm]; exact hg
  have hgf : String.Equals g f true = true := by rw [String.Equals_comm]; exact hfg
  cases h1 : String.Equals f (some (Path.GetFileName s.path)) true with
  | true => exact (String.Equals_trans hgf h1).symm
  | false =>
    cases h2 : String.Equals g (some (Path.GetFileName s.path)) true with
    | false => rfl
    | true => rw [String.Equals_trans hfg h2] at h1; exact h1.symm

/-- Recording a highscore on an attached state keeps the `scen_file` keys of
the table unique. -/
theorem TryRecordHighscore_unique (scan : ScenarioRepository → ScenarioRepository)
    (companyValue dayRecord : Int) (now : Nat) (repo : ScenarioRepository)
    (filename scen_winner : Option utf8string) (result : Bool × ScenarioRepository)
    (hU : UniqueScenFiles (scan repo)._highscores) (hA : Attached (scan repo))
    (hres : TryRecordHighscore scan companyValue dayRecord now repo filename scen_winner
      = some result) :
    UniqueScenFiles result.2._highscores := by
  unfold TryRecordHighscore at hres
  cases hknown : GetByFilename (scan repo)._scenarios filename with
  | none =>
    simp only [hknown, Option.some.injEq] at hres
    subst hres
    exact hU
  | some scenario =>
    simp only [hknown] at hres
    have hmem : scenario ∈ (scan repo)._scenarios := List.mem_of_find?_eq_some hknown
    have hmatch : filenameMatches filename scenario = true := filenameMatches_of_find hknown
    cases hk : scenario.highscore with
    | none =>
      simp only [hk, Option.some.injEq] at hres
      subst hres
      simp only [SaveHighscores_highscores]
      refine List.pairwise_append.2 ⟨hU, List.pairwise_singleton _ _, ?_⟩
      intro a ha b hb
      rw [List.mem_singleton.1 hb]
      simp only [recordedHighscore]
      rw [Bool.eq_false_iff]
      intro hab
      have hcongr : filenameMatches a.scen_file = filenameMatches filename :=
        @filenameMatches_congr _ _ scenario hab hmatch
      have hfind : GetByFilename (scan repo)._scenarios a.scen_file = some scenario := by
        unfold GetByFilename at hknown ⊢
        rw [hcongr]; exact hknown
      exact hA.2 a ha scenario hfind hk
    | some k =>
      simp only [hk] at hres
      cases hrec : (scan repo)._highscores[k]? with
      | none => simp [hrec] at hres
      | some h =>
        simp only [hrec] at hres
        split at hres
        · simp only [Option.some.injEq] at hres
          subst hres
          exact hU
        · simp only [Option.some.injEq] at hres
          subst hres
          simp only [SaveHighscores_highscores]
          obtain ⟨h0, hh0, hsame⟩ := hA.1 scenario hmem k hk
          rw [hrec] at hh0
          simp only [Option.some.injEq] at hh0
          subst hh0
          rw [UniqueScenFiles_iff_map, List.map_set]
          refine pairwise_set_of_equals ((UniqueScenFiles_iff_map _).1 hU) k _ h.scen_file ?_ hsame
          simp [List.getElem?_map, hrec]

/-! ## Theorems: attaching the records -/

/-- The first match is the element at the position `findIdx` returns. -/
theorem getElem?_findIdx_of_find? {α : Type} {p : α → Bool} {l : List α} {x : α}
    (h : l.find? p = some x) : l[l.findIdx p]? = some x := by
  induction l with
  | nil => simp at h
  | cons a t ih =>
    by_cases ha : p a = true
    · simp only [List.find?_cons, ha, Option.some.injEq] at h
      subst h
      simp [List.findIdx_cons, ha]
    · have ha' : p a = false := by simpa using ha
      simp only [List.find?_cons, ha'] at h
      simp [List.findIdx_cons, ha', ih h]

/-- Overwriting one element by an element on which the test gives the same
answer does not move the first match. -/
theorem find?_set_of_same_test {α : Type} {p : α → Bool} {l : List α} :
    ∀ (i : Nat) (x y : α), l[i]? = some x → p y = p x →
      (l.set i y).find? p = if l.findIdx p = i then some y else l.find? p := by
  induction l with
  | nil => intro i x y hi; simp at hi
  | cons a t ih =>
    intro i x y hi hp
    cases i with
    | zero =>
      simp only [List.getElem?_cons_zero, Option.some.injEq] at hi
      subst hi
      by_cases ha : p a = true
      · simp [List.findIdx_cons, List.find?_cons, ha, hp]
      · have ha' : p a = false := by simpa using ha
        simp [List.findIdx_cons, List.find?_cons, ha', hp]
    | succ j =>
      simp only [List.getElem?_cons_succ] at hi
      by_cases ha : p a = true
      · simp [List.findIdx_cons, List.find?_cons, ha]
      · have ha' : p a = false := by simpa using ha
        simp [List.findIdx_cons, List.find?_cons, ha', ih j x y hi hp]

/-- The invariant of the loop of `AttachHighscores`, with `done` the records
already visited. -/
theorem AttachHighscoresLoop_attached (todo : List scenario_highscore_entry) :
    ∀ (done : List scenario_highscore_entry) (scenarios : List scenario_index_entry),
    (∀ s ∈ scenarios, ∀ k, s.highscore = some k →
      ∃ h, done[k]? = some h ∧
        String.Equals h.scen_file (some (Path.GetFileName s.path)) true = true) →
    (∀ h ∈ done, ∀ s, GetByFilename scenarios h.scen_file = some s → s.highscore ≠ none) →
    (∀ s ∈ AttachHighscoresLoop todo done.length scenarios, ∀ k, s.highscore = some k →
      ∃ h, (done ++ todo)[k]? = some h ∧
        String.Equals h.scen_file (some (Path.GetFileName s.path)) true = true) ∧
    (∀ h ∈ done ++ todo, ∀ s,
      GetByFilename (AttachHighscoresLoop todo done.length scenarios) h.scen_file = some s →
      s.highscore ≠ none) := by
  induction todo with
  | nil =>
    intro done scenarios h1 h2
    simpa [AttachHighscoresLoop] using ⟨h1, h2⟩
  | cons h rest ih =>
    intro done scenarios h1 h2
    have hlen : (done ++ [h]).length = done.length + 1 := by simp
    have happ : done ++ h :: rest = (done ++ [h]) ++ rest := by simp
    have h1up : ∀ s ∈ scenarios, ∀ k, s.highscore = some k →
        ∃ g, (done ++ [h])[k]? = some g ∧
          String.Equals g.scen_file (some (Path.GetFileName s.path)) true = true := by
      intro s hs k hk
      obtain ⟨g, hg, hm⟩ := h1 s hs k hk
      have hlt : k < done.length := by
        rcases List.getElem?_eq_some.1 hg with ⟨hlt, _⟩
        exact hlt
      exact ⟨g, by rw [List.getElem?_append_left hlt]; exact hg, hm⟩
    unfold AttachHighscoresLoop
    cases hfind : GetByFilename scenarios h.scen_file with
    | none =>
      simp only []
      rw [happ, ← hlen]
      refine ih (done ++ [h]) scenarios h1up ?_
      intro g hg s hs
      rcases List.mem_append.1 hg with hgd | hgh
      · exact h2 g hgd s hs
      · rw [List.mem_singleton.1 hgh, hfind] at hs
        cases hs
    | some s0 =>
      simp only []
      rw [happ, ← hlen]
      have hidx : scenarios[GetByFilenameIndex scenarios h.scen_file]? = some s0 :=
        getElem?_findIdx_of_find? hfind
      have hm0 : filenameMatches h.scen_file s0 = true := filenameMatches_of_find hfind
      refine ih (done ++ [h]) _ ?_ ?_
      · intro s hs k hk
        rcases List.mem_or_eq_of_mem_set hs with hold | hnew
        · exact h1up s hold k hk
        · subst hnew
          simp only [Option.some.injEq] at hk
          subst hk
          exact ⟨h, List.getElem?_concat_length _ _, hm0⟩
      · intro g hg s hs
        have hsame : filenameMatches g.scen_file { s0 with highscore := some done.length }
            = filenameMatches g.scen_file s0 := rfl
        unfold GetByFilename at hs
        rw [find?_set_of_same_test _ s0 _ hidx hsame] at hs
        split at hs
        · simp only [Option.some.injEq] at hs
          subst hs
          simp
        · rename_i hne
          rcases List.mem_append.1 hg with hgd | hgh
          · exact h2 g hgd s hs
          · rw [List.mem_singleton.1 hgh] at hne
            exact absurd rfl hne

/-- After `AttachHighscores` on scenarios that carry no pointer yet, the
state is attached. -/
theorem AttachHighscores_attached (repo : ScenarioRepository)
    (hnull : ∀ s ∈ repo._scenarios, s.highscore = none) :
    Attached (AttachHighscores repo) := by
  have h := AttachHighscoresLoop_attached repo._highscores [] repo._scenarios
    (by intro s hs k hk; rw [hnull s hs] at hk; cases hk)
    (by intro h hh; cases hh)
  simpa [Attached, AttachHighscores] using h

/-- Claim C11: after `LoadLegacyScores` every record that existed before is
still at its position with a company value greater than or equal to its
previous value, and it differs from the previous record only if some legacy
record read from the file is flagged completed, has a path equal to the
record's `scen_file` ignoring case, and has a strictly greater company
value. -/
theorem LoadLegacyScores_never_downgrades (K : HeaderConstants)
    (rct2_to_utf8 : utf8string → utf8string) (file : Option LegacyScoresFile)
    (repo : ScenarioRepository) (i : Nat) (h : scenario_highscore_entry)
    (hi : repo._highscores[i]? = some h) :
    ∃ h', (LoadLegacyScores K rct2_to_utf8 file repo)._highscores[i]? = some h' ∧
      h.company_value ≤ h'.company_value ∧
      (h' ≠ h → ∃ scBasic ∈ legacyEntriesRead file, legacyCompleted K scBasic ∧
        String.Equals (some scBasic.Path) h.scen_file true = true ∧
        scBasic.CompanyValue > h.company_value) := by
  rw [LoadLegacyScores_highscores]
  obtain ⟨h', hi', hup⟩ := (LoadLegacyScores_foldl_getElem K (legacyEntriesRead file) rct2_to_utf8
    (legacyEntriesRead file) (fun _ he => he) repo._highscores).2 i h hi
  refine ⟨h', hi', hup.2.2.1, ?_⟩
  intro hne
  rcases hup.2.2.2 with heq | hex
  · exact absurd heq hne
  · exact hex

/-- Witness for claim C11: a completed legacy record with company value 200
leaves the record with company value 300 as it is. -/
theorem LoadLegacyScores_never_downgrades_witness :
    (LoadLegacyScores openrct2Constants id sampleLegacyFile sampleLegacyRepo)._highscores[0]?
      = some { scen_file := some "Park.SC6".toList, scen_winner := some "Bob".toList,
               company_value := 300, timestamp := 1000, record_days := 10 } ∧
    ∃ h', (LoadLegacyScores openrct2Constants id sampleLegacyFile sampleLegacyRepo)._highscores[0]?
        = some h' ∧ (300 : Int) ≤ h'.company_value := by
  obtain ⟨h', hget, hle, _⟩ := LoadLegacyScores_never_downgrades openrct2Constants id
    sampleLegacyFile sampleLegacyRepo 0
    { scen_file := some "Park.SC6".toList, scen_winner := some "Bob".toList,
      company_value := 300, timestamp := 1000, record_days := 10 } (by decide)
  exact ⟨by decide, h', hget, hle⟩

/-- A legacy record that is not flagged completed is ignored. -/
theorem LoadLegacyScoresEntry_of_open (K : HeaderConstants)
    (rct2_to_utf8 : utf8string → utf8string) (l : List scenario_highscore_entry)
    (scBasic : rct_scores_entry) (hopen : ¬ legacyCompleted K scBasic) :
    LoadLegacyScoresEntry K rct2_to_utf8 l scBasic = l := by
  unfold legacyCompleted at hopen
  unfold LoadLegacyScoresEntry
  rw [if_neg hopen]

/-- Claim C13: if no two records of the highscore table have `scen_file`
equal ignoring case, the same holds after `LoadLegacyScores`, for every
content of the legacy file, and after `TryRecordHighscore`, for every scenario
file name and result, when the state the rescan leaves is attached. -/
theorem highscore_table_stays_unique :
    (∀ (K : HeaderConstants) (rct2_to_utf8 : utf8string → utf8string)
        (file : Option LegacyScoresFile) (repo : ScenarioRepository),
      UniqueScenFiles repo._highscores →
      UniqueScenFiles (LoadLegacyScores K rct2_to_utf8 file repo)._highscores) ∧
    (∀ (scan : ScenarioRepository → ScenarioRepository) (companyValue dayRecord : Int)
        (now : Nat) (repo : ScenarioRepository) (filename scen_winner : Option utf8string)
        (result : Bool × ScenarioRepository),
      UniqueScenFiles (scan repo)._highscores → Attached (scan repo) →
      TryRecordHighscore scan companyValue dayRecord now repo filename scen_winner
        = some result →
      UniqueScenFiles result.2._highscores) := by
  refine ⟨?_, ?_⟩
  · intro K rct2_to_utf8 file repo hU
    rw [LoadLegacyScores_highscores]
    exact LoadLegacyScores_foldl_unique K rct2_to_utf8 _ _ hU
  · intro scan companyValue dayRecord now repo filename scen_winner result hU hA hres
    exact TryRecordHighscore_unique scan companyValue dayRecord now repo filename scen_winner
      result hU hA hres

/-- Witness for claim C13: the sample table stays unique under the sample
legacy file, and the table of the sample repository, which is the state
`AttachHighscores` produces, stays unique under an accepted call. -/
theorem highscore_table_stays_unique_witness :
    UniqueScenFiles
      (LoadLegacyScores openrct2Constants id sampleLegacyFile sampleLegacyRepo)._highscores ∧
    UniqueScenFiles sampleAccepted._highscores := by
  have hattached : Attached (id sampleRepo) :=
    AttachHighscores_attached { sampleRepo with _scenarios := [sampleOlder] } (by decide)
  exact ⟨highscore_table_stays_unique.1 openrct2Constants id sampleLegacyFile sampleLegacyRepo
      (List.pairwise_singleton _ _),
    highscore_table_stays_unique.2 id 150 10 sampleNow sampleRepo sampleFileName none
      (true, sampleAccepted) (List.pairwise_singleton _ _) hattached (by decide)⟩

/-! ## Theorems: the cache format -/

theorem length_writeLE (width value : Nat) : (writeLE width value).length = width := by
  induction width generalizing value with
  | zero => rfl
  | succ w ih => simp [writeLE, ih]

theorem readLE_writeLE (width value : Nat) :
    readLE (writeLE width value) = value % 256 ^ width := by
  induction width generalizing value with
  | zero => simp [writeLE, readLE, Nat.mod_one]
  | succ w ih =>
    simp only [writeLE, readLE, ih]
    rw [pow_succ', Nat.mod_mul]

theorem length_writeBuffer (size : Nat) (s : utf8string) : (writeBuffer size s).length = size := by
  simp [writeBuffer]

theorem readBuffer_writeBuffer (size : Nat) (s : utf8string) (hfit : fitsBuffer size s) :
    readBuffer (writeBuffer size s) = s := by
  obtain ⟨hlen, hnul⟩ := hfit
  have hsplit : writeBuffer size s
      = s.map Char.toNat ++ 0 :: List.replicate (size - s.length - 1) 0 := by
    unfold writeBuffer
    rw [List.take_append_eq_append_take, List.take_of_length_le (by simp; omega)]
    simp only [List.length_map, List.take_replicate]
    have : min (size - s.length) size = (size - s.length - 1) + 1 := by omega
    rw [this, List.replicate_succ]
  rw [hsplit]
  unfold readBuffer
  rw [List.takeWhile_append_of_pos]
  · simp only [bne_self_eq_false, Bool.false_eq_true, not_false_eq_true,
      List.takeWhile_cons_of_neg, List.append_nil, List.map_map]
    have hid : (Char.ofNat ∘ Char.toNat) = id := by
      funext c
      simp
    rw [hid, List.map_id]
  · intro b hb
    obtain ⟨c, hc, rfl⟩ := List.mem_map.1 hb
    simpa using hnul c hc

theorem IStream.Read_append (block rest : List Nat) :
    IStream.Read block.length (block ++ rest) = some (block, rest) := by
  simp [IStream.Read]

theorem IStream.Read_writeLE (width value : Nat) (rest : List Nat) :
    IStream.Read width (writeLE width value ++ rest) = some (writeLE width value, rest) := by
  have h := IStream.Read_append (writeLE width value) rest
  rwa [length_writeLE] at h

theorem IStream.Read_writeBuffer (size : Nat) (s : utf8string) (rest : List Nat) :
    IStream.Read size (writeBuffer size s ++ rest) = some (writeBuffer size s, rest) := by
  have h := IStream.Read_append (writeBuffer size s) rest
  rwa [length_writeBuffer] at h

theorem toSigned_toUnsigned_16 (i : Int) (hlo : -2 ^ 15 ≤ i) (hhi : i < 2 ^ 15) :
    toSigned 16 (toUnsigned 16 i % 256 ^ 2) = i := by
  unfold toSigned toUnsigned
  norm_num at *
  have h := Int.toNat_of_nonneg (Int.emod_nonneg i (by norm_num : (65536 : Int) ≠ 0))
  generalize (i % 65536).toNat = n at *
  split <;> omega

theorem toSigned_toUnsigned_32 (i : Int) (hlo : -2 ^ 31 ≤ i) (hhi : i < 2 ^ 31) :
    toSigned 32 (toUnsigned 32 i % 256 ^ 4) = i := by
  unfold toSigned toUnsigned
  norm_num at *
  have h := Int.toNat_of_nonneg (Int.emod_nonneg i (by norm_num : (4294967296 : Int) ≠ 0))
  generalize (i % 4294967296).toNat = n at *
  split <;> omega

/-- Claim C14: for every value `item` of the entry type, `Deserialise` applied
to the bytes written by `Serialise` yields an entry equal to `item` in every
field (path, time stamp, category, source game, source index, scenario id,
objective type and arguments, internal name, name, details) except
`highscore`, which is null; the bytes that follow the entry in the stream are
left unread. -/
theorem Deserialise_Serialise (K : HeaderConstants) (item : scenario_index_entry)
    (rest : List Nat) (htyped : item.WellTyped K) :
    Deserialise K (Serialise K item ++ rest) = some ({ item with highscore := none }, rest) := by
  obtain ⟨hpath, hts, hcat, hgame, ⟨hidx1, hidx2⟩, hid, hot, ha1, ⟨ha21, ha22⟩, ⟨ha31, ha32⟩,
    hin, hname, hdet⟩ := htyped
  unfold Deserialise Serialise
  simp only [List.append_assoc]
  rw [IStream.Read_writeBuffer]; dsimp only
  rw [IStream.Read_writeLE]; dsimp only
  rw [IStream.Read_writeLE]; dsimp only
  rw [IStream.Read_writeLE]; dsimp only
  rw [IStream.Read_writeLE]; dsimp only
  rw [IStream.Read_writeLE]; dsimp only
  rw [IStream.Read_writeLE]; dsimp only
  rw [IStream.Read_writeLE]; dsimp only
  rw [IStream.Read_writeLE]; dsimp only
  rw [IStream.Read_writeLE]; dsimp only
  rw [IStream.Read_writeBuffer]; dsimp only
  rw [IStream.Read_writeBuffer]; dsimp only
  rw [IStream.Read_writeBuffer]; dsimp only
  simp only [readLE_writeLE,
    readBuffer_writeBuffer _ _ hpath, readBuffer_writeBuffer _ _ hin,
    readBuffer_writeBuffer _ _ hname, readBuffer_writeBuffer _ _ hdet,
    toSigned_toUnsigned_16 _ hidx1 hidx2, toSigned_toUnsigned_16 _ ha31 ha32,
    toSigned_toUnsigned_32 _ ha21 ha22]
  have e1 : item.timestamp % 256 ^ 8 = item.timestamp := Nat.mod_eq_of_lt (by norm_num at hts ⊢; omega)
  have e2 : item.category % 256 ^ 1 = item.category := Nat.mod_eq_of_lt (by norm_num at hcat ⊢; omega)
  have e3 : item.source_game % 256 ^ 1 = item.source_game :=
    Nat.mod_eq_of_lt (by norm_num at hgame ⊢; omega)
  have e4 : item.sc_id % 256 ^ 2 = item.sc_id := Nat.mod_eq_of_lt (by norm_num at hid ⊢; omega)
  have e5 : item.objective_type % 256 ^ 1 = item.objective_type :=
    Nat.mod_eq_of_lt (by norm_num at hot ⊢; omega)
  have e6 : item.objective_arg_1 % 256 ^ 1 = item.objective_arg_1 :=
    Nat.mod_eq_of_lt (by norm_num at ha1 ⊢; omega)
  rw [e1, e2, e3, e4, e5, e6]

/-- Witness for claim C14: the sample entry, with the buffer sizes of
OpenRCT2, followed by one more byte in the stream. -/
theorem Deserialise_Serialise_witness :
    Deserialise openrct2Constants (Serialise openrct2Constants sampleNewer ++ [7])
      = some ({ sampleNewer with highscore := none }, [7]) :=
  Deserialise_Serialise openrct2Constants sampleNewer [7] (by decide)

theorem slice_whole (block : List Nat) (count : Nat) (hcount : block.length = count) :
    slice 0 count block = block := by
  subst hcount
  simp [slice]

theorem slice_last (before block : List Nat) (offset count : Nat)
    (hoff : before.length = offset) (hcount : block.length = count) :
    slice offset count (before ++ block) = block := by
  subst hoff; subst hcount
  simp [slice]

theorem slice_strip (bytes after : List Nat) (offset count : Nat)
    (h : offset + count ≤ bytes.length) :
    slice offset count (bytes ++ after) = slice offset count bytes := by
  unfold slice
  rw [List.drop_append_of_le_length (by omega), List.take_append_of_le_length]
  rw [List.length_drop]
  omega

/-- Claim C15: `Serialise` writes, in this order and with these widths, the
path buffer, the time stamp (8 bytes), category (1), source game (1), source
index (2, two's complement), scenario id (2), objective type (1), objective
argument 1 (1), argument 2 (4, two's complement), argument 3 (2, two's
complement), then the internal name, name and details buffers; the number of
bytes written is the same for every entry. -/
theorem Serialise_layout (K : HeaderConstants) (item : scenario_index_entry) :
    slice 0 K.sizeofPath (Serialise K item) = writeBuffer K.sizeofPath item.path ∧
    slice K.sizeofPath 8 (Serialise K item) = writeLE 8 item.timestamp ∧
    slice (K.sizeofPath + 8) 1 (Serialise K item) = writeLE 1 item.category ∧
    slice (K.sizeofPath + 9) 1 (Serialise K item) = writeLE 1 item.source_game ∧
    slice (K.sizeofPath + 10) 2 (Serialise K item)
      = writeLE 2 (toUnsigned 16 item.source_index) ∧
    slice (K.sizeofPath + 12) 2 (Serialise K item) = writeLE 2 item.sc_id ∧
    slice (K.sizeofPath + 14) 1 (Serialise K item) = writeLE 1 item.objective_type ∧
    slice (K.sizeofPath + 15) 1 (Serialise K item) = writeLE 1 item.objective_arg_1 ∧
    slice (K.sizeofPath + 16) 4 (Serialise K item)
      = writeLE 4 (toUnsigned 32 item.objective_arg_2) ∧
    slice (K.sizeofPath + 20) 2 (Serialise K item)
      = writeLE 2 (toUnsigned 16 item.objective_arg_3) ∧
    slice (K.sizeofPath + 22) K.sizeofInternalName (Serialise K item)
      = writeBuffer K.sizeofInternalName item.internal_name ∧
    slice (K.sizeofPath + 22 + K.sizeofInternalName) K.sizeofName (Serialise K item)
      = writeBuffer K.sizeofName item.name ∧
    slice (K.sizeofPath + 22 + K.sizeofInternalName + K.sizeofName) K.sizeofDetails
        (Serialise K item)
      = writeBuffer K.sizeofDetails item.details ∧
    (Serialise K item).length
      = K.sizeofPath + 22 + K.sizeofInternalName + K.sizeofName + K.sizeofDetails ∧
    ∀ other : scenario_index_entry, (Serialise K other).length = (Serialise K item).length := by
  have hlen : ∀ e : scenario_index_entry, (Serialise K e).length
      = K.sizeofPath + 22 + K.sizeofInternalName + K.sizeofName + K.sizeofDetails := by
    intro e
    simp only [Serialise, List.length_append, length_writeBuffer, length_writeLE]
  refine ⟨?_, ?_, ?_, ?_, ?_, ?_, ?_, ?_, ?_, ?_, ?_, ?_, ?_, hlen item, ?_⟩
  case refine_14 => intro other; rw [hlen other, hlen item]
  all_goals
    unfold Serialise
    repeat (first
      | (with_reducible
          exact slice_last _ _ _ _
            (by simp only [List.length_append, length_writeBuffer, length_writeLE])
            (by simp only [length_writeBuffer, length_writeLE]))
      | (with_reducible
          exact slice_whole _ _ (by simp only [length_writeBuffer, length_writeLE]))
      | rw [slice_strip _ _ _ _
          (by simp only [List.length_append, length_writeBuffer, length_writeLE]; omega)])

/-! ## Theorems: the two orders of `Sort` -/

theorem strcmpBytes_antisymm : ∀ a b : List Nat, strcmpBytes b a = -strcmpBytes a b
  | [], [] => by simp [strcmpBytes]
  | [], b :: _ => by simp [strcmpBytes]
  | a :: _, [] => by simp [strcmpBytes]
  | a :: restA, b :: restB => by
    have ih := strcmpBytes_antisymm restA restB
    unfold strcmpBytes
    by_cases hab : a = b
    · subst hab
      by_cases h0 : a = 0
      · simp [h0]
      · simp [h0, ih]
    · have hba : ¬ b = a := fun h => hab h.symm
      simp only [hab, hba, if_false]
      omega

theorem strcmpBytes_trans_lt : ∀ a b c : List Nat,
    strcmpBytes a b < 0 → strcmpBytes b c < 0 → strcmpBytes a c < 0
  | [], [], _ => by simp [strcmpBytes]
  | [], _ :: _, [] => by
    intro h1 h2
    simp only [strcmpBytes] at h1 h2
    omega
  | [], y :: _, z :: _ => by
    intro h1 h2
    simp only [strcmpBytes] at h1 h2 ⊢
    split at h2 <;> [skip; omega]
    split at h2 <;> omega
  | _ :: _, [], _ => by
    intro h1
    simp only [strcmpBytes] at h1
    omega
  | x :: _, y :: _, [] => by
    intro h1 h2
    simp only [strcmpBytes] at h2
    omega
  | x :: restA, y :: restB, z :: restC => by
    intro h1 h2
    have ih := strcmpBytes_trans_lt restA restB restC
    simp only [strcmpBytes] at h1 h2 ⊢
    by_cases hxy : x = y
    · subst hxy
      by_cases hxz : x = z
      · subst hxz
        by_cases h0 : x = 0
        · simp [h0] at h1
        · simp only [h0, if_true, if_false] at h1 h2 ⊢
          exact ih h1 h2
      · simp only [hxz, if_false] at h2 ⊢
        exact h2
    · simp only [hxy, if_false] at h1
      by_cases hyz : y = z
      · subst hyz
        simp only [hxy, if_false]
        exact h1
      · simp only [hyz, if_false] at h2
        have hxz : ¬ x = z := by omega
        simp only [hxz, if_false]
        omega

theorem strcmpBytes_trans_le : ∀ a b c : List Nat,
    strcmpBytes a b ≤ 0 → strcmpBytes b c ≤ 0 → strcmpBytes a c ≤ 0
  | [], [], _ => by
    intro _ h2
    exact h2
  | [], _ :: _, [] => by
    intro _ _
    simp [strcmpBytes]
  | [], y :: _, z :: _ => by
    intro h1 h2
    simp only [strcmpBytes] at h1 h2 ⊢
    omega
  | x :: _, [], [] => by
    intro h1 _
    exact h1
  | x :: _, [], z :: _ => by
    intro h1 h2
    simp only [strcmpBytes] at h1 h2 ⊢
    have hx : x = 0 := by omega
    subst hx
    by_cases hz : 0 = z
    · simp [hz.symm]
    · simp only [hz, if_false]
      omega
  | x :: _, y :: _, [] => by
    intro h1 h2
    simp only [strcmpBytes] at h1 h2 ⊢
    have hy : y = 0 := by omega
    subst hy
    by_cases hx : x = 0
    · omega
    · simp only [hx, if_false] at h1
      omega
  | x :: restA, y :: restB, z :: restC => by
    intro h1 h2
    have ih := strcmpBytes_trans_le restA restB restC
    simp only [strcmpBytes] at h1 h2 ⊢
    by_cases hxy : x = y
    · subst hxy
      by_cases hxz : x = z
      · subst hxz
        by_cases h0 : x = 0
        · simp [h0]
        · simp only [h0, if_true, if_false] at h1 h2 ⊢
          exact ih h1 h2
      · simp only [hxz, if_false] at h2 ⊢
        exact h2
    · simp only [hxy, if_false] at h1
      by_cases hyz : y = z
      · subst hyz
        simp only [hxy, if_false]
        exact h1
      · simp only [hyz, if_false] at h2
        have hxz : ¬ x = z := by omega
        simp only [hxz, if_false]
        omega

theorem strcmp_antisymm (a b : utf8string) : strcmp b a = -strcmp a b :=
  strcmpBytes_antisymm _ _

theorem strcmp_trans_lt (a b c : utf8string) :
    strcmp a b < 0 → strcmp b c < 0 → strcmp a c < 0 :=
  strcmpBytes_trans_lt _ _ _

theorem strcmp_trans_le (a b c : utf8string) :
    strcmp a b ≤ 0 → strcmp b c ≤ 0 → strcmp a c ≤ 0 :=
  strcmpBytes_trans_le _ _ _


theorem Math.Sign_neg_iff (x : Int) : Math.Sign x < 0 ↔ x < 0 := by
  simp only [Math.Sign]; split_ifs <;> omega

theorem Math.Sign_nonpos_iff (x : Int) : Math.Sign x ≤ 0 ↔ x ≤ 0 := by
  simp only [Math.Sign]; split_ifs <;> omega

theorem Math.Sign_eq_of_iff {x y : Int} (hneg : x < 0 ↔ y < 0) (hpos : 0 < x ↔ 0 < y) :
    Math.Sign x = Math.Sign y := by
  simp only [Math.Sign]; split_ifs <;> omega

theorem Math.Sign_Sign (x : Int) : Math.Sign (Math.Sign x) = Math.Sign x := by
  simp only [Math.Sign]; split_ifs <;> omega

theorem Math.Sign_neg (x : Int) : Math.Sign (-x) = -Math.Sign x := by
  simp only [Math.Sign]; split_ifs <;> omega

theorem lexCompare_sign_antisymm (k1 k2 s12 s21 : Int)
    (h : k1 = k2 → Math.Sign s21 = -Math.Sign s12) :
    Math.Sign (lexCompare k2 k1 s21) = -Math.Sign (lexCompare k1 k2 s12) := by
  unfold lexCompare
  by_cases hk : k1 = k2
  · have := h hk
    subst hk
    simpa using this
  · have hk' : k2 ≠ k1 := fun e => hk e.symm
    rw [if_pos hk, if_pos hk', ← Math.Sign_neg]
    congr 1
    omega

theorem lexCompare_trans_lt (k1 k2 k3 s12 s23 s13 : Int)
    (h : k1 = k2 → k2 = k3 → s12 < 0 → s23 < 0 → s13 < 0) :
    lexCompare k1 k2 s12 < 0 → lexCompare k2 k3 s23 < 0 → lexCompare k1 k3 s13 < 0 := by
  unfold lexCompare
  split_ifs <;> intro h1 h2 <;> omega

theorem lexCompare_trans_le (k1 k2 k3 s12 s23 s13 : Int)
    (h : k1 = k2 → k2 = k3 → s12 ≤ 0 → s23 ≤ 0 → s13 ≤ 0) :
    lexCompare k1 k2 s12 ≤ 0 → lexCompare k2 k3 s23 ≤ 0 → lexCompare k1 k3 s13 ≤ 0 := by
  unfold lexCompare
  split_ifs <;> intro h1 h2 <;> omega

theorem lexCompare_sign_congr (k1 k2 s t : Int) (h : Math.Sign s = Math.Sign t) :
    Math.Sign (lexCompare k1 k2 s) = Math.Sign (lexCompare k1 k2 t) := by
  unfold lexCompare
  split_ifs
  · rfl
  · exact h

theorem ScenarioCategoryCompare_eq_rank (K : HeaderConstants) (a b : Nat) :
    ScenarioCategoryCompare K a b = Math.Sign (categoryRank K a - categoryRank K b) := by
  simp only [ScenarioCategoryCompare, categoryRank, Math.Sign, Nat.cast_inj]
  split_ifs <;> omega

theorem categoryRank_inj (K : HeaderConstants) (a b : Nat) :
    categoryRank K a = categoryRank K b ↔ a = b := by
  constructor
  · intro h
    simp only [categoryRank] at h
    split_ifs at h <;> omega
  · intro h
    rw [h]

/-- The by-category comparator has the sign of the comparison by category
rank, then by source game outside "real" and "other", then by name. -/
theorem CompareByCategory_sign (K : HeaderConstants) (a b : scenario_index_entry) :
    Math.Sign (scenario_index_entry_CompareByCategory K a b)
      = Math.Sign (lexCompare (categoryRank K a.category) (categoryRank K b.category)
          (lexCompare (categoryGameKey K a) (categoryGameKey K b) (strcmp a.name b.name))) := by
  unfold scenario_index_entry_CompareByCategory
  by_cases hc : a.category = b.category
  · have hr : categoryRank K a.category = categoryRank K b.category := by rw [hc]
    simp only [hc, ne_eq, not_true_eq_false, if_false, lexCompare, hr, categoryGameKey]
    by_cases hs : b.category = K.SCENARIO_CATEGORY_REAL ∨ b.category = K.SCENARIO_CATEGORY_OTHER
    · simp only [hs, if_true, ne_eq, not_true_eq_false, if_false]
    · simp only [hs, if_false, Nat.cast_inj, ne_eq]
  · have hr : categoryRank K a.category ≠ categoryRank K b.category :=
      fun h => hc ((categoryRank_inj K _ _).1 h)
    simp only [ne_eq, hc, not_false_eq_true, if_true, lexCompare, hr,
      ScenarioCategoryCompare_eq_rank, Math.Sign_Sign]

theorem Math.Sign_eq_neg_iff {x y : Int} (h : Math.Sign x = Math.Sign y) : (x < 0 ↔ y < 0) := by
  rw [← Math.Sign_neg_iff x, ← Math.Sign_neg_iff y, h]

theorem Math.Sign_eq_nonpos_iff {x y : Int} (h : Math.Sign x = Math.Sign y) :
    (x ≤ 0 ↔ y ≤ 0) := by
  rw [← Math.Sign_nonpos_iff x, ← Math.Sign_nonpos_iff y, h]

theorem CompareByCategory_sign_antisymm (K : HeaderConstants) (a b : scenario_index_entry) :
    Math.Sign (scenario_index_entry_CompareByCategory K b a)
      = -Math.Sign (scenario_index_entry_CompareByCategory K a b) := by
  rw [CompareByCategory_sign K b a, CompareByCategory_sign K a b]
  refine lexCompare_sign_antisymm _ _ _ _ (fun _ => lexCompare_sign_antisymm _ _ _ _ (fun _ => ?_))
  rw [strcmp_antisymm a.name b.name, Math.Sign_neg]

theorem CompareByCategory_trans_lt (K : HeaderConstants) (a b c : scenario_index_entry) :
    scenario_index_entry_CompareByCategory K a b < 0 →
    scenario_index_entry_CompareByCategory K b c < 0 →
    scenario_index_entry_CompareByCategory K a c < 0 := by
  rw [Math.Sign_eq_neg_iff (CompareByCategory_sign K a b),
    Math.Sign_eq_neg_iff (CompareByCategory_sign K b c),
    Math.Sign_eq_neg_iff (CompareByCategory_sign K a c)]
  exact lexCompare_trans_lt _ _ _ _ _ _
    (fun _ _ => lexCompare_trans_lt _ _ _ _ _ _ (fun _ _ => strcmp_trans_lt a.name b.name c.name))

theorem CompareByCategory_trans_le (K : HeaderConstants) (a b c : scenario_index_entry) :
    scenario_index_entry_CompareByCategory K a b ≤ 0 →
    scenario_index_entry_CompareByCategory K b c ≤ 0 →
    scenario_index_entry_CompareByCategory K a c ≤ 0 := by
  rw [Math.Sign_eq_nonpos_iff (CompareByCategory_sign K a b),
    Math.Sign_eq_nonpos_iff (CompareByCategory_sign K b c),
    Math.Sign_eq_nonpos_iff (CompareByCategory_sign K a c)]
  exact lexCompare_trans_le _ _ _ _ _ _
    (fun _ _ => lexCompare_trans_le _ _ _ _ _ _ (fun _ _ => strcmp_trans_le a.name b.name c.name))

/-- A comparator with antisymmetric signs and transitive `≤ 0` makes
`cmp x y < 0` a strict weak ordering: it is irreflexive and being unordered
either way is transitive. -/
theorem strict_weak_of_sign_order {α : Type} (cmp : α → α → Int)
    (hanti : ∀ x y, Math.Sign (cmp y x) = -Math.Sign (cmp x y))
    (hle : ∀ x y z, cmp x y ≤ 0 → cmp y z ≤ 0 → cmp x z ≤ 0) (a b c : α) :
    ¬ cmp a a < 0 ∧
    (¬ cmp a b < 0 ∧ ¬ cmp b a < 0 → ¬ cmp b c < 0 ∧ ¬ cmp c b < 0 →
      ¬ cmp a c < 0 ∧ ¬ cmp c a < 0) := by
  have hflip : ∀ x y, cmp x y < 0 ↔ 0 < cmp y x := by
    intro x y
    have h := hanti x y
    simp only [Math.Sign] at h
    split_ifs at h <;> omega
  refine ⟨?_, ?_⟩
  · intro h
    have := (hflip a a).1 h
    omega
  · rintro ⟨h1, h2⟩ ⟨h3, h4⟩
    have e1 := hflip a b
    have e2 := hflip b a
    have e3 := hflip b c
    have e4 := hflip c b
    have e5 := hflip a c
    have e6 := hflip c a
    have t1 := hle a b c
    have t2 := hle c b a
    constructor <;> omega

/-- Claim C16: the by-category comparator is a full order: for all entries
`a`, `b`, `c` the sign of `cmp(a, b)` is the opposite of the sign of
`cmp(b, a)`, `cmp(a, b) < 0` with `cmp(b, c) < 0` gives `cmp(a, c) < 0`,
likewise with `≤ 0`, and so the predicate `cmp(a, b) < 0` given to the sort is
a strict weak ordering (irreflexive, transitive, with a transitive
equivalence of unordered entries). -/
theorem CompareByCategory_full_order (K : HeaderConstants) (a b c : scenario_index_entry) :
    Math.Sign (scenario_index_entry_CompareByCategory K a b)
      = -Math.Sign (scenario_index_entry_CompareByCategory K b a) ∧
    (scenario_index_entry_CompareByCategory K a b < 0 →
      scenario_index_entry_CompareByCategory K b c < 0 →
      scenario_index_entry_CompareByCategory K a c < 0) ∧
    (scenario_index_entry_CompareByCategory K a b ≤ 0 →
      scenario_index_entry_CompareByCategory K b c ≤ 0 →
      scenario_index_entry_CompareByCategory K a c ≤ 0) ∧
    ¬ scenario_index_entry_CompareByCategory K a a < 0 ∧
    (¬ scenario_index_entry_CompareByCategory K a b < 0 ∧
        ¬ scenario_index_entry_CompareByCategory K b a < 0 →
      ¬ scenario_index_entry_CompareByCategory K b c < 0 ∧
        ¬ scenario_index_entry_CompareByCategory K c b < 0 →
      ¬ scenario_index_entry_CompareByCategory K a c < 0 ∧
        ¬ scenario_index_entry_CompareByCategory K c a < 0) :=
  ⟨CompareByCategory_sign_antisymm K b a, CompareByCategory_trans_lt K a b c,
    CompareByCategory_trans_le K a b c,
    strict_weak_of_sign_order (scenario_index_entry_CompareByCategory K)
      (CompareByCategory_sign_antisymm K) (CompareByCategory_trans_le K) a b c⟩

/-- The by-origin comparator has the sign of the comparison by source game,
then, outside the source game "real", by presence of a source index and by
source index or, without one, by the by-category comparator. -/
theorem CompareByIndex_sign (K : HeaderConstants) (a b : scenario_index_entry) :
    Math.Sign (scenario_index_entry_CompareByIndex K a b)
      = Math.Sign (lexCompare a.source_game b.source_game
          (if a.source_game = K.SCENARIO_SOURCE_REAL then
            scenario_index_entry_CompareByCategory K a b
          else lexCompare (unidentifiedKey a) (unidentifiedKey b)
            (if a.source_index = -1 then scenario_index_entry_CompareByCategory K a b
             else a.source_index - b.source_index))) := by
  unfold scenario_index_entry_CompareByIndex
  by_cases hg : a.source_game = b.source_game
  · have hg' : (a.source_game : Int) = (b.source_game : Int) := by rw [hg]
    simp only [hg, ne_eq, not_true_eq_false, if_false, lexCompare]
    by_cases hreal : b.source_game = K.SCENARIO_SOURCE_REAL
    · simp only [hreal, if_true]
    · simp only [hreal, if_false, unidentifiedKey]
      by_cases ha : a.source_index = -1 <;> by_cases hb : b.source_index = -1
      · simp only [ha, hb, and_self, if_true, ne_eq, not_true_eq_false, if_false]
        split
        · rfl
        · rename_i hcat
          unfold scenario_index_entry_CompareByCategory
          simp only [ne_eq, hcat, not_false_eq_true, if_true]
      · simp [ha, hb]
      · simp [ha, hb]
      · simp [ha, hb]
  · have hg' : (a.source_game : Int) ≠ (b.source_game : Int) := by
      intro h
      exact hg (Nat.cast_inj.1 h)
    simp only [ne_eq, hg, not_false_eq_true, if_true, lexCompare, hg']

theorem CompareByIndex_sign_antisymm (K : HeaderConstants) (a b : scenario_index_entry) :
    Math.Sign (scenario_index_entry_CompareByIndex K b a)
      = -Math.Sign (scenario_index_entry_CompareByIndex K a b) := by
  rw [CompareByIndex_sign K b a, CompareByIndex_sign K a b]
  refine lexCompare_sign_antisymm _ _ _ _ (fun hg => ?_)
  have hg' : a.source_game = b.source_game := Nat.cast_inj.1 hg
  rw [hg']
  split
  · exact CompareByCategory_sign_antisymm K a b
  · refine lexCompare_sign_antisymm _ _ _ _ (fun hu => ?_)
    simp only [unidentifiedKey] at hu
    by_cases ha : a.source_index = -1 <;> by_cases hb : b.source_index = -1
    · simp only [ha, hb, if_true]
      exact CompareByCategory_sign_antisymm K a b
    · simp [ha, hb] at hu
    · simp [ha, hb] at hu
    · simp only [ha, hb, if_false]
      rw [← Math.Sign_neg]
      congr 1
      omega

theorem CompareByIndex_trans_lt (K : HeaderConstants) (a b c : scenario_index_entry) :
    scenario_index_entry_CompareByIndex K a b < 0 →
    scenario_index_entry_CompareByIndex K b c < 0 →
    scenario_index_entry_CompareByIndex K a c < 0 := by
  rw [Math.Sign_eq_neg_iff (CompareByIndex_sign K a b),
    Math.Sign_eq_neg_iff (CompareByIndex_sign K b c),
    Math.Sign_eq_neg_iff (CompareByIndex_sign K a c)]
  refine lexCompare_trans_lt _ _ _ _ _ _ (fun hab hbc => ?_)
  have hab' : a.source_game = b.source_game := Nat.cast_inj.1 hab
  have hbc' : b.source_game = c.source_game := Nat.cast_inj.1 hbc
  rw [hab', hbc']
  split
  · exact CompareByCategory_trans_lt K a b c
  · refine lexCompare_trans_lt _ _ _ _ _ _ (fun huab hubc => ?_)
    simp only [unidentifiedKey] at huab hubc
    by_cases ha : a.source_index = -1
    · have hb : b.source_index = -1 := by
        by_contra hb
        simp [ha, hb] at huab
      simp only [ha, hb, if_true]
      exact CompareByCategory_trans_lt K a b c
    · have hb : ¬ b.source_index = -1 := by
        intro hb
        simp [ha, hb] at huab
      simp only [ha, hb, if_false]
      omega

theorem CompareByIndex_trans_le (K : HeaderConstants) (a b c : scenario_index_entry) :
    scenario_index_entry_CompareByIndex K a b ≤ 0 →
    scenario_index_entry_CompareByIndex K b c ≤ 0 →
    scenario_index_entry_CompareByIndex K a c ≤ 0 := by
  rw [Math.Sign_eq_nonpos_iff (CompareByIndex_sign K a b),
    Math.Sign_eq_nonpos_iff (CompareByIndex_sign K b c),
    Math.Sign_eq_nonpos_iff (CompareByIndex_sign K a c)]
  refine lexCompare_trans_le _ _ _ _ _ _ (fun hab hbc => ?_)
  have hab' : a.source_game = b.source_game := Nat.cast_inj.1 hab
  have hbc' : b.source_game = c.source_game := Nat.cast_inj.1 hbc
  rw [hab', hbc']
  split
  · exact CompareByCategory_trans_le K a b c
  · refine lexCompare_trans_le _ _ _ _ _ _ (fun huab hubc => ?_)
    simp only [unidentifiedKey] at huab hubc
    by_cases ha : a.source_index = -1
    · have hb : b.source_index = -1 := by
        by_contra hb
        simp [ha, hb] at huab
      simp only [ha, hb, if_true]
      exact CompareByCategory_trans_le K a b c
    · have hb : ¬ b.source_index = -1 := by
        intro hb
        simp [ha, hb] at huab
      simp only [ha, hb, if_false]
      omega

/-- Claim C17: the by-origin-index comparator is a total order: for all
entries `a`, `b`, `c` the sign of `cmp(a, b)` is the opposite of the sign of
`cmp(b, a)`, `cmp(a, b) < 0` with `cmp(b, c) < 0` gives `cmp(a, c) < 0`,
likewise with `≤ 0`, and so the predicate `cmp(a, b) < 0` given to the sort is
a strict weak ordering (irreflexive, transitive, with a transitive
equivalence of unordered entries). -/
theorem CompareByIndex_total_order (K : HeaderConstants) (a b c : scenario_index_entry) :
    Math.Sign (scenario_index_entry_CompareByIndex K a b)
      = -Math.Sign (scenario_index_entry_CompareByIndex K b a) ∧
    (scenario_index_entry_CompareByIndex K a b < 0 →
      scenario_index_entry_CompareByIndex K b c < 0 →
      scenario_index_entry_CompareByIndex K a c < 0) ∧
    (scenario_index_entry_CompareByIndex K a b ≤ 0 →
      scenario_index_entry_CompareByIndex K b c ≤ 0 →
      scenario_index_entry_CompareByIndex K a c ≤ 0) ∧
    ¬ scenario_index_entry_CompareByIndex K a a < 0 ∧
    (¬ scenario_index_entry_CompareByIndex K a b < 0 ∧
        ¬ scenario_index_entry_CompareByIndex K b a < 0 →
      ¬ scenario_index_entry_CompareByIndex K b c < 0 ∧
        ¬ scenario_index_entry_CompareByIndex K c b < 0 →
      ¬ scenario_index_entry_CompareByIndex K a c < 0 ∧
        ¬ scenario_index_entry_CompareByIndex K c a < 0) :=
  ⟨CompareByIndex_sign_antisymm K b a, CompareByIndex_trans_lt K a b c,
    CompareByIndex_trans_le K a b c,
    strict_weak_of_sign_order (scenario_index_entry_CompareByIndex K)
      (CompareByIndex_sign_antisymm K) (CompareByIndex_trans_le K) a b c⟩

/-- Witness for claim C16: a scenario of the category "challenging" sorts
before one of the category "other", in both directions of the comparison. -/
theorem CompareByCategory_full_order_witness :
    scenario_index_entry_CompareByCategory openrct2Constants sampleOlder sampleNewer = -1 ∧
    scenario_index_entry_CompareByCategory openrct2Constants sampleNewer sampleOlder = 1 ∧
    Math.Sign (scenario_index_entry_CompareByCategory openrct2Constants sampleOlder sampleNewer)
      = -Math.Sign
          (scenario_index_entry_CompareByCategory openrct2Constants sampleNewer sampleOlder) :=
  ⟨by decide, by decide,
    (CompareByCategory_full_order openrct2Constants sampleOlder sampleNewer sampleOlder).1⟩

/-- Witness for claim C17: a scenario of source game 3 sorts before one of
source game 7, in both directions of the comparison. -/
theorem CompareByIndex_total_order_witness :
    scenario_index_entry_CompareByIndex openrct2Constants sampleOlder sampleNewer = -4 ∧
    scenario_index_entry_CompareByIndex openrct2Constants sampleNewer sampleOlder = 4 ∧
    Math.Sign (scenario_index_entry_CompareByIndex openrct2Constants sampleOlder sampleNewer)
      = -Math.Sign
          (scenario_index_entry_CompareByIndex openrct2Constants sampleNewer sampleOlder) :=
  ⟨by decide, by decide,
    (CompareByIndex_total_order openrct2Constants sampleOlder sampleNewer sampleOlder).1⟩

/-! ## Theorems: extracting the metadata of one scenario file -/

theorem scenario_translate_fields (K : HeaderConstants) (env : Collaborators)
    (entry : scenario_index_entry) (stex : rct_object_entry) :
    (scenario_translate K env entry stex).sc_id = entry.sc_id ∧
    (scenario_translate K env entry stex).source_index = entry.source_index ∧
    (scenario_translate K env entry stex).source_game = entry.source_game ∧
    (scenario_translate K env entry stex).category = entry.category ∧
    (scenario_translate K env entry stex).internal_name = entry.internal_name ∧
    (scenario_translate K env entry stex).path = entry.path :=
  ⟨rfl, rfl, rfl, rfl, rfl, rfl⟩

theorem String.Set_of_fits (bufferSize : Nat) (src : utf8string) (hfit : src.length < bufferSize) :
    String.Set bufferSize src = src := by
  unfold String.Set
  exact List.take_of_length_le (by omega)

/-- The entry before translation when the catalog has no entry for the name. -/
theorem CreateNewScenarioEntryUntranslated_of_none (K : HeaderConstants) (env : Collaborators)
    (path : utf8string) (timestamp : Nat) (s6Info : rct_s6_info)
    (hno : env.TryGetByName
      (untranslatedName K env (String.Set K.sizeofPath path) s6Info) = none) :
    CreateNewScenarioEntryUntranslated K env path timestamp s6Info =
      { path := String.Set K.sizeofPath path
        timestamp := timestamp
        category := s6Info.category
        source_game :=
          if s6Info.category = K.SCENARIO_CATEGORY_REAL then K.SCENARIO_SOURCE_REAL
          else K.SCENARIO_SOURCE_OTHER
        source_index := -1
        sc_id := K.SC_UNIDENTIFIED
        objective_type := s6Info.objective_type
        objective_arg_1 := s6Info.objective_arg_1
        objective_arg_2 := s6Info.objective_arg_2
        objective_arg_3 := s6Info.objective_arg_3
        highscore := none
        internal_name := String.Set K.sizeofInternalName
          (untranslatedName K env (String.Set K.sizeofPath path) s6Info)
        name := untranslatedName K env (String.Set K.sizeofPath path) s6Info
        details := String.Set K.sizeofDetails s6Info.details } := by
  unfold CreateNewScenarioEntryUntranslated
  dsimp only
  rw [hno]

/-- The entry before translation when the catalog has the entry `desc` for
the name. -/
theorem CreateNewScenarioEntryUntranslated_of_some (K : HeaderConstants) (env : Collaborators)
    (path : utf8string) (timestamp : Nat) (s6Info : rct_s6_info) (desc : source_desc)
    (hdesc : env.TryGetByName
      (untranslatedName K env (String.Set K.sizeofPath path) s6Info) = some desc) :
    CreateNewScenarioEntryUntranslated K env path timestamp s6Info =
      { path := String.Set K.sizeofPath path
        timestamp := timestamp
        category := desc.category
        source_game := desc.source
        source_index := desc.index
        sc_id := desc.id
        objective_type := s6Info.objective_type
        objective_arg_1 := s6Info.objective_arg_1
        objective_arg_2 := s6Info.objective_arg_2
        objective_arg_3 := s6Info.objective_arg_3
        highscore := none
        internal_name := String.Set K.sizeofInternalName
          (untranslatedName K env (String.Set K.sizeofPath path) s6Info)
        name := untranslatedName K env (String.Set K.sizeofPath path) s6Info
        details := String.Set K.sizeofDetails s6Info.details } := by
  unfold CreateNewScenarioEntryUntranslated
  dsimp only
  rw [hdesc]

/-- The path, the name and the internal name of the entry before translation
do not depend on the catalog. -/
theorem CreateNewScenarioEntryUntranslated_names (K : HeaderConstants) (env : Collaborators)
    (path : utf8string) (timestamp : Nat) (s6Info : rct_s6_info) :
    (CreateNewScenarioEntryUntranslated K env path timestamp s6Info).path
      = String.Set K.sizeofPath path ∧
    (CreateNewScenarioEntryUntranslated K env path timestamp s6Info).name
      = untranslatedName K env (String.Set K.sizeofPath path) s6Info ∧
    (CreateNewScenarioEntryUntranslated K env path timestamp s6Info).internal_name
      = String.Set K.sizeofInternalName
          (untranslatedName K env (String.Set K.sizeofPath path) s6Info) := by
  cases h : env.TryGetByName (untranslatedName K env (String.Set K.sizeofPath path) s6Info) with
  | none =>
    rw [CreateNewScenarioEntryUntranslated_of_none K env path timestamp s6Info h]
    exact ⟨rfl, rfl, rfl⟩
  | some desc =>
    rw [CreateNewScenarioEntryUntranslated_of_some K env path timestamp s6Info desc h]
    exact ⟨rfl, rfl, rfl⟩

/-- Claim C18 as stated fails: a scenario of the on-disk category "beginner"
(0) whose name is not in the source catalog keeps the category 0 and is not
moved to the category "other" (4); what becomes "other" is its source game. -/
theorem CreateNewScenarioEntry_keeps_category :
    sampleCollaborators.TryGetByName
      (untranslatedName openrct2Constants sampleCollaborators
        (String.Set openrct2Constants.sizeofPath "C:/s/forest.sc6".toList) sampleInfo) = none ∧
    sampleInfo.category = 0 ∧
    sampleInfo.category ≠ openrct2Constants.SCENARIO_CATEGORY_REAL ∧
    (CreateNewScenarioEntry openrct2Constants sampleCollaborators "C:/s/forest.sc6".toList 9
      sampleInfo).category = 0 ∧
    (CreateNewScenarioEntry openrct2Constants sampleCollaborators "C:/s/forest.sc6".toList 9
      sampleInfo).category ≠ openrct2Constants.SCENARIO_CATEGORY_OTHER ∧
    (CreateNewScenarioEntry openrct2Constants sampleCollaborators "C:/s/forest.sc6".toList 9
      sampleInfo).source_game = openrct2Constants.SCENARIO_SOURCE_OTHER := by
  decide

/-- Claim C18 (amended): for every chunked-container scenario whose name, as
looked up, has no entry in the source catalog, the entry built by
`CreateNewScenarioEntry` has scenario id `SC_UNIDENTIFIED`, source index -1,
the category of the file, and the source game "real" if that category is
"real" and the source game "other" otherwise. -/
theorem CreateNewScenarioEntry_without_catalog_match (K : HeaderConstants) (env : Collaborators)
    (path : utf8string) (timestamp : Nat) (s6Info : rct_s6_info)
    (hno : env.TryGetByName
      (untranslatedName K env (String.Set K.sizeofPath path) s6Info) = none) :
    (CreateNewScenarioEntry K env path timestamp s6Info).sc_id = K.SC_UNIDENTIFIED ∧
    (CreateNewScenarioEntry K env path timestamp s6Info).source_index = -1 ∧
    (CreateNewScenarioEntry K env path timestamp s6Info).category = s6Info.category ∧
    (CreateNewScenarioEntry K env path timestamp s6Info).source_game
      = (if s6Info.category = K.SCENARIO_CATEGORY_REAL then K.SCENARIO_SOURCE_REAL
         else K.SCENARIO_SOURCE_OTHER) := by
  unfold CreateNewScenarioEntry
  obtain ⟨h1, h2, h3, h4, _, _⟩ := scenario_translate_fields K env
    (CreateNewScenarioEntryUntranslated K env path timestamp s6Info) s6Info.entry
  rw [h1, h2, h3, h4, CreateNewScenarioEntryUntranslated_of_none K env path timestamp s6Info hno]
  exact ⟨rfl, rfl, rfl, rfl⟩

/-- Witness for claim C18 (amended): the sample scenario, of the category
"beginner", with the empty sample catalog. -/
theorem CreateNewScenarioEntry_without_catalog_match_witness :
    (CreateNewScenarioEntry openrct2Constants sampleCollaborators "C:/s/forest.sc6".toList 9
      sampleInfo).sc_id = 255 ∧
    (CreateNewScenarioEntry openrct2Constants sampleCollaborators "C:/s/forest.sc6".toList 9
      sampleInfo).source_index = -1 ∧
    (CreateNewScenarioEntry openrct2Constants sampleCollaborators "C:/s/forest.sc6".toList 9
      sampleInfo).category = 0 ∧
    (CreateNewScenarioEntry openrct2Constants sampleCollaborators "C:/s/forest.sc6".toList 9
      sampleInfo).source_game = 7 :=
  CreateNewScenarioEntry_without_catalog_match openrct2Constants sampleCollaborators
    "C:/s/forest.sc6".toList 9 sampleInfo rfl

/-- Claim C19 as stated fails: for a nameless scenario whose file name
without extension has 70 characters, the name and the internal name of the
entry have the 63 characters that fit their buffers of 64 bytes, so they differ
from the file name without extension. -/
theorem CreateNewScenarioEntry_name_is_cut :
    sampleNamelessInfo.name = [] ∧
    (Path.GetFileNameWithoutExtension
      (CreateNewScenarioEntry openrct2Constants sampleCollaborators sampleLongPath 9
        sampleNamelessInfo).path).length = 70 ∧
    (CreateNewScenarioEntryUntranslated openrct2Constants sampleCollaborators sampleLongPath 9
      sampleNamelessInfo).name.length = 63 ∧
    (CreateNewScenarioEntry openrct2Constants sampleCollaborators sampleLongPath 9
      sampleNamelessInfo).internal_name.length = 63 ∧
    (CreateNewScenarioEntryUntranslated openrct2Constants sampleCollaborators sampleLongPath 9
      sampleNamelessInfo).name
      ≠ Path.GetFileNameWithoutExtension
          (CreateNewScenarioEntry openrct2Constants sampleCollaborators sampleLongPath 9
            sampleNamelessInfo).path ∧
    (CreateNewScenarioEntry openrct2Constants sampleCollaborators sampleLongPath 9
      sampleNamelessInfo).internal_name
      ≠ Path.GetFileNameWithoutExtension
          (CreateNewScenarioEntry openrct2Constants sampleCollaborators sampleLongPath 9
            sampleNamelessInfo).path := by
  decide

/-- Claim C19 (amended): for every chunked-container scenario whose header
name is empty, the entry built by `CreateNewScenarioEntry` has, before the
translation, a name equal to the file name of its path without extension, cut
to the `sizeof(name) - 1` bytes its buffer holds, and an internal name equal
to that name, cut to `sizeof(internal_name) - 1` bytes; no name normalisation
is applied, and when the file name without extension fits both buffers, both
are equal to it. -/
theorem CreateNewScenarioEntry_nameless (K : HeaderConstants) (env : Collaborators)
    (path : utf8string) (timestamp : Nat) (s6Info : rct_s6_info)
    (hempty : s6Info.name = []) :
    (CreateNewScenarioEntryUntranslated K env path timestamp s6Info).name
      = String.Set K.sizeofName (Path.GetFileNameWithoutExtension
          (CreateNewScenarioEntry K env path timestamp s6Info).path) ∧
    (CreateNewScenarioEntry K env path timestamp s6Info).internal_name
      = String.Set K.sizeofInternalName (String.Set K.sizeofName
          (Path.GetFileNameWithoutExtension
            (CreateNewScenarioEntry K env path timestamp s6Info).path)) ∧
    ((Path.GetFileNameWithoutExtension
          (CreateNewScenarioEntry K env path timestamp s6Info).path).length < K.sizeofName →
      (Path.GetFileNameWithoutExtension
          (CreateNewScenarioEntry K env path timestamp s6Info).path).length
        < K.sizeofInternalName →
      (CreateNewScenarioEntryUntranslated K env path timestamp s6Info).name
        = Path.GetFileNameWithoutExtension
            (CreateNewScenarioEntry K env path timestamp s6Info).path ∧
      (CreateNewScenarioEntry K env path timestamp s6Info).internal_name
        = Path.GetFileNameWithoutExtension
            (CreateNewScenarioEntry K env path timestamp s6Info).path) := by
  obtain ⟨hp, hn, hi⟩ := CreateNewScenarioEntryUntranslated_names K env path timestamp s6Info
  have huntr : untranslatedName K env (String.Set K.sizeofPath path) s6Info
      = String.Set K.sizeofName (Path.GetFileNameWithoutExtension
          (String.Set K.sizeofPath path)) := by
    simp only [untranslatedName, hempty, String.IsNullOrEmpty, List.isEmpty_nil, if_true]
  have hpath : (CreateNewScenarioEntry K env path timestamp s6Info).path
      = String.Set K.sizeofPath path := by
    unfold CreateNewScenarioEntry
    rw [(scenario_translate_fields K env _ _).2.2.2.2.2, hp]
  have hname : (CreateNewScenarioEntryUntranslated K env path timestamp s6Info).name
      = String.Set K.sizeofName (Path.GetFileNameWithoutExtension
          (String.Set K.sizeofPath path)) := by
    rw [hn, huntr]
  have hinternal : (CreateNewScenarioEntry K env path timestamp s6Info).internal_name
      = String.Set K.sizeofInternalName (String.Set K.sizeofName
          (Path.GetFileNameWithoutExtension (String.Set K.sizeofPath path))) := by
    unfold CreateNewScenarioEntry
    rw [(scenario_translate_fields K env _ _).2.2.2.2.1, hi, huntr]
  rw [hpath, hname, hinternal]
  refine ⟨rfl, rfl, ?_⟩
  intro h1 h2
  rw [String.Set_of_fits _ _ h1, String.Set_of_fits _ _ h2]
  exact ⟨rfl, rfl⟩

/-- Witness for claim C19 (amended): the nameless sample scenario in the file
`forest.sc6` is called `forest`. -/
theorem CreateNewScenarioEntry_nameless_witness :
    (CreateNewScenarioEntryUntranslated openrct2Constants sampleCollaborators
      "C:/s/forest.sc6".toList 9 sampleNamelessInfo).name = "forest".toList ∧
    (CreateNewScenarioEntry openrct2Constants sampleCollaborators
      "C:/s/forest.sc6".toList 9 sampleNamelessInfo).internal_name = "forest".toList := by
  have h := (CreateNewScenarioEntry_nameless openrct2Constants sampleCollaborators
    "C:/s/forest.sc6".toList 9 sampleNamelessInfo rfl).2.2 (by decide) (by decide)
  rw [h.1, h.2]
  decide

/-- Claim C20: for every path on which `GetScenarioInfo` fails, `Create` still
returns success, paired with the default entry (all fields zero, empty path),
and `AddScenario` given that entry leaves the scenario collection as it is. -/
theorem Create_of_failed_extraction (K : HeaderConstants) (env : Collaborators)
    (path : utf8string) (scenarios : List scenario_index_entry)
    (hfail : (GetScenarioInfo K env path (env.GetLastModified path)).1 = none) :
    Create K env path = (true, scenario_index_entry.zero) ∧
    scenario_index_entry.zero.path = [] ∧
    (AddScenario scenarios (Create K env path).2).1 = scenarios := by
  have hcreate : Create K env path = (true, scenario_index_entry.zero) := by
    unfold Create
    simp only [hfail]
  refine ⟨hcreate, rfl, ?_⟩
  rw [hcreate]
  simp [AddScenario, scenario_index_entry.zero, Path.GetFileName, String.Equals]

/-- Witness for claim C20: with the sample collaborators no file can be read. -/
theorem Create_of_failed_extraction_witness :
    Create openrct2Constants sampleCollaborators "C:/s/forest.sc6".toList
      = (true, scenario_index_entry.zero) ∧
    scenario_index_entry.zero.path = [] ∧
    (AddScenario [sampleOlder]
      (Create openrct2Constants sampleCollaborators "C:/s/forest.sc6".toList).2).1
      = [sampleOlder] :=
  Create_of_failed_extraction openrct2Constants sampleCollaborators "C:/s/forest.sc6".toList
    [sampleOlder] (by decide)


/-! ## Theorems: the lookups -/

/-- The loop of `GetByInternalName` is the search for the first eligible entry. -/
theorem GetByInternalName_eq_find (K : HeaderConstants) (name : Option utf8string)
    (scenarios : List scenario_index_entry) :
    GetByInternalName K scenarios name
      = scenarios.find? (fun s => decide (eligibleByInternalName K name s)) := by
  induction scenarios with
  | nil => rfl
  | cons a t ih =>
    unfold GetByInternalName
    by_cases hskip : a.source_game = K.SCENARIO_SOURCE_OTHER ∧ a.sc_id = K.SC_UNIDENTIFIED
    · have hnot : ¬ eligibleByInternalName K name a := fun h => h.1 hskip
      rw [if_pos hskip, ih, List.find?_cons]
      simp [hnot]
    · rw [if_neg hskip]
      by_cases hname : String.Equals name (some a.internal_name) true = true
      · have hel : eligibleByInternalName K name a := ⟨hskip, hname⟩
        rw [if_pos hname, List.find?_cons]
        simp [hel]
      · have hnot : ¬ eligibleByInternalName K name a := fun h => hname h.2
        rw [if_neg hname, ih, List.find?_cons]
        simp [hnot]

/-- Claim C21: `GetByInternalName` never returns an entry classified source
game "other" with scenario id `SC_UNIDENTIFIED`; it returns the first entry in
collection order that is not so classified and whose internal name equals the
name ignoring case, and null exactly when there is no such entry, even if an
entry that is passed over has that name. -/
theorem GetByInternalName_first_eligible (K : HeaderConstants) (name : Option utf8string)
    (scenarios : List scenario_index_entry) :
    (∀ s, GetByInternalName K scenarios name = some s →
      ¬ (s.source_game = K.SCENARIO_SOURCE_OTHER ∧ s.sc_id = K.SC_UNIDENTIFIED)) ∧
    (∀ s, GetByInternalName K scenarios name = some s ↔
      eligibleByInternalName K name s ∧
      ∃ before after, scenarios = before ++ s :: after ∧
        ∀ x ∈ before, ¬ eligibleByInternalName K name x) ∧
    (GetByInternalName K scenarios name = none ↔
      ∀ x ∈ scenarios, ¬ eligibleByInternalName K name x) := by
  have hsome : ∀ s, GetByInternalName K scenarios name = some s ↔
      eligibleByInternalName K name s ∧
      ∃ before after, scenarios = before ++ s :: after ∧
        ∀ x ∈ before, ¬ eligibleByInternalName K name x := by
    intro s
    rw [GetByInternalName_eq_find, List.find?_eq_some]
    simp
  refine ⟨?_, hsome, ?_⟩
  · intro s hs
    exact ((hsome s).1 hs).1.1
  · rw [GetByInternalName_eq_find, List.find?_eq_none]
    simp

/-- Witness for claim C21: in the sample collection the entry `park.sc6` of
source game "other" is passed over and the entry with the same internal name
behind it is returned; when it is the only entry, nothing is returned. -/
theorem GetByInternalName_first_eligible_witness :
    GetByInternalName openrct2Constants sampleCollection (some "PARK".toList) = some sampleOlder ∧
    GetByInternalName openrct2Constants [sampleNewer] (some "PARK".toList) = none ∧
    ¬ (sampleOlder.source_game = openrct2Constants.SCENARIO_SOURCE_OTHER ∧
      sampleOlder.sc_id = openrct2Constants.SC_UNIDENTIFIED) :=
  ⟨by decide, by decide,
    (GetByInternalName_first_eligible openrct2Constants (some "PARK".toList) sampleCollection).1
      sampleOlder (by decide)⟩

/-- Claim C22: `GetByFilename` returns the first entry in collection order
whose file name equals the query ignoring case, and null exactly when no
entry has such a file name; two queries that differ only in letter case return
the same entry. -/
theorem GetByFilename_first_match (scenarios : List scenario_index_entry) :
    (∀ (filename : Option utf8string) (s : scenario_index_entry),
      GetByFilename scenarios filename = some s ↔
        String.Equals filename (some (Path.GetFileName s.path)) true = true ∧
        ∃ before after, scenarios = before ++ s :: after ∧
          ∀ x ∈ before,
            String.Equals filename (some (Path.GetFileName x.path)) true = false) ∧
    (∀ filename : Option utf8string,
      GetByFilename scenarios filename = none ↔
        ∀ x ∈ scenarios,
          String.Equals filename (some (Path.GetFileName x.path)) true = false) ∧
    (∀ f g : utf8string, toLowerAscii f = toLowerAscii g →
      GetByFilename scenarios (some f) = GetByFilename scenarios (some g)) := by
  refine ⟨?_, ?_, ?_⟩
  · intro filename s
    unfold GetByFilename
    rw [List.find?_eq_some]
    simp [filenameMatches]
  · intro filename
    unfold GetByFilename
    rw [List.find?_eq_none]
    simp [filenameMatches]
  · intro f g hfg
    unfold GetByFilename
    have hsame : filenameMatches (some f) = filenameMatches (some g) := by
      funext s
      simp [filenameMatches, String.Equals, hfg]
    rw [hsame]

/-- Witness for claim C22: `PARK.sc6` and `park.SC6` find the same sample
entry, and `forest.sc6` finds none. -/
theorem GetByFilename_first_match_witness :
    GetByFilename sampleCollection (some "PARK.sc6".toList) = some sampleNewer ∧
    GetByFilename sampleCollection (some "PARK.sc6".toList)
      = GetByFilename sampleCollection (some "park.SC6".toList) ∧
    GetByFilename sampleCollection (some "forest.sc6".toList) = none :=
  ⟨by decide,
    (GetByFilename_first_match sampleCollection).2.2 "PARK.sc6".toList "park.SC6".toList
      (by decide),
    by decide⟩


/-! ## Theorems: the import of Mega Park -/

/-- Claim C24: `ImportMegaPark` changes the files only when `mp.dat` exists and
`sc21.sc4` does not; it never changes `mp.dat`; so for every initial state of
the files a second run in succession leaves the files of the first run. -/
theorem ImportMegaPark_at_most_once (files : MegaParkFiles) :
    (¬ (files.mpdat.isSome = true ∧ files.sc21 = none) → ImportMegaPark files = files) ∧
    (ImportMegaPark files).mpdat = files.mpdat ∧
    (files.mpdat.isSome = true → (ImportMegaPark files).sc21.isSome = true) ∧
    ImportMegaPark (ImportMegaPark files) = ImportMegaPark files := by
  obtain ⟨mpdat, sc21, dir⟩ := files
  cases mpdat <;> cases sc21 <;> simp [ImportMegaPark, ConvertMegaPark]

/-! ## Theorems: the acceptance rule of `TryRecordHighscore`, continued -/

/-- The test `rejectsHighscore`, conjunct by conjunct. -/
theorem rejectsHighscore_iff (h : scenario_highscore_entry) (companyValue dayRecord : Int)
    (scen_winner : Option utf8string) :
    rejectsHighscore h companyValue dayRecord scen_winner = true ↔
      companyValue ≤ h.company_value ∧ h.record_days > 0 ∧ dayRecord ≥ h.record_days ∧
      ((String.IsNullOrEmpty h.scen_winner = false ∧ String.IsNullOrEmpty scen_winner = true) ∨
        (companyValue < h.company_value ∧ dayRecord > h.record_days)) := by
  simp only [rejectsHighscore, Bool.and_eq_true, Bool.or_eq_true, decide_eq_true_eq,
    Bool.not_eq_true', and_assoc]

/-- Claim C25: on a known scenario, `TryRecordHighscore` returns false if and
only if the scenario has a record `h` with the submitted company value at most
`h.company_value`, `h.record_days > 0`, the submitted day count at least
`h.record_days`, and either `h` has a non-empty winner while the submitted
winner is null or empty, or the submitted value is strictly lower and the
submitted day count strictly higher; when it returns false the state, and so
the record with all its fields, is the one the scan left. -/
theorem TryRecordHighscore_rejects_iff
    (scan : ScenarioRepository → ScenarioRepository)
    (companyValue dayRecord : Int) (now : Nat) (repo : ScenarioRepository)
    (filename scen_winner : Option utf8string) (scenario : scenario_index_entry)
    (h : scenario_highscore_entry)
    (hknown : GetByFilename (scan repo)._scenarios filename = some scenario)
    (hrec : workingRecord (scan repo) scenario = some h) :
    ∃ accepted repo',
      TryRecordHighscore scan companyValue dayRecord now repo filename scen_winner
        = some (accepted, repo') ∧
      (accepted = false ↔
        attachedHighscore (scan repo) filename = some h ∧
        companyValue ≤ h.company_value ∧ h.record_days > 0 ∧ dayRecord ≥ h.record_days ∧
        ((String.IsNullOrEmpty h.scen_winner = false ∧ String.IsNullOrEmpty scen_winner = true) ∨
          (companyValue < h.company_value ∧ dayRecord > h.record_days))) ∧
      (accepted = false →
        repo' = scan repo ∧ attachedHighscore repo' filename = some h) := by
  obtain ⟨accepted, repo', hres, hfalse, htrue⟩ :=
    TryRecordHighscore_known scan companyValue dayRecord now repo filename scen_winner
      scenario h hknown hrec
  have hatt : scenario.highscore ≠ none → attachedHighscore (scan repo) filename = some h :=
    fun hptr => by rw [attachedHighscore_of_known hknown hptr, hrec]
  have hptr_of : attachedHighscore (scan repo) filename = some h → scenario.highscore ≠ none := by
    intro ha hnone
    simp [attachedHighscore, hknown, hnone] at ha
  refine ⟨accepted, repo', hres, ⟨?_, ?_⟩, ?_⟩
  · intro hacc
    obtain ⟨_, hptr, hrej⟩ := hfalse hacc
    exact ⟨hatt hptr, (rejectsHighscore_iff h companyValue dayRecord scen_winner).1 hrej⟩
  · rintro ⟨ha, hcond⟩
    have hrej := (rejectsHighscore_iff h companyValue dayRecord scen_winner).2 hcond
    cases accepted with
    | false => rfl
    | true =>
      rcases (htrue rfl).1 with hnone | hno
      · exact absurd hnone (hptr_of ha)
      · rw [hrej] at hno
        exact absurd hno (by decide)
  · intro hacc
    obtain ⟨hrepo, hptr, _⟩ := hfalse hacc
    exact ⟨hrepo, by rw [hrepo]; exact hatt hptr⟩

/-- Witness for claim C25: on the record (100, 10 days, winner Bob) the
submission (50, 20 days) without winner name is turned down. -/
theorem TryRecordHighscore_rejects_iff_witness :
    (∃ accepted repo',
      TryRecordHighscore id 50 20 sampleNow sampleRepo sampleFileName none
        = some (accepted, repo') ∧
      (accepted = false ↔
        attachedHighscore (id sampleRepo) sampleFileName
          = some { scen_file := some "Park.SC6".toList, scen_winner := some "Bob".toList,
                   company_value := 100, timestamp := 1000, record_days := 10 } ∧
        (50 : Int) ≤ 100 ∧ (10 : Int) > 0 ∧ (20 : Int) ≥ 10 ∧
        ((String.IsNullOrEmpty (some "Bob".toList) = false ∧ String.IsNullOrEmpty none = true) ∨
          ((50 : Int) < 100 ∧ (20 : Int) > 10))) ∧
      (accepted = false →
        repo' = id sampleRepo ∧
        attachedHighscore repo' sampleFileName
          = some { scen_file := some "Park.SC6".toList, scen_winner := some "Bob".toList,
                   company_value := 100, timestamp := 1000, record_days := 10 })) ∧
    TryRecordHighscore id 50 20 sampleNow sampleRepo sampleFileName none
      = some (false, sampleRepo) :=
  ⟨TryRecordHighscore_rejects_iff id 50 20 sampleNow sampleRepo sampleFileName none
      { sampleOlder with highscore := some 0 }
      { scen_file := some "Park.SC6".toList, scen_winner := some "Bob".toList,
        company_value := 100, timestamp := 1000, record_days := 10 }
      (by decide) (by decide),
    by decide⟩

/-- Claim C26: on a known scenario whose record holds `record_days` `R` (the
zero-filled record when this call creates it), an accepted call with submitted
day count `D` leaves the scenario's record with `record_days` `D` when `R` is 0
or `D < R`, and `R` otherwise; so a stored `record_days` other than 0 never
increases. -/
theorem TryRecordHighscore_record_days_ratchet
    (scan : ScenarioRepository → ScenarioRepository)
    (companyValue dayRecord : Int) (now : Nat) (repo : ScenarioRepository)
    (filename scen_winner : Option utf8string) (scenario : scenario_index_entry)
    (h : scenario_highscore_entry)
    (hknown : GetByFilename (scan repo)._scenarios filename = some scenario)
    (hrec : workingRecord (scan repo) scenario = some h) :
    ∃ accepted repo',
      TryRecordHighscore scan companyValue dayRecord now repo filename scen_winner
        = some (accepted, repo') ∧
      (accepted = true →
        ∃ h', attachedHighscore repo' filename = some h' ∧
          h'.record_days = (if h.record_days = 0 ∨ dayRecord < h.record_days then dayRecord
            else h.record_days) ∧
          (h.record_days ≠ 0 → h'.record_days ≤ h.record_days)) := by
  obtain ⟨accepted, repo', hres, _, htrue⟩ :=
    TryRecordHighscore_known scan companyValue dayRecord now repo filename scen_winner
      scenario h hknown hrec
  refine ⟨accepted, repo', hres, fun hacc => ?_⟩
  obtain ⟨_, _, hatt⟩ := htrue hacc
  refine ⟨_, hatt, rfl, ?_⟩
  intro hne
  simp only [recordedHighscore]
  split
  · rename_i hcond
    rcases hcond with h0 | hlt
    · exact absurd h0 hne
    · omega
  · exact le_refl _

/-- Witness for claim C26: on the record (100, 10 days) the accepted
submission (150, 7 days) leaves 7 days, and the accepted submission
(150, 12 days) leaves 10 days. -/
theorem TryRecordHighscore_record_days_ratchet_witness :
    (∃ accepted repo',
      TryRecordHighscore id 150 7 sampleNow sampleRepo sampleFileName none
        = some (accepted, repo') ∧
      (accepted = true →
        ∃ h', attachedHighscore repo' sampleFileName = some h' ∧
          h'.record_days = (if (10 : Int) = 0 ∨ (7 : Int) < 10 then 7 else 10) ∧
          ((10 : Int) ≠ 0 → h'.record_days ≤ 10))) ∧
    (TryRecordHighscore id 150 7 sampleNow sampleRepo sampleFileName none).bind
      (fun r => (attachedHighscore r.2 sampleFileName).map (fun h => (r.1, h.record_days)))
      = some (true, 7) ∧
    (TryRecordHighscore id 150 12 sampleNow sampleRepo sampleFileName none).bind
      (fun r => (attachedHighscore r.2 sampleFileName).map (fun h => (r.1, h.record_days)))
      = some (true, 10) :=
  ⟨TryRecordHighscore_record_days_ratchet id 150 7 sampleNow sampleRepo sampleFileName none
      { sampleOlder with highscore := some 0 }
      { scen_file := some "Park.SC6".toList, scen_winner := some "Bob".toList,
        company_value := 100, timestamp := 1000, record_days := 10 }
      (by decide) (by decide),
    by decide, by decide⟩

/-- Claim C27: for a known scenario without attached record,
`TryRecordHighscore` returns true; the highscore table is the table the scan
left with one record added at its end, so the records already there are
unchanged; the scenario found for the file name is the same entry now
pointing to the new record; the file name of the record is the file name of
the scenario's path, its company value is `max 0 C` for the submitted value
`C`, and its `record_days` is the submitted day count. -/
theorem TryRecordHighscore_first_win
    (scan : ScenarioRepository → ScenarioRepository)
    (companyValue dayRecord : Int) (now : Nat) (repo : ScenarioRepository)
    (filename scen_winner : Option utf8string) (scenario : scenario_index_entry)
    (hknown : GetByFilename (scan repo)._scenarios filename = some scenario)
    (hnone : scenario.highscore = none) :
    ∃ repo' record,
      TryRecordHighscore scan companyValue dayRecord now repo filename scen_winner
        = some (true, repo') ∧
      repo'._highscores = (scan repo)._highscores ++ [record] ∧
      GetByFilename repo'._scenarios filename
        = some { scenario with highscore := some (scan repo)._highscores.length } ∧
      attachedHighscore repo' filename = some record ∧
      record.scen_file = some (Path.GetFileName scenario.path) ∧
      record.company_value = max 0 companyValue ∧
      record.record_days = dayRecord := by
  have hm := filenameMatches_of_find hknown
  have hfind := find?_set_findIdx (y := { scenario with highscore := some (scan repo)._highscores.length })
    hknown (by simpa [filenameMatches] using hm)
  refine ⟨SaveHighscores
      { scan repo with
        _scenarios := (scan repo)._scenarios.set
          (GetByFilenameIndex (scan repo)._scenarios filename)
          { scenario with highscore := some (scan repo)._highscores.length }
        _highscores := (scan repo)._highscores ++
          [recordedHighscore scenario_highscore_entry.zero scenario.path
            (scan repo)._last_winner companyValue dayRecord now scen_winner]
        _last_winner := nextLastWinner (scan repo)._last_winner scen_winner },
    recordedHighscore scenario_highscore_entry.zero scenario.path
      (scan repo)._last_winner companyValue dayRecord now scen_winner, ?_, ?_, ?_, ?_, rfl, ?_, ?_⟩
  · unfold TryRecordHighscore
    simp only [hknown, hnone]
  · simp only [SaveHighscores_highscores]
  · simp only [SaveHighscores_scenarios, GetByFilename, GetByFilenameIndex, hfind]
  · simp only [attachedHighscore, SaveHighscores_scenarios, SaveHighscores_highscores,
      GetByFilename, GetByFilenameIndex, hfind, List.getElem?_concat_length]
  · simp only [recordedHighscore, scenario_highscore_entry.zero]
    split
    · rw [max_eq_right]; omega
    · rw [max_eq_left]; omega
  · simp [recordedHighscore, scenario_highscore_entry.zero]

/-- Witness for claim C27: the first win on the sample scenario, with company
value 100 after 10 days, creates the first record of the table. -/
theorem TryRecordHighscore_first_win_witness :
    (∃ repo' record,
      TryRecordHighscore id 100 10 sampleNow sampleFreshRepo sampleFileName (some "Bob".toList)
        = some (true, repo') ∧
      repo'._highscores = (id sampleFreshRepo)._highscores ++ [record] ∧
      GetByFilename repo'._scenarios sampleFileName
        = some { sampleOlder with highscore := some (id sampleFreshRepo)._highscores.length } ∧
      attachedHighscore repo' sampleFileName = some record ∧
      record.scen_file = some (Path.GetFileName sampleOlder.path) ∧
      record.company_value = max 0 100 ∧
      record.record_days = 10) ∧
    (TryRecordHighscore id 100 10 sampleNow sampleFreshRepo sampleFileName
        (some "Bob".toList)).map (fun r => (r.1, r.2._highscores))
      = some (true, [{ scen_file := some "Park.SC6".toList, scen_winner := some "Bob".toList,
                       company_value := 100, timestamp := 100, record_days := 10 }]) :=
  ⟨TryRecordHighscore_first_win id 100 10 sampleNow sampleFreshRepo sampleFileName
      (some "Bob".toList) sampleOlder (by decide) (by decide),
    by decide⟩


/-! ## Theorems: the two orders, case by case -/

/-- On byte strings without NUL byte, `strcmp` is negative exactly when the
first string is before the second in the lexicographic order of the bytes. -/
theorem strcmpBytes_neg_iff_lex : ∀ a b : List Nat, (∀ x ∈ a, x ≠ 0) → (∀ x ∈ b, x ≠ 0) →
    (strcmpBytes a b < 0 ↔ List.Lex (fun x y => x < y) a b)
  | [], [], _, _ => by
    simp only [strcmpBytes, lt_self_iff_false, false_iff]
    intro h
    cases h
  | [], b :: t, _, hb => by
    have hb0 : b ≠ 0 := hb b (List.mem_cons_self _ _)
    simp only [strcmpBytes]
    constructor
    · intro _
      exact List.Lex.nil
    · intro _
      omega
  | a :: s, [], _, _ => by
    simp only [strcmpBytes]
    constructor
    · intro h
      omega
    · intro h
      cases h
  | a :: s, b :: t, ha, hb => by
    have ha0 : a ≠ 0 := ha a (List.mem_cons_self _ _)
    have ih := strcmpBytes_neg_iff_lex s t (fun x hx => ha x (List.mem_cons_of_mem _ hx))
      (fun x hx => hb x (List.mem_cons_of_mem _ hx))
    simp only [strcmpBytes]
    by_cases hab : a = b
    · subst hab
      rw [if_pos rfl, if_neg ha0, ih]
      constructor
      · intro h
        exact List.Lex.cons h
      · intro h
        cases h with
        | cons h => exact h
        | rel h => exact absurd h (lt_irrefl a)
    · rw [if_neg hab]
      constructor
      · intro h
        exact List.Lex.rel (by omega)
      · intro h
        cases h with
        | cons h => exact absurd rfl hab
        | rel h => omega

/-- On byte strings without NUL byte, `strcmp` is 0 exactly for equal strings. -/
theorem strcmpBytes_eq_zero_iff : ∀ a b : List Nat, (∀ x ∈ a, x ≠ 0) → (∀ x ∈ b, x ≠ 0) →
    (strcmpBytes a b = 0 ↔ a = b)
  | [], [], _, _ => by simp [strcmpBytes]
  | [], b :: t, _, hb => by
    have hb0 : b ≠ 0 := hb b (List.mem_cons_self _ _)
    simp only [strcmpBytes]
    constructor
    · intro h
      omega
    · intro h
      cases h
  | a :: s, [], ha, _ => by
    have ha0 : a ≠ 0 := ha a (List.mem_cons_self _ _)
    simp only [strcmpBytes]
    constructor
    · intro h
      omega
    · intro h
      cases h
  | a :: s, b :: t, ha, hb => by
    have ha0 : a ≠ 0 := ha a (List.mem_cons_self _ _)
    have ih := strcmpBytes_eq_zero_iff s t (fun x hx => ha x (List.mem_cons_of_mem _ hx))
      (fun x hx => hb x (List.mem_cons_of_mem _ hx))
    simp only [strcmpBytes]
    by_cases hab : a = b
    · subst hab
      rw [if_pos rfl, if_neg ha0, ih]
      simp
    · rw [if_neg hab]
      constructor
      · intro h
        omega
      · intro h
        cases h
        exact absurd rfl hab

/-- Claim C28: for all categories `a` and `b`, so for all of the 8-bit range,
`ScenarioCategoryCompare` returns 0 exactly when `a = b`; DLC is before every
other category; build-your-own is before every category other than DLC; two
categories that are neither are ordered by their number; and the result is
always -1, 0 or 1. -/
theorem ScenarioCategoryCompare_rank (K : HeaderConstants) (a b : Nat) :
    (ScenarioCategoryCompare K a b = 0 ↔ a = b) ∧
    (a = K.SCENARIO_CATEGORY_DLC → b ≠ K.SCENARIO_CATEGORY_DLC →
      ScenarioCategoryCompare K a b = -1 ∧ ScenarioCategoryCompare K b a = 1) ∧
    (a = K.SCENARIO_CATEGORY_BUILD_YOUR_OWN → b ≠ K.SCENARIO_CATEGORY_BUILD_YOUR_OWN →
      b ≠ K.SCENARIO_CATEGORY_DLC →
      ScenarioCategoryCompare K a b = -1 ∧ ScenarioCategoryCompare K b a = 1) ∧
    (a ≠ K.SCENARIO_CATEGORY_DLC → a ≠ K.SCENARIO_CATEGORY_BUILD_YOUR_OWN →
      b ≠ K.SCENARIO_CATEGORY_DLC → b ≠ K.SCENARIO_CATEGORY_BUILD_YOUR_OWN →
      (a < b → ScenarioCategoryCompare K a b = -1 ∧ ScenarioCategoryCompare K b a = 1)) ∧
    (ScenarioCategoryCompare K a b = -1 ∨ ScenarioCategoryCompare K a b = 0 ∨
      ScenarioCategoryCompare K a b = 1) := by
  unfold ScenarioCategoryCompare Math.Sign
  simp only [Nat.cast_inj]
  refine ⟨?_, ?_, ?_, ?_, ?_⟩
  · split_ifs <;> first | omega | simp_all
  · intro h1 h2
    split_ifs <;> omega
  · intro h1 h2 h3
    split_ifs <;> omega
  · intro h1 h2 h3 h4 h5
    split_ifs <;> omega
  · split_ifs <;> simp

/-- Witness for claim C28, with the upstream numbers: DLC (5) is before
"beginner" (0), build-your-own (6) is before "beginner" and after DLC, and
"beginner" is before "expert" (2). -/
theorem ScenarioCategoryCompare_rank_witness :
    ((ScenarioCategoryCompare openrct2Constants 5 0 = 0 ↔ 5 = 0) ∧
      (5 = openrct2Constants.SCENARIO_CATEGORY_DLC → 0 ≠ openrct2Constants.SCENARIO_CATEGORY_DLC →
        ScenarioCategoryCompare openrct2Constants 5 0 = -1 ∧
        ScenarioCategoryCompare openrct2Constants 0 5 = 1)) ∧
    ScenarioCategoryCompare openrct2Constants 6 0 = -1 ∧
    ScenarioCategoryCompare openrct2Constants 6 5 = 1 ∧
    ScenarioCategoryCompare openrct2Constants 0 2 = -1 ∧
    ScenarioCategoryCompare openrct2Constants 2 2 = 0 :=
  ⟨⟨(ScenarioCategoryCompare_rank openrct2Constants 5 0).1,
      (ScenarioCategoryCompare_rank openrct2Constants 5 0).2.1⟩,
    by decide, by decide, by decide, by decide⟩

/-- Claim C29: for two entries of the same category,
`scenario_index_entry_CompareByCategory` returns `strcmp` of the two display
names when the category is "real" or "other", whatever the source games; in
any other category it returns the difference of the source-game ids when they
differ, negative exactly when the first id is lower, and `strcmp` of the
display names when they are equal. For names without NUL byte, `strcmp` is
negative exactly when the first name is before the second in the
lexicographic order of the bytes, and 0 exactly when the names are equal. -/
theorem CompareByCategory_same_category (K : HeaderConstants) (a b : scenario_index_entry)
    (hcat : a.category = b.category) :
    (a.category = K.SCENARIO_CATEGORY_REAL ∨ a.category = K.SCENARIO_CATEGORY_OTHER →
      scenario_index_entry_CompareByCategory K a b = strcmp a.name b.name) ∧
    (¬ (a.category = K.SCENARIO_CATEGORY_REAL ∨ a.category = K.SCENARIO_CATEGORY_OTHER) →
      (a.source_game ≠ b.source_game →
        scenario_index_entry_CompareByCategory K a b
          = (a.source_game : Int) - (b.source_game : Int) ∧
        (scenario_index_entry_CompareByCategory K a b < 0 ↔ a.source_game < b.source_game) ∧
        scenario_index_entry_CompareByCategory K a b ≠ 0) ∧
      (a.source_game = b.source_game →
        scenario_index_entry_CompareByCategory K a b = strcmp a.name b.name)) ∧
    ((∀ c ∈ a.name, c.toNat ≠ 0) → (∀ c ∈ b.name, c.toNat ≠ 0) →
      (strcmp a.name b.name < 0 ↔
        List.Lex (fun x y => x < y) (a.name.map Char.toNat) (b.name.map Char.toNat)) ∧
      (strcmp a.name b.name = 0 ↔ a.name = b.name)) := by
  refine ⟨?_, ?_, ?_⟩
  · intro hreal
    unfold scenario_index_entry_CompareByCategory
    rw [if_neg (by simpa using hcat), if_pos hreal]
  · intro hreal
    unfold scenario_index_entry_CompareByCategory
    rw [if_neg (by simpa using hcat), if_neg hreal]
    refine ⟨?_, ?_⟩
    · intro hgame
      rw [if_pos hgame]
      refine ⟨rfl, by omega, by omega⟩
    · intro hgame
      rw [if_neg (by simpa using hgame)]
  · intro hna hnb
    have hna' : ∀ x ∈ a.name.map Char.toNat, x ≠ 0 := by
      intro x hx
      obtain ⟨c, hc, rfl⟩ := List.mem_map.1 hx
      exact hna c hc
    have hnb' : ∀ x ∈ b.name.map Char.toNat, x ≠ 0 := by
      intro x hx
      obtain ⟨c, hc, rfl⟩ := List.mem_map.1 hx
      exact hnb c hc
    refine ⟨strcmpBytes_neg_iff_lex _ _ hna' hnb', ?_⟩
    unfold strcmp
    rw [strcmpBytes_eq_zero_iff _ _ hna' hnb']
    constructor
    · intro h
      exact List.map_injective_iff.2 (fun x y hxy => Char.ext (UInt32.ext hxy)) h
    · intro h
      rw [h]


/-- Witness for claim C29: two entries of the category "challenging" (1), of
source games 3 and 1, are ordered by source game although the name of the
first is before the name of the second. -/
theorem CompareByCategory_same_category_witness :
    (scenario_index_entry_CompareByCategory openrct2Constants sampleOlder
        { sampleOlder with source_game := 1, name := "Zoo".toList }
        = ((3 : Nat) : Int) - ((1 : Nat) : Int) ∧
      (scenario_index_entry_CompareByCategory openrct2Constants sampleOlder
        { sampleOlder with source_game := 1, name := "Zoo".toList } < 0 ↔ 3 < 1) ∧
      scenario_index_entry_CompareByCategory openrct2Constants sampleOlder
        { sampleOlder with source_game := 1, name := "Zoo".toList } ≠ 0) ∧
    scenario_index_entry_CompareByCategory openrct2Constants sampleOlder
      { sampleOlder with source_game := 1, name := "Zoo".toList } = 2 ∧
    strcmp sampleOlder.name "Zoo".toList = -10 ∧
    scenario_index_entry_CompareByCategory openrct2Constants
      { sampleOlder with category := 3 }
      { sampleOlder with category := 3, source_game := 1, name := "Zoo".toList } = -10 :=
  ⟨((CompareByCategory_same_category openrct2Constants sampleOlder
      { sampleOlder with source_game := 1, name := "Zoo".toList } rfl).2.1 (by decide)).1
      (by decide),
    by decide, by decide, by decide⟩

/-- Claim C30: `scenario_index_entry_CompareByIndex` orders entries of
different source game by the source-game id; for two entries of the same
source game other than "real", an entry with `source_index = -1` is after
every entry with another `source_index`, two entries with `source_index` other
than -1 are ordered by `source_index`, and two entries with
`source_index = -1` get the result of the by-category comparator; for two
entries of source game "real" the result is that of the by-category
comparator whatever their indices. -/
theorem CompareByIndex_by_origin (K : HeaderConstants) (a b : scenario_index_entry) :
    (a.source_game ≠ b.source_game →
      scenario_index_entry_CompareByIndex K a b = (a.source_game : Int) - (b.source_game : Int) ∧
      (scenario_index_entry_CompareByIndex K a b < 0 ↔ a.source_game < b.source_game) ∧
      scenario_index_entry_CompareByIndex K a b ≠ 0) ∧
    (a.source_game = b.source_game → a.source_game ≠ K.SCENARIO_SOURCE_REAL →
      (a.source_index = -1 → b.source_index ≠ -1 →
        scenario_index_entry_CompareByIndex K a b = 1 ∧
        scenario_index_entry_CompareByIndex K b a = -1) ∧
      (a.source_index ≠ -1 → b.source_index ≠ -1 →
        scenario_index_entry_CompareByIndex K a b = a.source_index - b.source_index ∧
        (scenario_index_entry_CompareByIndex K a b < 0 ↔ a.source_index < b.source_index)) ∧
      (a.source_index = -1 → b.source_index = -1 →
        scenario_index_entry_CompareByIndex K a b
          = scenario_index_entry_CompareByCategory K a b)) ∧
    (a.source_game = b.source_game → a.source_game = K.SCENARIO_SOURCE_REAL →
      scenario_index_entry_CompareByIndex K a b
        = scenario_index_entry_CompareByCategory K a b) := by
  refine ⟨?_, ?_, ?_⟩
  · intro hgame
    unfold scenario_index_entry_CompareByIndex
    rw [if_pos hgame]
    exact ⟨rfl, by omega, by omega⟩
  · intro hgame hreal
    have hreal' : b.source_game ≠ K.SCENARIO_SOURCE_REAL := hgame ▸ hreal
    refine ⟨?_, ?_, ?_⟩
    · intro ha hb
      unfold scenario_index_entry_CompareByIndex
      rw [if_neg (by simpa using hgame), if_neg hreal, if_neg (fun h => hb h.2), if_pos ha,
        if_neg (by simpa using hgame.symm), if_neg hreal', if_neg (fun h => hb h.1), if_neg hb,
        if_pos ha]
      exact ⟨rfl, rfl⟩
    · intro ha hb
      unfold scenario_index_entry_CompareByIndex
      rw [if_neg (by simpa using hgame), if_neg hreal, if_neg (fun h => ha h.1), if_neg ha,
        if_neg hb]
      exact ⟨rfl, by omega⟩
    · intro ha hb
      unfold scenario_index_entry_CompareByIndex
      rw [if_neg (by simpa using hgame), if_neg hreal, if_pos ⟨ha, hb⟩]
      by_cases hcat : a.category = b.category
      · rw [if_pos hcat]
      · rw [if_neg hcat]
        unfold scenario_index_entry_CompareByCategory
        rw [if_pos hcat]
  · intro hgame hreal
    unfold scenario_index_entry_CompareByIndex
    rw [if_neg (by simpa using hgame), if_pos hreal]

/-- Witness for claim C30, inside source game 3: the entry without source
index is after the entry with source index 4, which is after the entry with
source index 2; in source game "real" (6) the source index is not looked at. -/
theorem CompareByIndex_by_origin_witness :
    (sampleOlder.source_game = sampleOlder.source_game →
      sampleOlder.source_game = openrct2Constants.SCENARIO_SOURCE_REAL →
      scenario_index_entry_CompareByIndex openrct2Constants sampleOlder sampleOlder
        = scenario_index_entry_CompareByCategory openrct2Constants sampleOlder sampleOlder) ∧
    scenario_index_entry_CompareByIndex openrct2Constants
      { sampleOlder with source_index := -1 } sampleOlder = 1 ∧
    scenario_index_entry_CompareByIndex openrct2Constants
      sampleOlder { sampleOlder with source_index := 2 } = 2 ∧
    scenario_index_entry_CompareByIndex openrct2Constants
      { sampleOlder with source_game := 6, source_index := 9 }
      { sampleOlder with source_game := 6, source_index := 2, name := "Zoo".toList } = -10 :=
  ⟨(CompareByIndex_by_origin openrct2Constants sampleOlder sampleOlder).2.2,
    by decide, by decide, by decide⟩


/-! ## Theorems: `Scan` -/

theorem LoadLegacyScoresMatch_of_covered (name : utf8string) (scBasic : rct_scores_entry) :
    ∀ l : List scenario_highscore_entry, UniqueScenFiles l → coveredByTable scBasic l →
      LoadLegacyScoresMatch name scBasic l = (l, false) := by
  intro l
  induction l with
  | nil =>
    intro _ hc
    obtain ⟨h, hmem, _⟩ := hc
    cases hmem
  | cons a t ih =>
    intro hU hc
    have hU' := List.pairwise_cons.1 hU
    obtain ⟨r, hmem, hmatch, hval⟩ := hc
    unfold LoadLegacyScoresMatch
    by_cases ha : String.Equals (some scBasic.Path) a.scen_file true = true
    · have hno : ∀ b ∈ t, String.Equals (some scBasic.Path) b.scen_file true = false := by
        intro b hb
        rw [Bool.eq_false_iff]
        intro hb'
        have hab : String.Equals a.scen_file b.scen_file true = true :=
          String.Equals_trans (by rw [String.Equals_comm]; exact ha) hb'
        rw [hU'.1 b hb] at hab
        exact absurd hab (by decide)
      have hr : r = a := by
        rcases List.mem_cons.1 hmem with h | h
        · exact h
        · rw [hno r h] at hmatch
          exact absurd hmatch (by decide)
      subst hr
      rw [if_pos ha, if_neg (by omega), LoadLegacyScoresMatch_of_no_match name scBasic t hno]
    · have hr : r ∈ t := by
        rcases List.mem_cons.1 hmem with h | h
        · rw [h] at hmatch
          exact absurd hmatch ha
        · exact h
      rw [if_neg ha, ih hU'.2 ⟨r, hr, hmatch, hval⟩]

theorem LoadLegacyScoresEntry_of_covered (K : HeaderConstants)
    (rct2_to_utf8 : utf8string → utf8string) (l : List scenario_highscore_entry)
    (scBasic : rct_scores_entry) (hU : UniqueScenFiles l) (hc : coveredByTable scBasic l) :
    LoadLegacyScoresEntry K rct2_to_utf8 l scBasic = l := by
  unfold LoadLegacyScoresEntry
  split
  · simp only [LoadLegacyScoresMatch_of_covered _ scBasic l hU hc]
    simp
  · rfl

theorem String.Equals_self (x : utf8string) : String.Equals (some x) (some x) true = true := by
  simp [String.Equals]

theorem LoadLegacyScoresMatch_covers (name : utf8string) (scBasic : rct_scores_entry) :
    ∀ l : List scenario_highscore_entry, (LoadLegacyScoresMatch name scBasic l).2 = false →
      coveredByTable scBasic (LoadLegacyScoresMatch name scBasic l).1 := by
  intro l
  induction l with
  | nil =>
    intro h
    simp [LoadLegacyScoresMatch] at h
  | cons a t ih =>
    intro hflag
    unfold LoadLegacyScoresMatch at hflag ⊢
    by_cases ha : String.Equals (some scBasic.Path) a.scen_file true = true
    · rw [if_pos ha]
      by_cases hv : scBasic.CompanyValue > a.company_value
      · rw [if_pos hv]
        exact ⟨_, List.mem_cons_self _ _, ha, le_refl _⟩
      · rw [if_neg hv]
        exact ⟨a, List.mem_cons_self _ _, ha, by omega⟩
    · rw [if_neg ha] at hflag ⊢
      obtain ⟨r, hr, hmatch, hval⟩ := ih hflag
      exact ⟨r, List.mem_cons_of_mem _ hr, hmatch, hval⟩

/-- After the merge of a completed legacy record, the table covers it. -/
theorem LoadLegacyScoresEntry_covers (K : HeaderConstants)
    (rct2_to_utf8 : utf8string → utf8string) (l : List scenario_highscore_entry)
    (scBasic : rct_scores_entry) (hdone : legacyCompleted K scBasic) :
    coveredByTable scBasic (LoadLegacyScoresEntry K rct2_to_utf8 l scBasic) := by
  have hdone' : scBasic.Flags &&& K.SCENARIO_FLAGS_COMPLETED ≠ 0 := hdone
  unfold LoadLegacyScoresEntry
  rw [if_pos hdone']
  by_cases hflag : (LoadLegacyScoresMatch (rct2_to_utf8 scBasic.CompletedBy) scBasic l).2 = true
  · simp only [hflag, if_true]
    exact ⟨legacyHighscore rct2_to_utf8 scBasic, List.mem_append_right _ (List.mem_singleton.2 rfl),
      String.Equals_self _, le_refl _⟩
  · have hflag' : (LoadLegacyScoresMatch (rct2_to_utf8 scBasic.CompletedBy) scBasic l).2 = false := by
      simpa using hflag
    simp only [hflag']
    exact LoadLegacyScoresMatch_covers _ scBasic l hflag'

/-- A covered legacy record stays covered when another record is merged. -/
theorem coveredByTable_LoadLegacyScoresEntry (K : HeaderConstants)
    (rct2_to_utf8 : utf8string → utf8string) (l : List scenario_highscore_entry)
    (scBasic other : rct_scores_entry) (hc : coveredByTable scBasic l) :
    coveredByTable scBasic (LoadLegacyScoresEntry K rct2_to_utf8 l other) := by
  obtain ⟨r, hr, hmatch, hval⟩ := hc
  obtain ⟨i, hi⟩ := List.mem_iff_getElem?.1 hr
  obtain ⟨r', hr', hup⟩ :=
    (LoadLegacyScoresEntry_getElem K [other] rct2_to_utf8 other (List.mem_singleton.2 rfl) l).2
      i r hi
  refine ⟨r', List.getElem?_mem hr', ?_, ?_⟩
  · rw [hup.1]; exact hmatch
  · exact le_trans hval hup.2.2.1

theorem coveredByTable_foldl (K : HeaderConstants) (rct2_to_utf8 : utf8string → utf8string)
    (scBasic : rct_scores_entry) (es : List rct_scores_entry) :
    ∀ l : List scenario_highscore_entry, coveredByTable scBasic l →
      coveredByTable scBasic (es.foldl (LoadLegacyScoresEntry K rct2_to_utf8) l) := by
  induction es with
  | nil => intro l hc; exact hc
  | cons e rest ih =>
    intro l hc
    exact ih _ (coveredByTable_LoadLegacyScoresEntry K rct2_to_utf8 l scBasic e hc)

/-- After the merge of a list of legacy records, the table covers every
completed record of the list. -/
theorem LoadLegacyScores_foldl_covers (K : HeaderConstants)
    (rct2_to_utf8 : utf8string → utf8string) (es : List rct_scores_entry) :
    ∀ l : List scenario_highscore_entry, ∀ e ∈ es, legacyCompleted K e →
      coveredByTable e (es.foldl (LoadLegacyScoresEntry K rct2_to_utf8) l) := by
  induction es with
  | nil =>
    intro l e he
    cases he
  | cons a rest ih =>
    intro l e he hdone
    rcases List.mem_cons.1 he with h | h
    · subst h
      exact coveredByTable_foldl K rct2_to_utf8 e rest _
        (LoadLegacyScoresEntry_covers K rct2_to_utf8 l e hdone)
    · exact ih _ e h hdone

/-- The merge of legacy records leaves a table without duplicates unchanged
when the table covers every completed record. -/
theorem LoadLegacyScores_foldl_fixed (K : HeaderConstants)
    (rct2_to_utf8 : utf8string → utf8string) (table : List scenario_highscore_entry)
    (hU : UniqueScenFiles table) (es : List rct_scores_entry) :
    (∀ e ∈ es, legacyCompleted K e → coveredByTable e table) →
      es.foldl (LoadLegacyScoresEntry K rct2_to_utf8) table = table := by
  induction es with
  | nil => intro _; rfl
  | cons a rest ih =>
    intro hc
    have hstep : LoadLegacyScoresEntry K rct2_to_utf8 table a = table := by
      by_cases hdone : legacyCompleted K a
      · exact LoadLegacyScoresEntry_of_covered K rct2_to_utf8 table a hU
          (hc a (List.mem_cons_self _ _) hdone)
      · exact LoadLegacyScoresEntry_of_open K rct2_to_utf8 table a hdone
    rw [List.foldl_cons, hstep]
    exact ih (fun e he => hc e (List.mem_cons_of_mem _ he))

/-- The merge of a list of legacy records into a table without duplicates is
idempotent. -/
theorem LoadLegacyScores_foldl_idempotent (K : HeaderConstants)
    (rct2_to_utf8 : utf8string → utf8string) (es : List rct_scores_entry)
    (l : List scenario_highscore_entry) (hU : UniqueScenFiles l) :
    es.foldl (LoadLegacyScoresEntry K rct2_to_utf8)
        (es.foldl (LoadLegacyScoresEntry K rct2_to_utf8) l)
      = es.foldl (LoadLegacyScoresEntry K rct2_to_utf8) l :=
  LoadLegacyScores_foldl_fixed K rct2_to_utf8 _
    (LoadLegacyScores_foldl_unique K rct2_to_utf8 es l hU) es
    (fun e he hdone => LoadLegacyScores_foldl_covers K rct2_to_utf8 es l e he hdone)


theorem LoadScores_scoresFile (username : utf8string) (repo : ScenarioRepository) :
    (LoadScores username repo).scoresFile = repo.scoresFile := by
  unfold LoadScores
  split
  · rfl
  · split <;> rfl

theorem LoadScores_scenarios (username : utf8string) (repo : ScenarioRepository) :
    (LoadScores username repo)._scenarios = repo._scenarios := by
  unfold LoadScores
  split
  · rfl
  · split <;> rfl

/-- When the score file cannot be read, `LoadScores` keeps the table. -/
theorem LoadScores_highscores_of_unreadable (username : utf8string) (repo : ScenarioRepository)
    (h : ¬ scoresReadable repo) : (LoadScores username repo)._highscores = repo._highscores := by
  unfold LoadScores
  split
  · rfl
  · rename_i store hstore
    split
    · rfl
    · rename_i head hhead
      exact absurd ⟨store, head, hstore, hhead⟩ h

/-- When the score file can be read, the table `LoadScores` leaves depends on
the score file only. -/
theorem LoadScores_highscores_of_readable (username : utf8string) (a b : ScenarioRepository)
    (hfile : a.scoresFile = b.scoresFile) (h : scoresReadable a) :
    (LoadScores username a)._highscores = (LoadScores username b)._highscores := by
  obtain ⟨store, head, hstore, hhead⟩ := h
  have hstore' : b.scoresFile = some store := hfile ▸ hstore
  unfold LoadScores
  simp only [hstore, hstore', hhead]

theorem LoadLegacyScores_scoresFile (K : HeaderConstants)
    (rct2_to_utf8 : utf8string → utf8string) (file : Option LegacyScoresFile)
    (repo : ScenarioRepository) :
    (LoadLegacyScores K rct2_to_utf8 file repo).scoresFile = repo.scoresFile := by
  unfold LoadLegacyScores
  split <;> rfl

theorem LoadLegacyScores_scenarios (K : HeaderConstants)
    (rct2_to_utf8 : utf8string → utf8string) (file : Option LegacyScoresFile)
    (repo : ScenarioRepository) :
    (LoadLegacyScores K rct2_to_utf8 file repo)._scenarios = repo._scenarios := by
  unfold LoadLegacyScores
  split <;> rfl

/-- The table after `LoadLegacyScores()`: the records of the two files are
merged in order. -/
theorem LoadAllLegacyScores_highscores (K : HeaderConstants)
    (rct2_to_utf8 : utf8string → utf8string) (legacyFile rct2File : Option LegacyScoresFile)
    (repo : ScenarioRepository) :
    (LoadAllLegacyScores K rct2_to_utf8 legacyFile rct2File repo)._highscores
      = (legacyEntriesRead legacyFile ++ legacyEntriesRead rct2File).foldl
          (LoadLegacyScoresEntry K rct2_to_utf8) repo._highscores := by
  unfold LoadAllLegacyScores
  rw [LoadLegacyScores_highscores, LoadLegacyScores_highscores, List.foldl_append]

/-- The table `Scan` leaves: the table after `LoadScores` with the records of
the two legacy files merged. -/
theorem ScanRepository_highscores (env : ScanEnvironment) (repo : ScenarioRepository) :
    (ScanRepository env repo)._highscores
      = (legacyEntriesRead env.legacyFile ++ legacyEntriesRead env.rct2File).foldl
          (LoadLegacyScoresEntry env.K env.rct2_to_utf8)
          (LoadScores env.username
            { repo with
              _scenarios := SortScenarios env (AddScenarios [] env.index)
              console := repo.console ++ AddScenariosConsole [] env.index })._highscores := by
  unfold ScanRepository AttachHighscores
  simp only [LoadAllLegacyScores_highscores]

theorem ScanRepository_scoresFile (env : ScanEnvironment) (repo : ScenarioRepository) :
    (ScanRepository env repo).scoresFile = repo.scoresFile := by
  unfold ScanRepository AttachHighscores LoadAllLegacyScores
  simp only [LoadLegacyScores_scoresFile, LoadScores_scoresFile]

/-- The collection `Scan` leaves: the sorted index, with the records of the
final table attached. -/
theorem ScanRepository_scenarios (env : ScanEnvironment) (repo : ScenarioRepository) :
    (ScanRepository env repo)._scenarios
      = AttachHighscoresLoop (ScanRepository env repo)._highscores 0
          (SortScenarios env (AddScenarios [] env.index)) := by
  unfold ScanRepository AttachHighscores LoadAllLegacyScores
  simp only [LoadLegacyScores_scenarios, LoadScores_scenarios]

/-- A second `Scan` leaves the table of the first when the score file can be
read or the table before the first had no duplicates. -/
theorem ScanRepository_highscores_idempotent (env : ScanEnvironment) (repo : ScenarioRepository)
    (h : scoresReadable repo ∨ UniqueScenFiles repo._highscores) :
    (ScanRepository env (ScanRepository env repo))._highscores
      = (ScanRepository env repo)._highscores := by
  by_cases hread : scoresReadable repo
  · rw [ScanRepository_highscores env (ScanRepository env repo), ScanRepository_highscores env repo]
    congr 1
    apply LoadScores_highscores_of_readable
    · exact ScanRepository_scoresFile env repo
    · obtain ⟨store, head, hstore, hhead⟩ := hread
      exact ⟨store, head, by simpa [ScanRepository_scoresFile] using hstore, hhead⟩
  · have hU : UniqueScenFiles repo._highscores := h.resolve_left hread
    have hread' : ¬ scoresReadable (ScanRepository env repo) := by
      rintro ⟨store, head, hstore, hhead⟩
      rw [ScanRepository_scoresFile] at hstore
      exact hread ⟨store, head, hstore, hhead⟩
    rw [ScanRepository_highscores env (ScanRepository env repo),
      LoadScores_highscores_of_unreadable _ _ (by simpa [scoresReadable] using hread'),
      ScanRepository_highscores env repo,
      LoadScores_highscores_of_unreadable _ _ (by simpa [scoresReadable] using hread)]
    exact LoadLegacyScores_foldl_idempotent env.K env.rct2_to_utf8 _ _ hU

/-- Claim C23 fails on the code for some prior states: with no score file,
the sample legacy file (company value 200 for `PARK.SC6`) and a prior table
holding two records for that scenario, with company values 50 and 60, the
first `Scan` upgrades the first record only and the second `Scan` upgrades the
second record too, the one the scenario points to. -/
theorem Scan_twice_differs :
    ((Scan sampleEnvironment sampleDoubleState).2._highscores.map
        (fun h => (h.scen_file, h.company_value))
      = [(some "Park.SC6".toList, 200), (some "park.sc6".toList, 60),
         (some "forest.sc6".toList, 250)]) ∧
    ((Scan sampleEnvironment (Scan sampleEnvironment sampleDoubleState)).2._highscores.map
        (fun h => (h.scen_file, h.company_value))
      = [(some "Park.SC6".toList, 200), (some "park.sc6".toList, 200),
         (some "forest.sc6".toList, 250)]) ∧
    (Scan sampleEnvironment (Scan sampleEnvironment sampleDoubleState)).2._highscores
      ≠ (Scan sampleEnvironment sampleDoubleState).2._highscores ∧
    attachedHighscore (Scan sampleEnvironment (Scan sampleEnvironment sampleDoubleState)).2
        (some "park.sc6".toList)
      ≠ attachedHighscore (Scan sampleEnvironment sampleDoubleState).2 (some "park.sc6".toList) := by
  decide

/-- Claim C23, amended: with the environment (index, legacy score files, sort
function) and the score file fixed, when the score file can be read, or the
highscore table of the prior state has no two records with the same file
name ignoring case, a second `Scan` in succession leaves the files of the
park import, the ordered scenario collection with its pointers to the
records, and the highscore table as the first `Scan` left them. -/
theorem Scan_idempotent (env : ScanEnvironment) (state : MegaParkFiles × ScenarioRepository)
    (h : scoresReadable state.2 ∨ UniqueScenFiles state.2._highscores) :
    (Scan env (Scan env state)).1 = (Scan env state).1 ∧
    (Scan env (Scan env state)).2._scenarios = (Scan env state).2._scenarios ∧
    (Scan env (Scan env state)).2._highscores = (Scan env state).2._highscores ∧
    (∀ filename, attachedHighscore (Scan env (Scan env state)).2 filename
      = attachedHighscore (Scan env state).2 filename) := by
  have htable := ScanRepository_highscores_idempotent env state.2 h
  have hscen : (ScanRepository env (ScanRepository env state.2))._scenarios
      = (ScanRepository env state.2)._scenarios := by
    rw [ScanRepository_scenarios env (ScanRepository env state.2),
      ScanRepository_scenarios env state.2, htable]
  refine ⟨?_, hscen, htable, ?_⟩
  · obtain ⟨⟨mpdat, sc21, dir⟩, repo⟩ := state
    cases mpdat <;> cases sc21 <;> simp [Scan, ImportMegaPark, ConvertMegaPark]
  · intro filename
    simp only [Scan, attachedHighscore, hscen, htable]

/-- Witness for claim C23: the sample repository with its table of one record
and no score file. -/
theorem Scan_idempotent_witness :
    (scoresReadable (sampleMegaPark, sampleLegacyRepo).2
      ∨ UniqueScenFiles (sampleMegaPark, sampleLegacyRepo).2._highscores) ∧
    (Scan sampleEnvironment (Scan sampleEnvironment (sampleMegaPark, sampleLegacyRepo))).1
      = (Scan sampleEnvironment (sampleMegaPark, sampleLegacyRepo)).1 ∧
    (Scan sampleEnvironment (Scan sampleEnvironment (sampleMegaPark, sampleLegacyRepo))).2._scenarios
      = (Scan sampleEnvironment (sampleMegaPark, sampleLegacyRepo)).2._scenarios ∧
    (Scan sampleEnvironment (Scan sampleEnvironment (sampleMegaPark, sampleLegacyRepo))).2._highscores
      = (Scan sampleEnvironment (sampleMegaPark, sampleLegacyRepo)).2._highscores ∧
    (Scan sampleEnvironment (sampleMegaPark, sampleLegacyRepo)).2._highscores.map
        (fun h => (h.scen_file, h.company_value))
      = [(some "Park.SC6".toList, 300), (some "forest.sc6".toList, 250)] :=
  have hU : scoresReadable (sampleMegaPark, sampleLegacyRepo).2
      ∨ UniqueScenFiles (sampleMegaPark, sampleLegacyRepo).2._highscores :=
    Or.inr (by simp [UniqueScenFiles, sampleLegacyRepo, sampleTable])
  ⟨hU, (Scan_idempotent sampleEnvironment (sampleMegaPark, sampleLegacyRepo) hU).1,
    (Scan_idempotent sampleEnvironment (sampleMegaPark, sampleLegacyRepo) hU).2.1,
    (Scan_idempotent sampleEnvironment (sampleMegaPark, sampleLegacyRepo) hU).2.2.1,
    by decide⟩


/-! ## Theorems: the frame of `AddScenario` and the catalog match -/

/-- Claim C31: when the file name of `entry` is not empty and collides with the
entry `existingEntry` that `GetByFilename` finds at position `i`, `AddScenario`
leaves the length of the collection and every entry at another position
unchanged; position `i` then holds `entry` when the time stamp of
`existingEntry` is greater and `existingEntry` otherwise, so it is left
unchanged when the two time stamps are equal. -/
theorem AddScenario_collision_frame (scenarios : List scenario_index_entry)
    (entry existingEntry : scenario_index_entry)
    (hname : Path.GetFileName entry.path ≠ [])
    (hfound : GetByFilename scenarios (some (Path.GetFileName entry.path)) = some existingEntry) :
    (AddScenario scenarios entry).1.length = scenarios.length ∧
    (∀ j, j ≠ GetByFilenameIndex scenarios (some (Path.GetFileName entry.path)) →
      (AddScenario scenarios entry).1[j]? = scenarios[j]?) ∧
    scenarios[GetByFilenameIndex scenarios (some (Path.GetFileName entry.path))]?
      = some existingEntry ∧
    (AddScenario scenarios entry).1[GetByFilenameIndex scenarios
        (some (Path.GetFileName entry.path))]?
      = some (if existingEntry.timestamp > entry.timestamp then entry else existingEntry) ∧
    (existingEntry.timestamp = entry.timestamp → (AddScenario scenarios entry).1 = scenarios) := by
  have hidx : scenarios[GetByFilenameIndex scenarios (some (Path.GetFileName entry.path))]?
      = some existingEntry := getElem?_findIdx_of_find? hfound
  have hlt : GetByFilenameIndex scenarios (some (Path.GetFileName entry.path)) < scenarios.length :=
    (List.getElem?_eq_some.1 hidx).1
  have hne : (!String.Equals (some (Path.GetFileName entry.path)) (some []) false) = true := by
    simp [String.Equals, hname]
  have hres : (AddScenario scenarios entry).1
      = if existingEntry.timestamp > entry.timestamp then
          scenarios.set (GetByFilenameIndex scenarios (some (Path.GetFileName entry.path))) entry
        else scenarios := by
    unfold AddScenario
    simp only [hne, if_true, hfound]
    split <;> rfl
  rw [hres]
  by_cases hts : existingEntry.timestamp > entry.timestamp
  · rw [if_pos hts, if_pos hts]
    refine ⟨List.length_set _ _ _, ?_, hidx, ?_, ?_⟩
    · intro j hj
      exact List.getElem?_set_ne (Ne.symm hj)
    · exact List.getElem?_set_self hlt
    · intro heq
      omega
  · rw [if_neg hts, if_neg hts]
    exact ⟨rfl, fun _ _ => rfl, hidx, hidx, fun _ => rfl⟩

/-- Witness for claim C31: the older copy of `park.sc6` collides with the
newer one at position 0 and replaces it in place; the newer copy collides
with the older one and leaves the collection unchanged, and so does a copy
with the same time stamp. -/
theorem AddScenario_collision_frame_witness :
    ((AddScenario [sampleNewer, sampleLake] sampleOlder).1.length
        = [sampleNewer, sampleLake].length ∧
      (∀ j, j ≠ GetByFilenameIndex [sampleNewer, sampleLake]
          (some (Path.GetFileName sampleOlder.path)) →
        (AddScenario [sampleNewer, sampleLake] sampleOlder).1[j]?
          = [sampleNewer, sampleLake][j]?) ∧
      [sampleNewer, sampleLake][GetByFilenameIndex [sampleNewer, sampleLake]
          (some (Path.GetFileName sampleOlder.path))]? = some sampleNewer ∧
      (AddScenario [sampleNewer, sampleLake] sampleOlder).1[GetByFilenameIndex
          [sampleNewer, sampleLake] (some (Path.GetFileName sampleOlder.path))]?
        = some (if sampleNewer.timestamp > sampleOlder.timestamp then sampleOlder
            else sampleNewer) ∧
      (sampleNewer.timestamp = sampleOlder.timestamp →
        (AddScenario [sampleNewer, sampleLake] sampleOlder).1
          = [sampleNewer, sampleLake])) ∧
    (AddScenario [sampleNewer, sampleLake] sampleOlder).1 = [sampleOlder, sampleLake] ∧
    (AddScenario [sampleOlder, sampleLake] sampleNewer).1 = [sampleOlder, sampleLake] ∧
    (AddScenario [sampleOlder, sampleLake] { sampleNewer with timestamp := 5 }).1
      = [sampleOlder, sampleLake] :=
  ⟨AddScenario_collision_frame [sampleNewer, sampleLake] sampleOlder sampleNewer
      (by decide) (by decide),
    by decide, by decide, by decide⟩

/-- Claim C32: for every chunked-container scenario whose name, as looked up,
has the descriptor `desc` in the source catalog, the entry built by
`CreateNewScenarioEntry` has the scenario id, the source index, the source
game and the category of `desc`, whatever category the file declares. -/
theorem CreateNewScenarioEntry_with_catalog_match (K : HeaderConstants) (env : Collaborators)
    (path : utf8string) (timestamp : Nat) (s6Info : rct_s6_info) (desc : source_desc)
    (hdesc : env.TryGetByName
      (untranslatedName K env (String.Set K.sizeofPath path) s6Info) = some desc) :
    (CreateNewScenarioEntry K env path timestamp s6Info).sc_id = desc.id ∧
    (CreateNewScenarioEntry K env path timestamp s6Info).source_index = desc.index ∧
    (CreateNewScenarioEntry K env path timestamp s6Info).source_game = desc.source ∧
    (CreateNewScenarioEntry K env path timestamp s6Info).category = desc.category := by
  unfold CreateNewScenarioEntry
  obtain ⟨h1, h2, h3, h4, _, _⟩ := scenario_translate_fields K env
    (CreateNewScenarioEntryUntranslated K env path timestamp s6Info) s6Info.entry
  rw [h1, h2, h3, h4,
    CreateNewScenarioEntryUntranslated_of_some K env path timestamp s6Info desc hdesc]
  exact ⟨rfl, rfl, rfl, rfl⟩

/-- Witness for claim C32: the sample scenario declares the category
"beginner" (0) and gets the category 3 of its catalog descriptor. -/
theorem CreateNewScenarioEntry_with_catalog_match_witness :
    sampleInfo.category = 0 ∧
    (CreateNewScenarioEntry openrct2Constants sampleCatalogCollaborators "C:/s/forest.sc6".toList 9
      sampleInfo).sc_id = 7 ∧
    (CreateNewScenarioEntry openrct2Constants sampleCatalogCollaborators "C:/s/forest.sc6".toList 9
      sampleInfo).source_index = 12 ∧
    (CreateNewScenarioEntry openrct2Constants sampleCatalogCollaborators "C:/s/forest.sc6".toList 9
      sampleInfo).source_game = 2 ∧
    (CreateNewScenarioEntry openrct2Constants sampleCatalogCollaborators "C:/s/forest.sc6".toList 9
      sampleInfo).category = 3 :=
  ⟨rfl, CreateNewScenarioEntry_with_catalog_match openrct2Constants sampleCatalogCollaborators
    "C:/s/forest.sc6".toList 9 sampleInfo
    { title := "My Park".toList, id := 7, source := 2, index := 12, category := 3 } (by decide)⟩


/-! ## Theorems: what the checksum covers -/

theorem toU32_lt (i : Int) : toU32 i < 4294967296 := by
  have h := toU32_cast i
  have h2 : i % 4294967296 < 4294967296 := Int.emod_lt_of_pos _ (by norm_num)
  omega

theorem toS32_injOn {n m : Nat} (hn : n < 4294967296) (hm : m < 4294967296)
    (h : toS32 n = toS32 m) : n = m := by
  unfold toS32 at h
  split_ifs at h <;> omega

/-- The checksum of a record determines the low 32 bits of its company value,
for a given time stamp and day count. -/
theorem checksum_company_value_inj (t d c c' : Int)
    (h : toS32 ((toU32 t ^^^ toU32 (t * 2 ^ 8 + c + c * 2 ^ 16 + d * 2 ^ 8)) ^^^ 0x9E3779B9)
      = toS32 ((toU32 t ^^^ toU32 (t * 2 ^ 8 + c' + c' * 2 ^ 16 + d * 2 ^ 8)) ^^^ 0x9E3779B9)) :
    c % 4294967296 = c' % 4294967296 := by
  have hK : (0x9E3779B9 : Nat) < 2 ^ 32 := by norm_num
  have hb : ∀ x y : Int, (toU32 x ^^^ toU32 y) ^^^ 0x9E3779B9 < 4294967296 := by
    intro x y
    have h1 : toU32 x < 2 ^ 32 := toU32_lt x
    have h2 : toU32 y < 2 ^ 32 := toU32_lt y
    exact Nat.xor_lt_two_pow (Nat.xor_lt_two_pow h1 h2) hK
  have h1 := toS32_injOn (hb _ _) (hb _ _) h
  have h2 := Nat.xor_left_injective h1
  have h3 := Nat.xor_right_injective h2
  have h4 := toU32_cast (t * 2 ^ 8 + c + c * 2 ^ 16 + d * 2 ^ 8)
  have h5 := toU32_cast (t * 2 ^ 8 + c' + c' * 2 ^ 16 + d * 2 ^ 8)
  rw [h3] at h4
  rw [h4] at h5
  norm_num at h5
  omega

/-- Claim C33: two records with the same time stamp and the same
`record_days` whose company values are different 32-bit values have different
checksums; so a section whose stored checksum is the checksum of the one,
while its fields load as the other, is quarantined: the winner is cleared,
the company value and the days are set to 0 and the mismatch is reported. -/
theorem checksum_detects_company_value (a b : scenario_highscore_entry)
    (hts : a.timestamp = b.timestamp) (hdays : a.record_days = b.record_days)
    (ha : -2147483648 ≤ a.company_value ∧ a.company_value < 2147483648)
    (hb : -2147483648 ≤ b.company_value ∧ b.company_value < 2147483648)
    (hne : a.company_value ≠ b.company_value) :
    checksum a ≠ checksum b ∧
    ∀ sec : ScoreSection, LoadScoresFields sec = b → sec.checksum = some (checksum a) →
      LoadScoresEntry sec
        = ({ b with scen_winner := none, company_value := 0, record_days := 0 },
            [Diagnostic.checksumMismatch]) := by
  have hck : checksum a ≠ checksum b := by
    intro h
    rw [checksum_formula, checksum_formula, hts, hdays] at h
    have := checksum_company_value_inj _ _ _ _ h
    omega
  refine ⟨hck, ?_⟩
  intro sec hsec hstored
  unfold LoadScoresEntry
  simp only [hsec, hstored, Option.getD_some]
  rw [if_pos (Ne.symm hck)]

/-- Witness for claim C33: the sample section and the same section with the
company value altered from 1234.5 to 9999.9. -/
theorem checksum_detects_company_value_witness :
    (checksum (LoadScoresFields sampleSection) ≠ checksum (LoadScoresFields sampleTamperedSection) ∧
      ∀ sec : ScoreSection, LoadScoresFields sec = LoadScoresFields sampleTamperedSection →
        sec.checksum = some (checksum (LoadScoresFields sampleSection)) →
        LoadScoresEntry sec
          = ({ LoadScoresFields sampleTamperedSection with
                scen_winner := none, company_value := 0, record_days := 0 },
              [Diagnostic.checksumMismatch])) ∧
    (LoadScoresFields sampleSection).company_value = 12345 ∧
    (LoadScoresFields sampleTamperedSection).company_value = 99999 ∧
    sampleTamperedSection.checksum = some (checksum (LoadScoresFields sampleSection)) ∧
    LoadScoresEntry sampleTamperedSection
      = ({ scen_file := some "other.sc6".toList, scen_winner := none, company_value := 0,
           timestamp := 1000, record_days := 0 }, [Diagnostic.checksumMismatch]) :=
  ⟨checksum_detects_company_value (LoadScoresFields sampleSection)
      (LoadScoresFields sampleTamperedSection) (by decide) (by decide) (by decide) (by decide)
      (by decide),
    by decide, by decide, by decide, by decide⟩

/-- Claim C38: the checksum of a record depends on its time stamp, company
value and day count only, not on `scen_file` or `scen_winner`; so when
`LoadScores` accepts a section, it also accepts, without diagnostic, the
section with any other `file` and `winner` texts and the same checksum, and
loads these texts. -/
theorem checksum_ignores_texts :
    (∀ a b : scenario_highscore_entry, a.timestamp = b.timestamp →
      a.company_value = b.company_value → a.record_days = b.record_days →
      checksum a = checksum b) ∧
    (∀ (sec : ScoreSection) (file winner : Option utf8string),
      (LoadScoresEntry sec).2 = [] →
      LoadScoresEntry { sec with file := file, winner := winner }
        = ({ (LoadScoresEntry sec).1 with
              scen_file := some (file.getD "error".toList)
              scen_winner := some (winner.getD "error".toList) }, [])) := by
  have hck : ∀ a b : scenario_highscore_entry, a.timestamp = b.timestamp →
      a.company_value = b.company_value → a.record_days = b.record_days →
      checksum a = checksum b := by
    intro a b h1 h2 h3
    unfold checksum
    rw [h1, h2, h3]
  refine ⟨hck, ?_⟩
  intro sec file winner hok
  have hsame : checksum (LoadScoresFields { sec with file := file, winner := winner })
      = checksum (LoadScoresFields sec) := hck _ _ rfl rfl rfl
  unfold LoadScoresEntry at hok ⊢
  by_cases hbad : checksum (LoadScoresFields sec) ≠ sec.checksum.getD 0
  · rw [if_pos hbad] at hok
    exact absurd hok (by simp)
  · rw [if_neg hbad]
    rw [if_neg (by rw [hsame]; exact hbad)]
    rfl

/-- Witness for claim C38: the sample section with the winner changed from
Bob to Mallory and the file changed is loaded without diagnostic. -/
theorem checksum_ignores_texts_witness :
    (LoadScoresEntry sampleSection).2 = [] ∧
    LoadScoresEntry { sampleSection with
        file := some "other.sc6".toList, winner := some "Mallory".toList }
      = ({ scen_file := some "other.sc6".toList, scen_winner := some "Mallory".toList,
           company_value := 12345, timestamp := 1000, record_days := 10 }, []) ∧
    LoadScoresEntry { sampleSection with
        file := some "other.sc6".toList, winner := some "Mallory".toList }
      = ({ (LoadScoresEntry sampleSection).1 with
            scen_file := some ((some "other.sc6".toList).getD "error".toList)
            scen_winner := some ((some "Mallory".toList).getD "error".toList) }, []) :=
  ⟨by decide, by decide,
    checksum_ignores_texts.2 sampleSection (some "other.sc6".toList) (some "Mallory".toList)
      (by decide)⟩


/-! ## Theorems: the scale of the company value, the park conversion, the epoch -/

theorem moneyOfDecimal_tenth (v : Int) :
    moneyOfDecimal ⟨v, 1⟩ = if 0 ≤ v then v else v + 1 := by
  unfold moneyOfDecimal
  simp only [pow_one]
  split
  · rw [Int.tdiv_eq_ediv (by omega) (by omega)]
    omega
  · have h : 20 * v + 10 = -(20 * (-v - 1) + 10) := by ring
    rw [h, Int.neg_tdiv, Int.tdiv_eq_ediv (by omega) (by omega)]
    omega

/-- Claim C34 fails on the code for negative company values: `SaveHighscores`
writes the company value `v` as the decimal `v / 10`, and the conversion of
`LoadScores`, `x * 10 + 0.5` truncated toward zero, gives back `v` when `v` is
not negative and `v + 1` when it is. The record with company value -1234 that
the program saved is loaded with -1233, fails its checksum and is quarantined. -/
theorem SaveHighscores_company_value_round_trip :
    (∀ highscore : scenario_highscore_entry,
      (SaveHighscoresEntry highscore).company_value = some ⟨highscore.company_value, 1⟩ ∧
      (LoadScoresFields (SaveHighscoresEntry highscore)).company_value
        = if 0 ≤ highscore.company_value then highscore.company_value
          else highscore.company_value + 1) ∧
    (LoadScoresFields (SaveHighscoresEntry
      { scen_file := some "park.sc6".toList, scen_winner := some "Bob".toList,
        company_value := -1234, timestamp := 1000, record_days := 10 })).company_value = -1233 ∧
    LoadScoresEntry (SaveHighscoresEntry
      { scen_file := some "park.sc6".toList, scen_winner := some "Bob".toList,
        company_value := -1234, timestamp := 1000, record_days := 10 })
      = ({ scen_file := some "park.sc6".toList, scen_winner := none, company_value := 0,
           timestamp := 1000, record_days := 0 }, [Diagnostic.checksumMismatch]) := by
  refine ⟨?_, by decide, by decide⟩
  intro highscore
  refine ⟨rfl, ?_⟩
  simp only [LoadScoresFields, SaveHighscoresEntry, Option.getD_some]
  exact moneyOfDecimal_tenth highscore.company_value

set_option maxRecDepth 100000 in
theorem rol8_four : ∀ b, b < 256 →
    rol8 b 4 = (b % 16) * 16 + b / 16 ∧ rol8 b 4 < 256 ∧ rol8 (rol8 b 4) 4 = b := by
  decide

/-- Claim C36: for every content of `mp.dat`, a sequence of bytes,
`ConvertMegaPark` writes to `sc21.sc4` a sequence of the same length whose
byte at each position is the byte of `mp.dat` at that position rotated left by
4 bits, which is the byte with its two nibbles swapped; the same
transformation applied to the result gives back the content of `mp.dat`. -/
theorem ConvertMegaPark_nibble_rotation (files : MegaParkFiles) (mpdat : List Nat)
    (hfile : files.mpdat = some mpdat) (hbytes : ∀ b ∈ mpdat, b < 256) :
    ∃ sc21, (ConvertMegaPark files).sc21 = some sc21 ∧
      sc21.length = mpdat.length ∧
      (∀ (i : Nat) (b : Nat), mpdat[i]? = some b →
        sc21[i]? = some (rol8 b 4) ∧ rol8 b 4 = (b % 16) * 16 + b / 16) ∧
      sc21.map (fun byte => rol8 byte 4) = mpdat ∧
      (ConvertMegaPark { files with mpdat := some sc21 }).sc21 = some mpdat := by
  have htwice : (mpdat.map (fun byte => rol8 byte 4)).map (fun byte => rol8 byte 4) = mpdat := by
    rw [List.map_map]
    conv_rhs => rw [← List.map_id mpdat]
    apply List.map_congr_left
    intro b hb
    exact (rol8_four b (hbytes b hb)).2.2
  refine ⟨mpdat.map (fun byte => rol8 byte 4), ?_, List.length_map _ _, ?_, htwice, ?_⟩
  · unfold ConvertMegaPark
    simp only [hfile]
  · intro i b hb
    refine ⟨?_, (rol8_four b (hbytes b (List.getElem?_mem hb))).1⟩
    rw [List.getElem?_map, hb]
    rfl
  · unfold ConvertMegaPark
    simp only [htwice]

/-- Witness for claim C36: the three bytes 12, AB, F0 become 21, BA, 0F. -/
theorem ConvertMegaPark_nibble_rotation_witness :
    (∃ sc21, (ConvertMegaPark sampleMegaPark).sc21 = some sc21 ∧
      sc21.length = [0x12, 0xAB, 0xF0].length ∧
      (∀ (i : Nat) (b : Nat), [0x12, 0xAB, 0xF0][i]? = some b →
        sc21[i]? = some (rol8 b 4) ∧ rol8 b 4 = (b % 16) * 16 + b / 16) ∧
      sc21.map (fun byte => rol8 byte 4) = [0x12, 0xAB, 0xF0] ∧
      (ConvertMegaPark { sampleMegaPark with mpdat := some sc21 }).sc21
        = some [0x12, 0xAB, 0xF0]) ∧
    (ConvertMegaPark sampleMegaPark).sc21 = some [0x21, 0xBA, 0x0F] :=
  ⟨ConvertMegaPark_nibble_rotation sampleMegaPark [0x12, 0xAB, 0xF0] rfl (by decide),
    by decide⟩

/-- The time stamp of `TryRecordHighscore` for a clock reading that is not
before the epoch of the code and fits 64 bits. -/
theorem highscoreTimestamp_eq (now : Nat) (hlo : 630177204000000000 ≤ now)
    (hhi : now < 18446744073709551616) :
    highscoreTimestamp now = (now / 10000000 : Nat) - 63017720400 := by
  unfold highscoreTimestamp
  rw [Nat.mod_eq_of_lt hhi]
  have h1 : 63017720400 ≤ now / 10000000 := by omega
  have h2 : now / 10000000 < 18446744073709551616 := by omega
  omega

/-- Claim C37 fails on the code: the number of seconds from 0001-01-01 to
2000-01-01 in the proleptic Gregorian calendar is 63082281600 (730119 days),
not 63017720400. With the clock in ticks of 100 nanoseconds from 0001-01-01,
the time stamp `TryRecordHighscore` computes at 2000-01-01T00:00:00 UTC is
64561200, not 0, and at every later reading that fits 64 bits it is 64561200
more than the seconds elapsed since 2000-01-01T00:00:00 UTC. -/
theorem highscoreTimestamp_epoch :
    daysBeforeYear 2000 = 730119 ∧
    secondsBeforeYear 2000 = 63082281600 ∧
    secondsBeforeYear 2000 ≠ 63017720400 ∧
    secondsBeforeYear 1970 * 10000000 = 621355968000000000 ∧
    secondsSince2000AsSpecified 630822816000000000 = 0 ∧
    highscoreTimestamp 630822816000000000 = 64561200 ∧
    (∀ now : Nat, 630822816000000000 ≤ now → now < 18446744073709551616 →
      highscoreTimestamp now = secondsSince2000AsSpecified now + 64561200) := by
  refine ⟨by decide, by decide, by decide, by decide, by decide, by decide, ?_⟩
  intro now hlo hhi
  rw [highscoreTimestamp_eq now (by omega) hhi]
  have h : secondsBeforeYear 2000 = 63082281600 := by decide
  unfold secondsSince2000AsSpecified
  rw [h]
  omega


/-! ## Theorems: what `AttachHighscores` joins -/

/-- The first match, if any, is the element at the position `findIdx` returns. -/
theorem find?_eq_getElem?_findIdx {α : Type} (p : α → Bool) (l : List α) :
    l.find? p = l[l.findIdx p]? := by
  induction l with
  | nil => rfl
  | cons a t ih =>
    by_cases ha : p a = true
    · simp [List.find?_cons, List.findIdx_cons, ha]
    · have ha' : p a = false := by simpa using ha
      simp [List.find?_cons, List.findIdx_cons, ha', ih]

/-- Overwriting one element by an element on which the test gives the same
answer does not move the position of the first match. -/
theorem findIdx_set_of_same_test {α : Type} {p : α → Bool} {l : List α} :
    ∀ (i : Nat) (x y : α), l[i]? = some x → p y = p x →
      (l.set i y).findIdx p = l.findIdx p := by
  induction l with
  | nil => intro i x y hi; simp at hi
  | cons a t ih =>
    intro i x y hi hp
    cases i with
    | zero =>
      simp only [List.getElem?_cons_zero, Option.some.injEq] at hi
      subst hi
      simp [List.findIdx_cons, hp]
    | succ j =>
      simp only [List.getElem?_cons_succ] at hi
      simp [List.findIdx_cons, ih j x y hi hp]

/-- The state of one position of the collection after the loop of
`AttachHighscores`: the entry is unchanged when no record finds this
position, and points to the last record that finds it otherwise. -/
theorem AttachHighscoresLoop_getElem (todo : List scenario_highscore_entry) :
    ∀ (k : Nat) (scenarios : List scenario_index_entry) (j : Nat) (s : scenario_index_entry),
    scenarios[j]? = some s →
    ((∀ h ∈ todo, GetByFilenameIndex scenarios h.scen_file ≠ j) ∧
      (AttachHighscoresLoop todo k scenarios)[j]? = some s) ∨
    (∃ (i : Nat) (h : scenario_highscore_entry), todo[i]? = some h ∧
      GetByFilenameIndex scenarios h.scen_file = j ∧
      (∀ (i' : Nat) (h' : scenario_highscore_entry), i < i' → todo[i']? = some h' →
        GetByFilenameIndex scenarios h'.scen_file ≠ j) ∧
      (AttachHighscoresLoop todo k scenarios)[j]? = some { s with highscore := some (k + i) }) := by
  induction todo with
  | nil =>
    intro k scenarios j s hj
    left
    exact ⟨fun h hh => (List.not_mem_nil h hh).elim, hj⟩
  | cons h rest ih =>
    intro k scenarios j s hj
    have hjlt : j < scenarios.length := (List.getElem?_eq_some.1 hj).1
    unfold AttachHighscoresLoop
    cases hfind : GetByFilename scenarios h.scen_file with
    | none =>
      simp only []
      have hmiss : GetByFilenameIndex scenarios h.scen_file ≠ j := by
        intro heq
        have h1 : GetByFilename scenarios h.scen_file = scenarios[j]? := by
          rw [← heq]
          exact find?_eq_getElem?_findIdx _ _
        rw [hfind, hj] at h1
        cases h1
      rcases ih (k + 1) scenarios j s hj with ⟨hno, hres⟩ | ⟨i, g, hg, hhit, hlast, hres⟩
      · left
        refine ⟨?_, hres⟩
        intro g hg
        rcases List.mem_cons.1 hg with heq | hmem
        · rw [heq]; exact hmiss
        · exact hno g hmem
      · right
        refine ⟨i + 1, g, by simpa using hg, hhit, ?_, ?_⟩
        · intro i' h' hlt hh'
          cases i' with
          | zero => omega
          | succ i'' =>
            exact hlast i'' h' (by omega) (by simpa using hh')
        · rw [hres]
          have : k + 1 + i = k + (i + 1) := by omega
          rw [this]
    | some s0 =>
      simp only []
      have hidx : scenarios[GetByFilenameIndex scenarios h.scen_file]? = some s0 :=
        getElem?_findIdx_of_find? hfind
      have hF : ∀ f : Option utf8string,
          GetByFilenameIndex (scenarios.set (GetByFilenameIndex scenarios h.scen_file)
            { s0 with highscore := some k }) f = GetByFilenameIndex scenarios f := by
        intro f
        unfold GetByFilenameIndex
        exact findIdx_set_of_same_test _ s0 _ hidx rfl
      by_cases hj0 : GetByFilenameIndex scenarios h.scen_file = j
      · have hs0 : s0 = s := by
          rw [hj0, hj] at hidx
          exact (Option.some.inj hidx).symm
        subst hs0
        have hj1 : (scenarios.set (GetByFilenameIndex scenarios h.scen_file)
            { s0 with highscore := some k })[j]? = some { s0 with highscore := some k } := by
          rw [hj0]
          exact List.getElem?_set_self hjlt
        right
        rcases ih (k + 1) _ j _ hj1 with ⟨hno, hres⟩ | ⟨i, g, hg, hhit, hlast, hres⟩
        · refine ⟨0, h, List.getElem?_cons_zero, hj0, ?_, ?_⟩
          · intro i' h' hlt hh'
            cases i' with
            | zero => omega
            | succ i'' =>
              have hmem : h' ∈ rest := List.getElem?_mem (by simpa using hh')
              have := hno h' hmem
              rwa [hF] at this
          · rw [hres]
            rfl
        · refine ⟨i + 1, g, by simpa using hg, by rw [← hF]; exact hhit, ?_, ?_⟩
          · intro i' h' hlt hh'
            cases i' with
            | zero => omega
            | succ i'' =>
              have := hlast i'' h' (by omega) (by simpa using hh')
              rwa [hF] at this
          · rw [hres]
            have : k + 1 + i = k + (i + 1) := by omega
            rw [this]
      · have hj1 : (scenarios.set (GetByFilenameIndex scenarios h.scen_file)
            { s0 with highscore := some k })[j]? = some s := by
          rw [List.getElem?_set_ne hj0]
          exact hj
        rcases ih (k + 1) _ j s hj1 with ⟨hno, hres⟩ | ⟨i, g, hg, hhit, hlast, hres⟩
        · left
          refine ⟨?_, hres⟩
          intro g hg
          rcases List.mem_cons.1 hg with heq | hmem
          · rw [heq]; exact hj0
          · have := hno g hmem
            rwa [hF] at this
        · right
          refine ⟨i + 1, g, by simpa using hg, by rw [← hF]; exact hhit, ?_, ?_⟩
          · intro i' h' hlt hh'
            cases i' with
            | zero => omega
            | succ i'' =>
              have := hlast i'' h' (by omega) (by simpa using hh')
              rwa [hF] at this
          · rw [hres]
            have : k + 1 + i = k + (i + 1) := by omega
            rw [this]

theorem AttachHighscoresLoop_length (todo : List scenario_highscore_entry) :
    ∀ (k : Nat) (scenarios : List scenario_index_entry),
      (AttachHighscoresLoop todo k scenarios).length = scenarios.length := by
  induction todo with
  | nil => intro k scenarios; rfl
  | cons h rest ih =>
    intro k scenarios
    unfold AttachHighscoresLoop
    split
    · rw [ih, List.length_set]
    · rw [ih]

/-- The loop of `AttachHighscores` does not move the entry `GetByFilename`
finds for a file name. -/
theorem AttachHighscoresLoop_findIdx (todo : List scenario_highscore_entry) :
    ∀ (k : Nat) (scenarios : List scenario_index_entry) (f : Option utf8string),
      GetByFilenameIndex (AttachHighscoresLoop todo k scenarios) f
        = GetByFilenameIndex scenarios f := by
  induction todo with
  | nil => intro k scenarios f; rfl
  | cons h rest ih =>
    intro k scenarios f
    unfold AttachHighscoresLoop
    cases hfind : GetByFilename scenarios h.scen_file with
    | none => exact ih _ _ f
    | some s0 =>
      simp only []
      rw [ih]
      unfold GetByFilenameIndex
      exact findIdx_set_of_same_test _ s0 _ (getElem?_findIdx_of_find? hfind) rfl

/-- A record finds the position `j` exactly when its `scen_file` equals,
ignoring case, the file name of the first entry with that file name. -/
theorem filenameMatches_of_index {scenarios : List scenario_index_entry}
    {f : Option utf8string} {j : Nat} {s : scenario_index_entry}
    (hj : scenarios[j]? = some s) (hidx : GetByFilenameIndex scenarios f = j) :
    GetByFilename scenarios f = some s ∧
    String.Equals f (some (Path.GetFileName s.path)) true = true := by
  have h1 : GetByFilename scenarios f = some s := by
    unfold GetByFilename
    rw [find?_eq_getElem?_findIdx]
    unfold GetByFilenameIndex at hidx
    rw [hidx, hj]
  exact ⟨h1, filenameMatches_of_find h1⟩

/-- Claim C35: `AttachHighscores` leaves the table and the length of the
collection, and changes no field of an entry other than its reference. The
reference of an entry afterwards is its previous one or the position of a
record whose `scen_file` equals the file name of the entry ignoring case; so
when no entry had a reference before, every entry with a reference points to
such a record. For a record whose `scen_file` finds the scenario `s` (the first
entry with that file name), `s` afterwards points to the last record whose
`scen_file` equals the file name of `s` ignoring case, which is this record
unless a later one replaced it. An entry whose file name equals the
`scen_file` of no record is left as it was. -/
theorem AttachHighscores_joins_on_filename (repo : ScenarioRepository) :
    (AttachHighscores repo)._highscores = repo._highscores ∧
    (AttachHighscores repo)._scenarios.length = repo._scenarios.length ∧
    (∀ (j : Nat) (s' : scenario_index_entry), (AttachHighscores repo)._scenarios[j]? = some s' →
      ∃ s, repo._scenarios[j]? = some s ∧ s' = { s with highscore := s'.highscore } ∧
        (s'.highscore = s.highscore ∨
          ∃ k h, s'.highscore = some k ∧ repo._highscores[k]? = some h ∧
            String.Equals h.scen_file (some (Path.GetFileName s'.path)) true = true)) ∧
    ((∀ s ∈ repo._scenarios, s.highscore = none) →
      ∀ s' ∈ (AttachHighscores repo)._scenarios, ∀ k, s'.highscore = some k →
        ∃ h, repo._highscores[k]? = some h ∧
          String.Equals h.scen_file (some (Path.GetFileName s'.path)) true = true) ∧
    (∀ (k : Nat) (h : scenario_highscore_entry) (s : scenario_index_entry),
      repo._highscores[k]? = some h → GetByFilename repo._scenarios h.scen_file = some s →
      ∃ (k' : Nat) (h' : scenario_highscore_entry), k ≤ k' ∧ repo._highscores[k']? = some h' ∧
        String.Equals h'.scen_file (some (Path.GetFileName s.path)) true = true ∧
        GetByFilename (AttachHighscores repo)._scenarios h.scen_file
          = some { s with highscore := some k' } ∧
        (∀ (k'' : Nat) (h'' : scenario_highscore_entry), k' < k'' →
          repo._highscores[k'']? = some h'' →
          String.Equals h''.scen_file (some (Path.GetFileName s.path)) true = false)) ∧
    (∀ (j : Nat) (s : scenario_index_entry), repo._scenarios[j]? = some s →
      (∀ h ∈ repo._highscores,
        String.Equals h.scen_file (some (Path.GetFileName s.path)) true = false) →
      (AttachHighscores repo)._scenarios[j]? = some s) := by
  have hpos : ∀ (j : Nat) (s' : scenario_index_entry),
      (AttachHighscores repo)._scenarios[j]? = some s' →
      ∃ s, repo._scenarios[j]? = some s ∧ s' = { s with highscore := s'.highscore } ∧
        (s'.highscore = s.highscore ∨
          ∃ k h, s'.highscore = some k ∧ repo._highscores[k]? = some h ∧
            String.Equals h.scen_file (some (Path.GetFileName s'.path)) true = true) := by
    intro j s' hs'
    have hjlt : j < repo._scenarios.length := by
      have := (List.getElem?_eq_some.1 hs').1
      simpa [AttachHighscores, AttachHighscoresLoop_length] using this
    obtain ⟨s, hs⟩ : ∃ s, repo._scenarios[j]? = some s :=
      ⟨_, List.getElem?_eq_getElem hjlt⟩
    refine ⟨s, hs, ?_⟩
    rcases AttachHighscoresLoop_getElem repo._highscores 0 repo._scenarios j s hs with
      ⟨_, hres⟩ | ⟨i, h, hi, hhit, _, hres⟩
    · have heq : s' = s := by
        have : (AttachHighscores repo)._scenarios[j]? = some s := hres
        rw [hs'] at this
        exact Option.some.inj this
      subst heq
      exact ⟨rfl, Or.inl rfl⟩
    · have heq : s' = { s with highscore := some (0 + i) } := by
        have : (AttachHighscores repo)._scenarios[j]? = some { s with highscore := some (0 + i) } :=
          hres
        rw [hs'] at this
        exact Option.some.inj this
      subst heq
      refine ⟨rfl, Or.inr ⟨i, h, by simp, hi, ?_⟩⟩
      exact (filenameMatches_of_index hs hhit).2
  refine ⟨rfl, AttachHighscoresLoop_length _ _ _, hpos, ?_, ?_, ?_⟩
  · intro hnull s' hs' k hk
    obtain ⟨j, hj⟩ := List.mem_iff_getElem?.1 hs'
    obtain ⟨s, hs, _, hor⟩ := hpos j s' hj
    rcases hor with hsame | ⟨k', h, hk', hh, hm⟩
    · rw [hnull s (List.getElem?_mem hs), hk] at hsame
      cases hsame
    · rw [hk] at hk'
      cases hk'
      exact ⟨h, hh, hm⟩
  · intro k h s hk hfound
    have hj : repo._scenarios[GetByFilenameIndex repo._scenarios h.scen_file]? = some s :=
      getElem?_findIdx_of_find? hfound
    have hms : String.Equals h.scen_file (some (Path.GetFileName s.path)) true = true :=
      filenameMatches_of_find hfound
    rcases AttachHighscoresLoop_getElem repo._highscores 0 repo._scenarios _ s hj with
      ⟨hno, _⟩ | ⟨i, h', hi, hhit, hlast, hres⟩
    · exact absurd rfl (hno h (List.getElem?_mem hk))
    · have hki : k ≤ i := by
        by_contra hlt
        exact hlast k h (by omega) hk rfl
      refine ⟨i, h', hki, hi, (filenameMatches_of_index hj hhit).2, ?_, ?_⟩
      · have hfind : GetByFilename (AttachHighscores repo)._scenarios h.scen_file
            = (AttachHighscores repo)._scenarios[GetByFilenameIndex repo._scenarios h.scen_file]? := by
          unfold GetByFilename
          rw [find?_eq_getElem?_findIdx]
          have := AttachHighscoresLoop_findIdx repo._highscores 0 repo._scenarios h.scen_file
          unfold GetByFilenameIndex at this
          unfold AttachHighscores GetByFilenameIndex
          simp only [this]
        rw [hfind]
        have : (AttachHighscores repo)._scenarios[GetByFilenameIndex repo._scenarios h.scen_file]?
            = some { s with highscore := some (0 + i) } := hres
        rw [this, Nat.zero_add]
      · intro k'' h'' hlt hk''
        rw [Bool.eq_false_iff]
        intro hm''
        have hcongr : filenameMatches h''.scen_file = filenameMatches h.scen_file :=
          @filenameMatches_congr _ _ s hm'' hms
        apply hlast k'' h'' hlt hk''
        unfold GetByFilenameIndex
        rw [hcongr]
  · intro j s hs hno
    rcases AttachHighscoresLoop_getElem repo._highscores 0 repo._scenarios j s hs with
      ⟨_, hres⟩ | ⟨i, h, hi, hhit, _, _⟩
    · exact hres
    · have hm := (filenameMatches_of_index hs hhit).2
      rw [hno h (List.getElem?_mem hi)] at hm
      cases hm

/-- Witness for claim C35: with the table of two records for `Park.SC6`, the
scenario points to the second record; the entry with another file name keeps
its reference. -/
theorem AttachHighscores_joins_on_filename_witness :
    (AttachHighscores sampleUnattachedRepo)._scenarios
      = [{ sampleOlder with highscore := some 1 }, sampleLake] ∧
    (∃ (k' : Nat) (h' : scenario_highscore_entry), 0 ≤ k' ∧
      sampleUnattachedRepo._highscores[k']? = some h' ∧
      String.Equals h'.scen_file (some (Path.GetFileName sampleOlder.path)) true = true ∧
      GetByFilename (AttachHighscores sampleUnattachedRepo)._scenarios (some "Park.SC6".toList)
        = some { sampleOlder with highscore := some k' } ∧
      (∀ (k'' : Nat) (h'' : scenario_highscore_entry), k' < k'' →
        sampleUnattachedRepo._highscores[k'']? = some h'' →
        String.Equals h''.scen_file (some (Path.GetFileName sampleOlder.path)) true = false)) :=
  ⟨by decide,
    (AttachHighscores_joins_on_filename sampleUnattachedRepo).2.2.2.2.1 0
      { scen_file := some "Park.SC6".toList, scen_winner := some "Bob".toList,
        company_value := 50, timestamp := 1000, record_days := 10 }
      sampleOlder (by decide) (by decide)⟩


/-! ## Theorems: the key table of the keyboard shortcuts -/

/-- The result of the loop of `GetFromKey`: the first slot that holds the key,
or `SHORTCUT_UNDEFINED` when no slot holds it. -/
theorem KeyboardShortcuts.GetFromKeyLoop_spec (C : ShortcutConstants) (key : Nat) :
    ∀ (keys : List Nat) (i0 : Nat),
    (∃ p : Nat, keys[p]? = some key ∧ (∀ q : Nat, q < p → keys[q]? ≠ some key) ∧
      KeyboardShortcuts.GetFromKeyLoop C (key : Int) keys i0 = ((i0 + p : Nat) : Int)) ∨
    ((∀ q : Nat, keys[q]? ≠ some key) ∧
      KeyboardShortcuts.GetFromKeyLoop C (key : Int) keys i0 = (C.SHORTCUT_UNDEFINED : Int)) := by
  intro keys
  induction keys with
  | nil =>
    intro i0
    right
    exact ⟨fun q => by simp, rfl⟩
  | cons slot rest ih =>
    intro i0
    unfold KeyboardShortcuts.GetFromKeyLoop
    by_cases hk : (key : Int) = (slot : Int)
    · left
      have hk' : slot = key := by omega
      refine ⟨0, by simp [hk'], fun q hq => by omega, ?_⟩
      rw [if_pos hk]
      rfl
    · have hk' : slot ≠ key := by omega
      rw [if_neg hk]
      rcases ih (i0 + 1) with ⟨p, hp, hmin, hres⟩ | ⟨hno, hres⟩
      · left
        refine ⟨p + 1, by simpa using hp, ?_, ?_⟩
        · intro q hq
          cases q with
          | zero => simp [hk']
          | succ q' =>
            have := hmin q' (by omega)
            simpa using this
        · rw [hres]
          congr 1
          omega
      · right
        refine ⟨?_, hres⟩
        intro q
        cases q with
        | zero => simp [hk']
        | succ q' => simpa using hno q'

/-- The table after `Set`, slot by slot: the slot of the shortcut being
edited holds the key, another slot that held the key is undefined, and every
other slot is unchanged. -/
theorem KeyboardShortcuts.Set_slots (C : ShortcutConstants) (changeId : Nat) (keys : List Nat)
    (key : Nat) (hkey16 : key < 65536) (hkey : key ≠ C.SHORTCUT_UNDEFINED)
    (hundef : C.SHORTCUT_UNDEFINED < 65536) (hcount : keys.length ≤ C.SHORTCUT_UNDEFINED)
    (hid : changeId < keys.length) (huniq : UniqueKeys C keys) :
    ∃ keys', KeyboardShortcuts.Set C changeId keys (key : Int) = some keys' ∧
      keys'.length = keys.length ∧
      ∀ i : Nat, keys'[i]? =
        if i = changeId then some key
        else if keys[i]? = some key then some C.SHORTCUT_UNDEFINED
        else keys[i]? := by
  have hstore : ((key : Int) % 65536).toNat = key := by omega
  have hU : C.SHORTCUT_UNDEFINED % 65536 = C.SHORTCUT_UNDEFINED := Nat.mod_eq_of_lt hundef
  unfold KeyboardShortcuts.Set KeyboardShortcuts.GetFromKey
  rcases KeyboardShortcuts.GetFromKeyLoop_spec C key keys 0 with
    ⟨p, hp, _, hres⟩ | ⟨hno, hres⟩
  · have hplt : p < keys.length := (List.getElem?_eq_some.1 hp).1
    have hne : ((0 + p : Nat) : Int) ≠ (C.SHORTCUT_UNDEFINED : Int) := by omega
    simp only [hres, hstore, hU]
    rw [if_pos hne]
    have hlen : changeId < (keys.set ((0 + p : Nat) : Int).toNat C.SHORTCUT_UNDEFINED).length := by
      rw [List.length_set]; exact hid
    rw [if_pos hlen]
    refine ⟨_, rfl, by simp, ?_⟩
    intro i
    have hp' : ((0 + p : Nat) : Int).toNat = p := by omega
    rw [hp']
    by_cases hi : i = changeId
    · subst hi
      rw [if_pos rfl, List.getElem?_set_self (by rw [List.length_set]; exact hid)]
    · rw [if_neg hi, List.getElem?_set_ne (Ne.symm hi)]
      by_cases hip : i = p
      · subst hip
        rw [if_pos hp, List.getElem?_set_self hplt]
      · rw [List.getElem?_set_ne (Ne.symm hip)]
        have hnot : keys[i]? ≠ some key := by
          intro hik
          exact hkey (huniq i p key hip hik hp)
        rw [if_neg hnot]
  · simp only [hres, hstore, ne_eq, not_true_eq_false, if_false]
    rw [if_pos hid]
    refine ⟨_, rfl, by simp, ?_⟩
    intro i
    by_cases hi : i = changeId
    · subst hi
      rw [if_pos rfl, List.getElem?_set_self hid]
    · rw [if_neg hi, List.getElem?_set_ne (Ne.symm hi), if_neg (hno i)]

/-- Claim C39: when no defined key occurs in more than one slot of the key
table, `Set(key)` for a 16-bit key other than `SHORTCUT_UNDEFINED` leaves a
table of the same length in which again no defined key occurs in more than
one slot; `GetFromKey(key)` then returns the shortcut being edited
(`gKeyboardShortcutChangeId`); another slot that held the key before is
`SHORTCUT_UNDEFINED`; and every other slot is unchanged. -/
theorem KeyboardShortcuts_Set_keeps_keys_unique (C : ShortcutConstants) (changeId : Nat)
    (keys : List Nat) (key : Nat) (hkey16 : key < 65536) (hkey : key ≠ C.SHORTCUT_UNDEFINED)
    (hundef : C.SHORTCUT_UNDEFINED < 65536) (hcount : keys.length ≤ C.SHORTCUT_UNDEFINED)
    (hid : changeId < keys.length) (huniq : UniqueKeys C keys) :
    ∃ keys', KeyboardShortcuts.Set C changeId keys (key : Int) = some keys' ∧
      keys'.length = keys.length ∧
      UniqueKeys C keys' ∧
      KeyboardShortcuts.GetFromKey C keys' (key : Int) = (changeId : Int) ∧
      keys'[changeId]? = some key ∧
      (∀ i : Nat, i ≠ changeId → keys[i]? = some key →
        keys'[i]? = some C.SHORTCUT_UNDEFINED) ∧
      (∀ i : Nat, i ≠ changeId → keys[i]? ≠ some key → keys'[i]? = keys[i]?) := by
  obtain ⟨keys', hset, hlen, hslots⟩ :=
    KeyboardShortcuts.Set_slots C changeId keys key hkey16 hkey hundef hcount hid huniq
  have hself : keys'[changeId]? = some key := by
    rw [hslots, if_pos rfl]
  have honly : ∀ i : Nat, keys'[i]? = some key → i = changeId := by
    intro i hi
    by_contra hne
    rw [hslots, if_neg hne] at hi
    split at hi
    · exact hkey (Option.some.inj hi).symm
    · rename_i hnot
      exact hnot hi
  refine ⟨keys', hset, hlen, ?_, ?_, hself, ?_, ?_⟩
  · intro i j k hij hi hj
    by_cases hk : k = key
    · subst hk
      exact absurd ((honly i hi).trans (honly j hj).symm) hij
    · have hi' : i ≠ changeId := by
        intro h
        rw [h, hself] at hi
        exact hk (Option.some.inj hi).symm
      have hj' : j ≠ changeId := by
        intro h
        rw [h, hself] at hj
        exact hk (Option.some.inj hj).symm
      rw [hslots, if_neg hi'] at hi
      rw [hslots, if_neg hj'] at hj
      split at hi
      · exact (Option.some.inj hi).symm
      · split at hj
        · exact (Option.some.inj hj).symm
        · exact huniq i j k hij hi hj
  · unfold KeyboardShortcuts.GetFromKey
    rcases KeyboardShortcuts.GetFromKeyLoop_spec C key keys' 0 with
      ⟨p, hp, _, hres⟩ | ⟨hno, _⟩
    · rw [hres, honly p hp, Nat.zero_add]
    · exact absurd hself (hno changeId)
  · intro i hi hik
    rw [hslots, if_neg hi, if_pos hik]
  · intro i hi hik
    rw [hslots, if_neg hi, if_neg hik]

/-- Witness for claim C39: in the sample table key 40 is bound to shortcut 1;
binding it to shortcut 3 unbinds shortcut 1. -/
theorem KeyboardShortcuts_Set_keeps_keys_unique_witness :
    (∃ keys', KeyboardShortcuts.Set openrct2Shortcuts 3 sampleKeys ((40 : Nat) : Int) = some keys' ∧
      keys'.length = sampleKeys.length ∧
      UniqueKeys openrct2Shortcuts keys' ∧
      KeyboardShortcuts.GetFromKey openrct2Shortcuts keys' ((40 : Nat) : Int) = ((3 : Nat) : Int) ∧
      keys'[3]? = some 40 ∧
      (∀ i : Nat, i ≠ 3 → sampleKeys[i]? = some 40 →
        keys'[i]? = some openrct2Shortcuts.SHORTCUT_UNDEFINED) ∧
      (∀ i : Nat, i ≠ 3 → sampleKeys[i]? ≠ some 40 → keys'[i]? = sampleKeys[i]?)) ∧
    KeyboardShortcuts.GetFromKey openrct2Shortcuts sampleKeys 40 = 1 ∧
    KeyboardShortcuts.Set openrct2Shortcuts 3 sampleKeys 40 = some [42, 0xFFFF, 41, 40] :=
  ⟨KeyboardShortcuts_Set_keeps_keys_unique openrct2Shortcuts 3 sampleKeys 40 (by decide)
      (by decide) (by decide) (by decide) (by decide)
      (by
        intro i j k hij hi hj
        have hi4 : i < 4 := (List.getElem?_eq_some.1 hi).1
        have hj4 : j < 4 := (List.getElem?_eq_some.1 hj).1
        interval_cases i <;> interval_cases j <;>
          simp [sampleKeys, openrct2Shortcuts] at hij hi hj ⊢ <;> omega),
    by decide, by decide⟩


/-! ## Theorems: the import of absent legacy records -/

end OpenRCT2
